import Mathlib

/-!
Point-cloud down-sampling (`src/Core/Geometry/DownSample.cpp`)

A shallow embedding of the three filters of `DownSample.cpp` (`VoxelDownSample`,
`UniformDownSample`, `ClipPointCloud`) together with the anonymous-namespace class
`AccumulatedPoint`, and theorems about them.

Modelling conventions.

* A finite `double` is a rational number (`ℚ`).  The operations on `double` of
  `VoxelDownSample` and `AccumulatedPoint` (sums, differences, products, quotients) are taken
  from a parameter `fp : FloatOps`.  A theorem stated for every `fp` holds however the
  operations round, in particular for the binary64 arithmetic of the program,
  `FloatOps.binary64` (rounding to nearest, ties to even).  `FloatOps.exact` is arithmetic
  without rounding; a theorem stated for it is about the algorithm in exact arithmetic, and
  its text says so.  Comparisons, `min`, `max` and `floor` do not round in the program
  either.  Infinities and NaN are not modelled: a call in which the result of an operation
  leaves the range of the finite `double`s is outside the model.
* `int` is a 32-bit two's-complement integer, its values living in `Int`.  Conversions into
  `int` (`static_cast<int>(size)`, `int(floor(x))`) and the results of `int` arithmetic
  (`i += every_k_points`, `num_of_points++`) are reduced by `toInt`; C++ leaves a signed
  overflow undefined, and the wrapped value is what the usual targets compute.
* An index of type `int` used in `points_[i]` is converted to `size_t` (`toSizeT`); a read
  outside the array, which C++ leaves undefined, yields the default vector.
* An output parameter `PointCloud &output_cloud` becomes an argument (the prior content) and
  a component of the returned pair `(success, output_cloud)`.
* `std::unordered_map` is an association list in order of first insertion; its enumeration
  order is not specified by C++, so statements about its content are made up to permutation.
* The diagnostic calls (`PrintDebug`, `PrintAlways`) have no effect on the results and are
  omitted.
-/

namespace three

/-! ## Arithmetic on `double` -/

/-- The arithmetic on `double` that `VoxelDownSample` uses: sum, difference, product and
quotient, each a function of its two operands.  A theorem stated for every `FloatOps` holds
however the operations round. -/
structure FloatOps where
  add : ℚ → ℚ → ℚ
  sub : ℚ → ℚ → ℚ
  mul : ℚ → ℚ → ℚ
  div : ℚ → ℚ → ℚ

/-- The integer nearest to the non-negative rational `m`, the even one of the two when `m`
lies half-way between them. -/
def roundHalfEven (m : ℚ) : Int :=
  let f := ⌊m⌋
  let r := m - f
  if r < 1 / 2 then f
  else if 1 / 2 < r then f + 1
  else if f % 2 = 0 then f else f + 1

/-- The number of halvings that bring `n` below `2`, at most `fuel` of them. -/
def halvings : Nat → Nat → Nat
  | 0, _ => 0
  | fuel + 1, n => if 2 ≤ n then halvings fuel (n / 2) + 1 else 0

/-- The position of the leading binary digit of `n`: `2^(bitLog n) ≤ n < 2^(bitLog n + 1)`
for positive `n`. -/
def bitLog (n : Nat) : Nat := halvings n n

/-- The exponent `e` with `2^e ≤ n / d < 2^(e+1)`, for positive `n` and `d`. -/
def floorLog2 (n d : Nat) : Int :=
  let e0 : Int := (bitLog n : Int) - (bitLog d : Int)
  if e0 ≥ 0 then
    if d * 2 ^ e0.toNat ≤ n then e0 else e0 - 1
  else
    if d ≤ n * 2 ^ (-e0).toNat then e0 else e0 - 1

/-- The power `2^e` of an integer exponent. -/
def pow2 (e : Int) : ℚ :=
  if e ≥ 0 then ((2 ^ e.toNat : Nat) : ℚ) else 1 / ((2 ^ (-e).toNat : Nat) : ℚ)

/-- Rounding of a rational to binary64, to nearest with ties to even: a significand of 53
bits, exponents from `-1022` on (subnormal numbers below).  The largest finite `double` is
not enforced: a value that binary64 would round to an infinity is rounded as if the exponent
range were unbounded above. -/
def round64 (q : ℚ) : ℚ :=
  if q = 0 then 0
  else
    let a := |q|
    let e := max (floorLog2 a.num.toNat a.den) (-1022)
    let ulp := pow2 (e - 52)
    let r := (roundHalfEven (a / ulp) : ℚ) * ulp
    if q < 0 then -r else r

namespace FloatOps

/-- Exact arithmetic: no operation rounds. -/
def exact : FloatOps :=
  ⟨fun a b => a + b, fun a b => a - b, fun a b => a * b, fun a b => a / b⟩

/-- The arithmetic of IEEE 754 binary64 on finite values, each operation rounding the exact
result to nearest (ties to even), as long as no result leaves the range of the finite
`double`s.  A quotient by zero, an infinity or NaN in binary64, is outside it as well (it is
`0` here); `VoxelDownSample` divides by `voxel_size > 0` and by the count of an accumulator. -/
def binary64 : FloatOps :=
  ⟨fun a b => round64 (a + b), fun a b => round64 (a - b), fun a b => round64 (a * b),
    fun a b => round64 (a / b)⟩

end FloatOps

/-! ## Vectors (`Eigen::Vector3d`) -/

/-- The type `Eigen::Vector3d`; a finite `double` is a rational number. -/
structure Vector3d where
  x : ℚ
  y : ℚ
  z : ℚ
deriving DecidableEq

namespace Vector3d

/-- The vector `Eigen::Vector3d(0.0, 0.0, 0.0)`. -/
def zero : Vector3d := ⟨0, 0, 0⟩

instance : Inhabited Vector3d := ⟨zero⟩

/-- Componentwise `a + b`. -/
def add (fp : FloatOps) (a b : Vector3d) : Vector3d :=
  ⟨fp.add a.x b.x, fp.add a.y b.y, fp.add a.z b.z⟩

/-- Componentwise `a - b`. -/
def sub (fp : FloatOps) (a b : Vector3d) : Vector3d :=
  ⟨fp.sub a.x b.x, fp.sub a.y b.y, fp.sub a.z b.z⟩

/-- The product `a * s` of a vector and a scalar. -/
def smul (fp : FloatOps) (a : Vector3d) (s : ℚ) : Vector3d :=
  ⟨fp.mul a.x s, fp.mul a.y s, fp.mul a.z s⟩

/-- The quotient `a / s` of a vector by a scalar. -/
def sdiv (fp : FloatOps) (a : Vector3d) (s : ℚ) : Vector3d :=
  ⟨fp.div a.x s, fp.div a.y s, fp.div a.z s⟩

/-- The largest coefficient, `a.maxCoeff()`. -/
def maxCoeff (a : Vector3d) : ℚ := max (max a.x a.y) a.z

end Vector3d

/-! ## Machine integers -/

/-- The constant `std::numeric_limits<int>::max()` for a 32-bit `int`. -/
def INT_MAX : Int := 2147483647

/-- Conversion of an integer value to a 32-bit `int`: reduction modulo `2^32` into the range
`[-2^31, 2^31)`. -/
def toInt (v : Int) : Int := (v + 2147483648) % 4294967296 - 2147483648

/-- Conversion of an `int` to the 64-bit unsigned `size_t`, as for the index in `points_[i]`:
reduction modulo `2^64`. -/
def toSizeT (v : Int) : Nat := (v % 18446744073709551616).toNat

/-! ## Point clouds (`PointCloud.h`) -/

/-- The class `PointCloud`: the three attribute arrays. -/
structure PointCloud where
  points_ : List Vector3d
  normals_ : List Vector3d
  colors_ : List Vector3d
deriving DecidableEq

namespace PointCloud

/-- Modelled from the spec: `PointCloud::Clear` (`PointCloud.h` is not among the sources).
The output is "cleared at entry": all three attribute arrays become empty. -/
def Clear (_c : PointCloud) : PointCloud := ⟨[], [], []⟩

/-- Modelled from the spec: `PointCloud::HasPoints` (`PointCloud.h` is not among the
sources).  A cloud has points when `points` is not empty. -/
def HasPoints (c : PointCloud) : Bool := decide (0 < c.points_.length)

/-- Modelled from the spec: `PointCloud::HasNormals` (`PointCloud.h` is not among the
sources).  `normals` is "either empty (cloud has no normals) or exactly as long as
`points`": a cloud with points has normals when `normals` is as long as `points`. -/
def HasNormals (c : PointCloud) : Bool :=
  decide (0 < c.points_.length) && decide (c.normals_.length = c.points_.length)

/-- Modelled from the spec: `PointCloud::HasColors` (`PointCloud.h` is not among the
sources).  `colors` is "either empty or exactly as long as `points`": a cloud with points
has colors when `colors` is as long as `points`. -/
def HasColors (c : PointCloud) : Bool :=
  decide (0 < c.points_.length) && decide (c.colors_.length = c.points_.length)

/-- The invariant of the data model: `normals` is empty or as long as `points`, and the
same for `colors`. -/
def Invariant (c : PointCloud) : Prop :=
  (c.normals_ = [] ∨ c.normals_.length = c.points_.length) ∧
  (c.colors_ = [] ∨ c.colors_.length = c.points_.length)

instance (c : PointCloud) : Decidable c.Invariant := by
  unfold Invariant; infer_instance

/-- Componentwise minimum of two vectors. -/
def vmin (a b : Vector3d) : Vector3d := ⟨min a.x b.x, min a.y b.y, min a.z b.z⟩

/-- Componentwise maximum of two vectors. -/
def vmax (a b : Vector3d) : Vector3d := ⟨max a.x b.x, max a.y b.y, max a.z b.z⟩

/-- Modelled from the spec: `PointCloud::GetMinBound` (`PointCloud.cpp` is not among the
sources).  The cloud's "true min bound": the componentwise minimum of its points (the zero
vector for a cloud without points, a case no filter reaches). -/
def GetMinBound (c : PointCloud) : Vector3d :=
  match c.points_ with
  | [] => Vector3d.zero
  | p :: ps => ps.foldl vmin p

/-- Modelled from the spec: `PointCloud::GetMaxBound` (`PointCloud.cpp` is not among the
sources).  The cloud's "true max bound": the componentwise maximum of its points (the zero
vector for a cloud without points, a case no filter reaches). -/
def GetMaxBound (c : PointCloud) : Vector3d :=
  match c.points_ with
  | [] => Vector3d.zero
  | p :: ps => ps.foldl vmax p

end PointCloud

/-! ## The accumulator and the voxel map -/

/-- The type `VoxelIndex3`, a `std::tuple<int, int, int>`. -/
abbrev VoxelIndex3 := Int × Int × Int

/-- The class `AccumulatedPoint`. -/
structure AccumulatedPoint where
  num_of_points : Int
  point : Vector3d
  normal : Vector3d
  color : Vector3d
deriving DecidableEq

namespace AccumulatedPoint

/-- The constructor `AccumulatedPoint()`. -/
def init : AccumulatedPoint := ⟨0, Vector3d.zero, Vector3d.zero, Vector3d.zero⟩

/-- The method `AddPoint(cloud, index)`; `num_of_points` is an `int`. -/
def AddPoint (fp : FloatOps) (a : AccumulatedPoint) (cloud : PointCloud) (index : Nat) :
    AccumulatedPoint :=
  ⟨toInt (a.num_of_points + 1),
   a.point.add fp (cloud.points_.getD index default),
   if cloud.HasNormals then a.normal.add fp (cloud.normals_.getD index default)
   else a.normal,
   if cloud.HasColors then a.color.add fp (cloud.colors_.getD index default) else a.color⟩

/-- The method `GetAveragePoint()`: `point / double(num_of_points)`. -/
def GetAveragePoint (fp : FloatOps) (a : AccumulatedPoint) : Vector3d :=
  a.point.sdiv fp (a.num_of_points : ℚ)

/-- The method `GetAverageNormal()`.  `Eigen`'s `normalized()` takes a square root, which the
rationals do not have; it is a parameter of the model. -/
def GetAverageNormal (normalized : Vector3d → Vector3d) (a : AccumulatedPoint) : Vector3d :=
  normalized a.normal

/-- The method `GetAverageColor()`: `color / double(num_of_points)`. -/
def GetAverageColor (fp : FloatOps) (a : AccumulatedPoint) : Vector3d :=
  a.color.sdiv fp (a.num_of_points : ℚ)

end AccumulatedPoint

/-- The statement `m[key].f()` on a `std::unordered_map`: `operator[]` finds the entry of
`key`, inserting a default-constructed value when there is none, and `f` updates the value in
place. -/
def mapUpdate {K V : Type} [DecidableEq K] (dflt : V) (f : V → V) (key : K) :
    List (K × V) → List (K × V)
  | [] => [(key, f dflt)]
  | e :: rest =>
    if e.1 = key then (e.1, f e.2) :: rest else e :: mapUpdate dflt f key rest

/-! ## `VoxelDownSample` -/

/-- The voxel index computed in the first loop of `VoxelDownSample` for the point `p`:
`ref_coord = (p - voxel_min_bound) / voxel_size`, then `int(floor(.))` per coordinate. -/
def voxelIndex (fp : FloatOps) (voxel_min_bound : Vector3d) (voxel_size : ℚ)
    (p : Vector3d) : VoxelIndex3 :=
  let ref_coord := (p.sub fp voxel_min_bound).sdiv fp voxel_size
  (toInt ⌊ref_coord.x⌋, toInt ⌊ref_coord.y⌋, toInt ⌊ref_coord.z⌋)

/-- The lower corner of the voxel grid: `GetMinBound() - voxel_size3 * 0.5`. -/
def voxelMinBound (fp : FloatOps) (input_cloud : PointCloud) (voxel_size : ℚ) : Vector3d :=
  input_cloud.GetMinBound.sub fp
    ((Vector3d.mk voxel_size voxel_size voxel_size).smul fp (1 / 2))

/-- The upper corner of the voxel grid: `GetMaxBound() + voxel_size3 * 0.5`. -/
def voxelMaxBound (fp : FloatOps) (input_cloud : PointCloud) (voxel_size : ℚ) : Vector3d :=
  input_cloud.GetMaxBound.add fp
    ((Vector3d.mk voxel_size voxel_size voxel_size).smul fp (1 / 2))

/-- The first loop of `VoxelDownSample`: the map `voxelindex_to_accpoint` after every point
has been added to the accumulator of its voxel. -/
def voxelAccumulate (fp : FloatOps) (input_cloud : PointCloud) (voxel_size : ℚ) :
    List (VoxelIndex3 × AccumulatedPoint) :=
  (List.range input_cloud.points_.length).foldl
    (fun m i =>
      mapUpdate AccumulatedPoint.init (fun a => a.AddPoint fp input_cloud i)
        (voxelIndex fp (voxelMinBound fp input_cloud voxel_size) voxel_size
          (input_cloud.points_.getD i default)) m)
    []

/-- The second loop of `VoxelDownSample`: one output point per entry of the map. -/
def voxelEmit (fp : FloatOps) (normalized : Vector3d → Vector3d)
    (has_normals has_colors : Bool) (m : List (VoxelIndex3 × AccumulatedPoint))
    (output_cloud : PointCloud) : PointCloud :=
  m.foldl
    (fun out accpoint =>
      ⟨out.points_ ++ [accpoint.2.GetAveragePoint fp],
       if has_normals then out.normals_ ++ [accpoint.2.GetAverageNormal normalized]
       else out.normals_,
       if has_colors then out.colors_ ++ [accpoint.2.GetAverageColor fp]
       else out.colors_⟩)
    output_cloud

/-- The function `VoxelDownSample(input_cloud, voxel_size, output_cloud)`, with the arithmetic
on `double` and the routine `normalized()` of Eigen as parameters. -/
def VoxelDownSample (fp : FloatOps) (normalized : Vector3d → Vector3d)
    (input_cloud : PointCloud) (voxel_size : ℚ) (output_cloud : PointCloud) :
    Bool × PointCloud :=
  let output_cloud := output_cloud.Clear
  if input_cloud.HasPoints = false then (false, output_cloud)
  else if voxel_size ≤ 0 then (false, output_cloud)
  else
    let voxel_min_bound := voxelMinBound fp input_cloud voxel_size
    let voxel_max_bound := voxelMaxBound fp input_cloud voxel_size
    if fp.mul voxel_size (INT_MAX : ℚ) < (voxel_max_bound.sub fp voxel_min_bound).maxCoeff then
      (false, output_cloud)
    else
      (true, voxelEmit fp normalized input_cloud.HasNormals input_cloud.HasColors
        (voxelAccumulate fp input_cloud voxel_size) output_cloud)

/-! ## `UniformDownSample` and `ClipPointCloud` -/

/-- The loop body shared by `UniformDownSample` and `ClipPointCloud`: `push_back` of the
point at index `i` and, when present, of its normal and color. -/
def pushFrom (input_cloud : PointCloud) (has_normals has_colors : Bool) (i : Nat)
    (output_cloud : PointCloud) : PointCloud :=
  ⟨output_cloud.points_ ++ [input_cloud.points_.getD i default],
   if has_normals then output_cloud.normals_ ++ [input_cloud.normals_.getD i default]
   else output_cloud.normals_,
   if has_colors then output_cloud.colors_ ++ [input_cloud.colors_.getD i default]
   else output_cloud.colors_⟩

/-- The loop `for (int i = ..; i < n; i += every_k_points)` of `UniformDownSample`, started
at `i`; the counter is an `int`.  The first argument bounds the number of iterations: as long
as the counter does not overflow it grows by at least one per iteration, so `n - i`
iterations are enough (`uniformLoop_fuel`). -/
def uniformLoop (input_cloud : PointCloud) (every_k_points n : Int)
    (has_normals has_colors : Bool) : Nat → Int → PointCloud → PointCloud
  | 0, _, output_cloud => output_cloud
  | fuel + 1, i, output_cloud =>
    if i < n then
      uniformLoop input_cloud every_k_points n has_normals has_colors fuel
        (toInt (i + every_k_points))
        (pushFrom input_cloud has_normals has_colors (toSizeT i) output_cloud)
    else output_cloud

/-- The function `UniformDownSample(input_cloud, every_k_points, output_cloud)`. -/
def UniformDownSample (input_cloud : PointCloud) (every_k_points : Int)
    (output_cloud : PointCloud) : Bool × PointCloud :=
  let output_cloud := output_cloud.Clear
  if input_cloud.HasPoints = false then (false, output_cloud)
  else if every_k_points ≤ 0 then (false, output_cloud)
  else
    let n := toInt (input_cloud.points_.length : Int)
    (true, uniformLoop input_cloud every_k_points n input_cloud.HasNormals
      input_cloud.HasColors n.toNat 0 output_cloud)

/-- The test of the loop of `ClipPointCloud`: the point lies in the closed box. -/
def inBox (min_bound max_bound point : Vector3d) : Bool :=
  decide (point.x ≥ min_bound.x) && decide (point.x ≤ max_bound.x) &&
  decide (point.y ≥ min_bound.y) && decide (point.y ≤ max_bound.y) &&
  decide (point.z ≥ min_bound.z) && decide (point.z ≤ max_bound.z)

/-- The function `ClipPointCloud(input_cloud, min_bound, max_bound, output_cloud)`. -/
def ClipPointCloud (input_cloud : PointCloud) (min_bound max_bound : Vector3d)
    (output_cloud : PointCloud) : Bool × PointCloud :=
  let output_cloud := output_cloud.Clear
  if input_cloud.HasPoints = false then (false, output_cloud)
  else if min_bound.x > max_bound.x ∨ min_bound.y > max_bound.y ∨ min_bound.z > max_bound.z then
    (false, output_cloud)
  else
    (true, (List.range input_cloud.points_.length).foldl
      (fun out i =>
        if inBox min_bound max_bound (input_cloud.points_.getD i default) then
          pushFrom input_cloud input_cloud.HasNormals input_cloud.HasColors i out
        else out)
      output_cloud)

/-! ## Auxiliary definitions for the statements -/

/-- Lookup of the value stored for `key` in the association list. -/
def mapFind {K V : Type} [DecidableEq K] (key : K) : List (K × V) → Option V
  | [] => none
  | e :: rest => if e.1 = key then some e.2 else mapFind key rest

/-- The association list built by folding `mapUpdate` over `xs`, the entry of `key x` being
updated by `step · x`: the shape of the first loop of `VoxelDownSample`. -/
def groupFold {α K V : Type} [DecidableEq K] (dflt : V) (step : V → α → V) (key : α → K)
    (xs : List α) : List (K × V) :=
  xs.foldl (fun m x => mapUpdate dflt (fun v => step v x) (key x) m) []

/-- The vectors `ps` added up as the accumulator does it: from the zero vector, one `+=` per
vector, in list order. -/
def vsum (fp : FloatOps) (ps : List Vector3d) : Vector3d :=
  ps.foldl (Vector3d.add fp) Vector3d.zero

/-- The quotient `sum / count` for the vectors `ps`: their sum, added up in list order,
divided by their number.  In exact arithmetic it is the arithmetic mean. -/
def mean (fp : FloatOps) (ps : List Vector3d) : Vector3d :=
  (vsum fp ps).sdiv fp (ps.length : ℚ)

/-- The average an accumulator reports for the vectors `ps` it has taken: their sum divided
by `double(num_of_points)`, where `num_of_points` is the 32-bit count of `ps`. -/
def accAverage (fp : FloatOps) (ps : List Vector3d) : Vector3d :=
  (vsum fp ps).sdiv fp ((toInt (ps.length : Int) : Int) : ℚ)

/-- The extent guard of `VoxelDownSample` is passed: the third early return is not taken. -/
def passesExtentGuard (fp : FloatOps) (input_cloud : PointCloud) (voxel_size : ℚ) : Prop :=
  ¬ fp.mul voxel_size (INT_MAX : ℚ) <
    ((voxelMaxBound fp input_cloud voxel_size).sub fp
      (voxelMinBound fp input_cloud voxel_size)).maxCoeff

instance (fp : FloatOps) (input_cloud : PointCloud) (voxel_size : ℚ) :
    Decidable (passesExtentGuard fp input_cloud voxel_size) := by
  unfold passesExtentGuard; infer_instance

/-- The voxel index that the first loop of `VoxelDownSample` computes for a point `p` of the
cloud: `int(floor((p - min_bound) / voxel_size))` per coordinate, with
`min_bound = GetMinBound(input) - voxel_size * 0.5`. -/
def pointIndex (fp : FloatOps) (input_cloud : PointCloud) (voxel_size : ℚ) (p : Vector3d) :
    VoxelIndex3 :=
  voxelIndex fp (voxelMinBound fp input_cloud voxel_size) voxel_size p

/-- The occupied voxel indices, each listed once. -/
def occupied (fp : FloatOps) (input_cloud : PointCloud) (voxel_size : ℚ) : List VoxelIndex3 :=
  (input_cloud.points_.map (pointIndex fp input_cloud voxel_size)).dedup

/-- The indices of the input points whose voxel index is `v`, in increasing order. -/
def voxelMembers (fp : FloatOps) (input_cloud : PointCloud) (voxel_size : ℚ)
    (v : VoxelIndex3) : List Nat :=
  (List.range input_cloud.points_.length).filter
    (fun i => decide (pointIndex fp input_cloud voxel_size
      (input_cloud.points_.getD i default) = v))

/-- The input points whose voxel index is `v`, in input order. -/
def voxelPoints (fp : FloatOps) (input_cloud : PointCloud) (voxel_size : ℚ)
    (v : VoxelIndex3) : List Vector3d :=
  input_cloud.points_.filter
    (fun p => decide (pointIndex fp input_cloud voxel_size p = v))

/-- The normals of the input points whose voxel index is `v`, in input order. -/
def voxelNormals (fp : FloatOps) (input_cloud : PointCloud) (voxel_size : ℚ)
    (v : VoxelIndex3) : List Vector3d :=
  (voxelMembers fp input_cloud voxel_size v).map
    (fun i => input_cloud.normals_.getD i default)

/-- The colors of the input points whose voxel index is `v`, in input order. -/
def voxelColors (fp : FloatOps) (input_cloud : PointCloud) (voxel_size : ℚ)
    (v : VoxelIndex3) : List Vector3d :=
  (voxelMembers fp input_cloud voxel_size v).map
    (fun i => input_cloud.colors_.getD i default)

/-- The voxel index of a point as the specification words it: the mathematical floor of
`(p - min_bound) / voxel_size` per coordinate, with
`min_bound = GetMinBound(input) - voxel_size / 2`, in exact arithmetic. -/
def specVoxelIndex (input_cloud : PointCloud) (voxel_size : ℚ) (p : Vector3d) : VoxelIndex3 :=
  (⌊(p.x - (input_cloud.GetMinBound.x - voxel_size / 2)) / voxel_size⌋,
   ⌊(p.y - (input_cloud.GetMinBound.y - voxel_size / 2)) / voxel_size⌋,
   ⌊(p.z - (input_cloud.GetMinBound.z - voxel_size / 2)) / voxel_size⌋)

/-- The extent of the cloud, `GetMaxBound() - GetMinBound()`, per axis. -/
def extent (input_cloud : PointCloud) : Vector3d :=
  input_cloud.GetMaxBound.sub FloatOps.exact input_cloud.GetMinBound

/-- The entries of `l` at the indices `j * k, (j + 1) * k, ..` for the multiples below the
`c`-th one. -/
def strideList (l : List Vector3d) (k c j : Nat) : List Vector3d :=
  (List.range (c - j)).map (fun t => l.getD ((j + t) * k) default)

/-- The indices of the input points inside the closed box, in increasing order. -/
def clipSelected (input_cloud : PointCloud) (min_bound max_bound : Vector3d) : List Nat :=
  (List.range input_cloud.points_.length).filter
    (fun i => inBox min_bound max_bound (input_cloud.points_.getD i default))

/-- The attribute arrays of `output_cloud` are in lockstep with its points, following the
input: normals as many as points when `input_cloud` has normals (its `normals` is not empty),
none otherwise; the same for colors. -/
def Lockstep (input_cloud output_cloud : PointCloud) : Prop :=
  (input_cloud.normals_ ≠ [] → output_cloud.normals_.length = output_cloud.points_.length) ∧
  (input_cloud.normals_ = [] → output_cloud.normals_ = []) ∧
  (input_cloud.colors_ ≠ [] → output_cloud.colors_.length = output_cloud.points_.length) ∧
  (input_cloud.colors_ = [] → output_cloud.colors_ = [])

/-- The list `l` reordered by the permutation `σ` of its indices; a list of another length
than `σ` (an absent attribute) is left as it is. -/
def permuteList (σ : List Nat) (l : List Vector3d) : List Vector3d :=
  if l.length = σ.length then σ.map (fun i => l.getD i default) else l

/-- The cloud with the permutation `σ` applied simultaneously to its points, normals and
colors. -/
def permuteCloud (σ : List Nat) (c : PointCloud) : PointCloud :=
  ⟨permuteList σ c.points_, permuteList σ c.normals_, permuteList σ c.colors_⟩

/-! ## Association lists -/

section MapLemmas

variable {α K V : Type} [DecidableEq K]

theorem mapFind_mapUpdate (dflt : V) (f : V → V) (key k : K) (m : List (K × V)) :
    mapFind k (mapUpdate dflt f key m) =
      if k = key then some (f ((mapFind key m).getD dflt)) else mapFind k m := by
  induction m with
  | nil =>
    by_cases h : k = key
    · subst h; simp [mapUpdate, mapFind]
    · have h2 : ¬ key = k := fun e => h e.symm
      simp [mapUpdate, mapFind, h, h2]
  | cons e rest ih =>
    by_cases h1 : e.1 = key
    · by_cases h : k = key
      · subst h; simp [mapUpdate, mapFind, h1]
      · have h2 : ¬ key = k := fun e2 => h e2.symm
        simp [mapUpdate, mapFind, h1, h, h2]
    · by_cases h : k = key
      · subst h; simp [mapUpdate, mapFind, h1, ih]
      · by_cases h2 : e.1 = k
        · simp [mapUpdate, mapFind, h1, h, h2]
        · simp [mapUpdate, mapFind, h1, h, h2, ih]

theorem keys_mapUpdate (dflt : V) (f : V → V) (key : K) (m : List (K × V)) :
    (mapUpdate dflt f key m).map Prod.fst =
      if key ∈ m.map Prod.fst then m.map Prod.fst else m.map Prod.fst ++ [key] := by
  induction m with
  | nil => simp [mapUpdate]
  | cons e rest ih =>
    by_cases h1 : e.1 = key
    · simp [mapUpdate, h1]
    · have h2 : ¬ key = e.1 := fun e2 => h1 e2.symm
      by_cases h3 : key ∈ rest.map Prod.fst
      · rw [if_pos h3] at ih
        have h4 : key ∈ (e :: rest).map Prod.fst := by
          simp only [List.map_cons, List.mem_cons]; exact Or.inr h3
        rw [if_pos h4]
        simp [mapUpdate, h1, ih]
      · rw [if_neg h3] at ih
        have h4 : ¬ key ∈ (e :: rest).map Prod.fst := by
          simp only [List.map_cons, List.mem_cons, not_or]; exact ⟨h2, h3⟩
        rw [if_neg h4]
        simp [mapUpdate, h1, ih]

theorem length_mapUpdate_le (dflt : V) (f : V → V) (key : K) (m : List (K × V)) :
    (mapUpdate dflt f key m).length ≤ m.length + 1 := by
  have h := congrArg List.length (keys_mapUpdate dflt f key m)
  simp only [List.length_map] at h
  rw [h]
  split <;> simp

theorem nodup_keys_mapUpdate (dflt : V) (f : V → V) (key : K) (m : List (K × V))
    (h : (m.map Prod.fst).Nodup) : ((mapUpdate dflt f key m).map Prod.fst).Nodup := by
  rw [keys_mapUpdate]
  split
  · exact h
  · rename_i hk
    rw [List.nodup_append]
    refine ⟨h, List.nodup_singleton _, ?_⟩
    intro a ha hb
    simp only [List.mem_singleton] at hb
    subst hb
    exact hk ha

theorem mapFind_isSome (k : K) (m : List (K × V)) :
    (mapFind k m).isSome = true ↔ k ∈ m.map Prod.fst := by
  induction m with
  | nil => simp [mapFind]
  | cons e rest ih =>
    by_cases h : e.1 = k
    · simp [mapFind, h]
    · have h2 : ¬ k = e.1 := fun e2 => h e2.symm
      simp only [mapFind, h, if_false, ih, List.map_cons, List.mem_cons, h2, false_or]

theorem mapFind_of_mem (m : List (K × V)) (h : (m.map Prod.fst).Nodup) (e : K × V)
    (he : e ∈ m) : mapFind e.1 m = some e.2 := by
  induction m with
  | nil => simp at he
  | cons e2 rest ih =>
    simp only [List.map_cons, List.nodup_cons] at h
    rcases List.mem_cons.1 he with rfl | he2
    · simp [mapFind]
    · have h2 : ¬ e2.1 = e.1 := by
        intro h3
        apply h.1
        rw [h3]
        exact List.mem_map_of_mem Prod.fst he2
      simp only [mapFind, h2, if_false]
      exact ih h.2 he2

theorem nodup_keys_groupFold (dflt : V) (step : V → α → V) (key : α → K) (xs : List α) :
    ((groupFold dflt step key xs).map Prod.fst).Nodup := by
  induction xs using List.reverseRecOn with
  | nil => simp [groupFold]
  | append_singleton xs x ih =>
    simp only [groupFold, List.foldl_append, List.foldl_cons, List.foldl_nil]
    exact nodup_keys_mapUpdate _ _ _ _ ih

theorem mapFind_groupFold (dflt : V) (step : V → α → V) (key : α → K) (xs : List α) (k : K) :
    mapFind k (groupFold dflt step key xs) =
      if k ∈ xs.map key then some ((xs.filter (fun x => decide (key x = k))).foldl step dflt)
      else none := by
  induction xs using List.reverseRecOn with
  | nil => simp [groupFold, mapFind]
  | append_singleton xs x ih =>
    have hstep : groupFold dflt step key (xs ++ [x]) =
        mapUpdate dflt (fun v => step v x) (key x) (groupFold dflt step key xs) := by
      simp [groupFold, List.foldl_append]
    rw [hstep, mapFind_mapUpdate]
    by_cases h : k = key x
    · subst h
      rw [if_pos rfl, ih]
      have hm : key x ∈ (xs ++ [x]).map key := by simp
      rw [if_pos hm]
      by_cases h2 : key x ∈ xs.map key
      · simp [h2, List.filter_append, List.foldl_append]
      · have h3 : xs.filter (fun y => decide (key y = key x)) = [] := by
          rw [List.filter_eq_nil_iff]
          intro y hy hy2
          apply h2
          have := of_decide_eq_true hy2
          rw [← this]
          exact List.mem_map_of_mem key hy
        simp [h2, List.filter_append, h3]
    · have h2 : ¬ key x = k := fun e => h e.symm
      rw [if_neg h, ih]
      simp [List.filter_append, h2, h]

theorem mem_keys_groupFold (dflt : V) (step : V → α → V) (key : α → K) (xs : List α) (k : K) :
    k ∈ (groupFold dflt step key xs).map Prod.fst ↔ k ∈ xs.map key := by
  rw [← mapFind_isSome, mapFind_groupFold]
  split <;> simp_all

theorem value_groupFold (dflt : V) (step : V → α → V) (key : α → K) (xs : List α)
    (e : K × V) (he : e ∈ groupFold dflt step key xs) :
    e.2 = (xs.filter (fun x => decide (key x = e.1))).foldl step dflt := by
  have h1 := mapFind_of_mem _ (nodup_keys_groupFold dflt step key xs) e he
  rw [mapFind_groupFold] at h1
  split at h1
  · exact (Option.some.inj h1).symm
  · simp at h1

end MapLemmas

/-! ## Machine integers and bounds -/

theorem toInt_of_le_max (N : Nat) (h : (N : Int) ≤ 2147483647) : toInt (N : Int) = N := by
  unfold toInt
  omega

theorem toSizeT_of_le_max (N : Nat) (h : (N : Int) ≤ 2147483647) : toSizeT (N : Int) = N := by
  unfold toSizeT
  omega

theorem toInt_of_range (v : Int) (h0 : 0 ≤ v) (h1 : v < INT_MAX) : toInt v = v := by
  unfold toInt
  unfold INT_MAX at h1
  omega

theorem foldl_vmin_le (ps : List Vector3d) (a : Vector3d) :
    ((ps.foldl PointCloud.vmin a).x ≤ a.x ∧ (ps.foldl PointCloud.vmin a).y ≤ a.y ∧
      (ps.foldl PointCloud.vmin a).z ≤ a.z) ∧
    ∀ q ∈ ps, (ps.foldl PointCloud.vmin a).x ≤ q.x ∧ (ps.foldl PointCloud.vmin a).y ≤ q.y ∧
      (ps.foldl PointCloud.vmin a).z ≤ q.z := by
  induction ps generalizing a with
  | nil => simp
  | cons p ps ih =>
    obtain ⟨⟨hx, hy, hz⟩, hq⟩ := ih (PointCloud.vmin a p)
    simp only [List.foldl_cons]
    simp only [PointCloud.vmin] at hx hy hz
    refine ⟨⟨le_trans hx (min_le_left _ _), le_trans hy (min_le_left _ _),
      le_trans hz (min_le_left _ _)⟩, ?_⟩
    intro q hmem
    rcases List.mem_cons.1 hmem with rfl | hmem
    · exact ⟨le_trans hx (min_le_right _ _), le_trans hy (min_le_right _ _),
        le_trans hz (min_le_right _ _)⟩
    · exact hq q hmem

theorem le_foldl_vmax (ps : List Vector3d) (a : Vector3d) :
    (a.x ≤ (ps.foldl PointCloud.vmax a).x ∧ a.y ≤ (ps.foldl PointCloud.vmax a).y ∧
      a.z ≤ (ps.foldl PointCloud.vmax a).z) ∧
    ∀ q ∈ ps, q.x ≤ (ps.foldl PointCloud.vmax a).x ∧ q.y ≤ (ps.foldl PointCloud.vmax a).y ∧
      q.z ≤ (ps.foldl PointCloud.vmax a).z := by
  induction ps generalizing a with
  | nil => simp
  | cons p ps ih =>
    obtain ⟨⟨hx, hy, hz⟩, hq⟩ := ih (PointCloud.vmax a p)
    simp only [List.foldl_cons]
    simp only [PointCloud.vmax] at hx hy hz
    refine ⟨⟨le_trans (le_max_left _ _) hx, le_trans (le_max_left _ _) hy,
      le_trans (le_max_left _ _) hz⟩, ?_⟩
    intro q hmem
    rcases List.mem_cons.1 hmem with rfl | hmem
    · exact ⟨le_trans (le_max_right _ _) hx, le_trans (le_max_right _ _) hy,
        le_trans (le_max_right _ _) hz⟩
    · exact hq q hmem

theorem getMinBound_le (c : PointCloud) (p : Vector3d) (hp : p ∈ c.points_) :
    c.GetMinBound.x ≤ p.x ∧ c.GetMinBound.y ≤ p.y ∧ c.GetMinBound.z ≤ p.z := by
  unfold PointCloud.GetMinBound
  cases hc : c.points_ with
  | nil => rw [hc] at hp; simp at hp
  | cons a ps =>
    rw [hc] at hp
    simp only
    rcases List.mem_cons.1 hp with rfl | hmem
    · exact (foldl_vmin_le ps p).1
    · exact (foldl_vmin_le ps a).2 p hmem

theorem le_getMaxBound (c : PointCloud) (p : Vector3d) (hp : p ∈ c.points_) :
    p.x ≤ c.GetMaxBound.x ∧ p.y ≤ c.GetMaxBound.y ∧ p.z ≤ c.GetMaxBound.z := by
  unfold PointCloud.GetMaxBound
  cases hc : c.points_ with
  | nil => rw [hc] at hp; simp at hp
  | cons a ps =>
    rw [hc] at hp
    simp only
    rcases List.mem_cons.1 hp with rfl | hmem
    · exact (le_foldl_vmax ps p).1
    · exact (le_foldl_vmax ps a).2 p hmem

/-! ## The two loops of `VoxelDownSample` -/

theorem voxelEmit_closed (fp : FloatOps) (normalized : Vector3d → Vector3d) (hn hc : Bool)
    (m : List (VoxelIndex3 × AccumulatedPoint)) (out : PointCloud) :
    voxelEmit fp normalized hn hc m out =
      ⟨out.points_ ++ m.map (fun e => e.2.GetAveragePoint fp),
       if hn then out.normals_ ++ m.map (fun e => e.2.GetAverageNormal normalized)
       else out.normals_,
       if hc then out.colors_ ++ m.map (fun e => e.2.GetAverageColor fp)
       else out.colors_⟩ := by
  induction m generalizing out with
  | nil => simp [voxelEmit]
  | cons e rest ih =>
    have h := ih ⟨out.points_ ++ [e.2.GetAveragePoint fp],
       if hn then out.normals_ ++ [e.2.GetAverageNormal normalized] else out.normals_,
       if hc then out.colors_ ++ [e.2.GetAverageColor fp] else out.colors_⟩
    simp only [voxelEmit, List.foldl_cons] at h ⊢
    rw [h]
    cases hn <;> cases hc <;> simp

theorem voxelAccumulate_eq_groupFold (fp : FloatOps) (c : PointCloud) (s : ℚ) :
    voxelAccumulate fp c s =
      groupFold AccumulatedPoint.init (fun a i => a.AddPoint fp c i)
        (fun i => pointIndex fp c s (c.points_.getD i default))
        (List.range c.points_.length) := rfl

theorem map_getD_range (l : List Vector3d) :
    (List.range l.length).map (fun i => l.getD i default) = l := by
  apply List.ext_getElem
  · simp
  · intro i h1 h2
    simp [List.getD_eq_getElem?_getD, List.getElem?_eq_getElem h2]

theorem getD_mem_of_lt (l : List Vector3d) (i : Nat) (h : i < l.length) :
    l.getD i default ∈ l := by
  rw [List.getD_eq_getElem?_getD, List.getElem?_eq_getElem h]
  exact List.getElem_mem h

theorem vsum_append_singleton (fp : FloatOps) (ps : List Vector3d) (p : Vector3d) :
    vsum fp (ps ++ [p]) = (vsum fp ps).add fp p := by
  simp only [vsum, List.foldl_append, List.foldl_cons, List.foldl_nil]

theorem toInt_succ_toInt (v : Int) : toInt (toInt v + 1) = toInt (v + 1) := by
  unfold toInt
  omega

theorem addPoint_num_of_points (fp : FloatOps) (a : AccumulatedPoint) (c : PointCloud)
    (i : Nat) : (a.AddPoint fp c i).num_of_points = toInt (a.num_of_points + 1) := rfl

theorem addPoint_point (fp : FloatOps) (a : AccumulatedPoint) (c : PointCloud) (i : Nat) :
    (a.AddPoint fp c i).point = a.point.add fp (c.points_.getD i default) := rfl

theorem addPoint_normal (fp : FloatOps) (a : AccumulatedPoint) (c : PointCloud) (i : Nat) :
    (a.AddPoint fp c i).normal =
      if c.HasNormals then a.normal.add fp (c.normals_.getD i default) else a.normal := rfl

theorem addPoint_color (fp : FloatOps) (a : AccumulatedPoint) (c : PointCloud) (i : Nat) :
    (a.AddPoint fp c i).color =
      if c.HasColors then a.color.add fp (c.colors_.getD i default) else a.color := rfl

/-- An accumulator that has taken the points of indices `is`: its 32-bit count and its three
sums. -/
theorem foldl_addPoint (fp : FloatOps) (c : PointCloud) (is : List Nat) :
    (is.foldl (fun a i => a.AddPoint fp c i) AccumulatedPoint.init).num_of_points =
      toInt (is.length : Int) ∧
    (is.foldl (fun a i => a.AddPoint fp c i) AccumulatedPoint.init).point =
      vsum fp (is.map (fun i => c.points_.getD i default)) ∧
    (is.foldl (fun a i => a.AddPoint fp c i) AccumulatedPoint.init).normal =
      (if c.HasNormals then vsum fp (is.map (fun i => c.normals_.getD i default))
       else Vector3d.zero) ∧
    (is.foldl (fun a i => a.AddPoint fp c i) AccumulatedPoint.init).color =
      (if c.HasColors then vsum fp (is.map (fun i => c.colors_.getD i default))
       else Vector3d.zero) := by
  induction is using List.reverseRecOn with
  | nil =>
    refine ⟨rfl, rfl, ?_, ?_⟩
    · cases c.HasNormals <;> rfl
    · cases c.HasColors <;> rfl
  | append_singleton is i ih =>
    obtain ⟨h1, h2, h3, h4⟩ := ih
    simp only [List.foldl_append, List.foldl_cons, List.foldl_nil, List.map_append,
      List.map_cons, List.map_nil, vsum_append_singleton]
    refine ⟨?_, ?_, ?_, ?_⟩
    · rw [addPoint_num_of_points, h1, toInt_succ_toInt, List.length_append,
        List.length_singleton]
      push_cast
      rfl
    · rw [addPoint_point, h2]
    · rw [addPoint_normal, h3]
      cases c.HasNormals <;> rfl
    · rw [addPoint_color, h4]
      cases c.HasColors <;> rfl

theorem filter_index_map (l : List Vector3d) (P : Vector3d → Bool) :
    ((List.range l.length).filter (fun i => P (l.getD i default))).map
      (fun i => l.getD i default) = l.filter P := by
  have h := List.filter_map (fun i => l.getD i default) (List.range l.length) (p := P)
  rw [map_getD_range] at h
  rw [h]
  rfl

theorem voxelPoints_eq_members (fp : FloatOps) (c : PointCloud) (s : ℚ) (v : VoxelIndex3) :
    (voxelMembers fp c s v).map (fun i => c.points_.getD i default) = voxelPoints fp c s v :=
  filter_index_map c.points_ (fun p => decide (pointIndex fp c s p = v))

theorem length_voxelMembers (fp : FloatOps) (c : PointCloud) (s : ℚ) (v : VoxelIndex3) :
    (voxelMembers fp c s v).length = (voxelPoints fp c s v).length := by
  rw [← voxelPoints_eq_members, List.length_map]

theorem length_voxelColors (fp : FloatOps) (c : PointCloud) (s : ℚ) (v : VoxelIndex3) :
    (voxelColors fp c s v).length = (voxelPoints fp c s v).length := by
  rw [← length_voxelMembers]
  simp [voxelColors]

theorem length_voxelPoints_le (fp : FloatOps) (c : PointCloud) (s : ℚ) (v : VoxelIndex3) :
    (voxelPoints fp c s v).length ≤ c.points_.length :=
  List.length_filter_le _ _

/-- Every entry of the map built by the first loop is the accumulator that has taken, in
input order, the points whose voxel index is the key of the entry. -/
theorem voxelAccumulate_value (fp : FloatOps) (c : PointCloud) (s : ℚ)
    (e : VoxelIndex3 × AccumulatedPoint) (he : e ∈ voxelAccumulate fp c s) :
    e.2 = (voxelMembers fp c s e.1).foldl (fun a i => a.AddPoint fp c i)
      AccumulatedPoint.init := by
  rw [voxelAccumulate_eq_groupFold] at he
  exact value_groupFold _ _ _ _ e he

/-- Every entry of the map built by the first loop holds the 32-bit count and the sums of the
positions, normals and colors of the input points of its voxel, of which there is one at
least. -/
theorem voxelAccumulate_entry (fp : FloatOps) (c : PointCloud) (s : ℚ)
    (e : VoxelIndex3 × AccumulatedPoint) (he : e ∈ voxelAccumulate fp c s) :
    e.2.num_of_points = toInt ((voxelPoints fp c s e.1).length : Int) ∧
    e.2.point = vsum fp (voxelPoints fp c s e.1) ∧
    e.2.normal =
      (if c.HasNormals then vsum fp (voxelNormals fp c s e.1) else Vector3d.zero) ∧
    e.2.color =
      (if c.HasColors then vsum fp (voxelColors fp c s e.1) else Vector3d.zero) ∧
    voxelPoints fp c s e.1 ≠ [] := by
  have hv := voxelAccumulate_value fp c s e he
  obtain ⟨h1, h2, h3, h4⟩ := foldl_addPoint fp c (voxelMembers fp c s e.1)
  rw [← hv, length_voxelMembers] at h1
  rw [← hv, voxelPoints_eq_members] at h2
  rw [← hv] at h3 h4
  refine ⟨h1, h2, h3, h4, ?_⟩
  have hk : e.1 ∈ (voxelAccumulate fp c s).map Prod.fst := List.mem_map_of_mem Prod.fst he
  rw [voxelAccumulate_eq_groupFold, mem_keys_groupFold] at hk
  obtain ⟨i, hi, hidx⟩ := List.mem_map.1 hk
  intro hnil
  have hmem : c.points_.getD i default ∈ voxelPoints fp c s e.1 := by
    unfold voxelPoints
    rw [List.mem_filter]
    exact ⟨getD_mem_of_lt _ _ (List.mem_range.1 hi), decide_eq_true hidx⟩
  rw [hnil] at hmem
  simp at hmem

theorem nodup_keys_voxelAccumulate (fp : FloatOps) (c : PointCloud) (s : ℚ) :
    ((voxelAccumulate fp c s).map Prod.fst).Nodup := by
  rw [voxelAccumulate_eq_groupFold]
  exact nodup_keys_groupFold _ _ _ _

/-- The keys of the map are the occupied voxel indices. -/
theorem voxelAccumulate_keys_perm (fp : FloatOps) (c : PointCloud) (s : ℚ) :
    ((voxelAccumulate fp c s).map Prod.fst).Perm (occupied fp c s) := by
  unfold occupied
  rw [List.perm_ext_iff_of_nodup (nodup_keys_voxelAccumulate fp c s) (List.nodup_dedup _)]
  intro k
  rw [voxelAccumulate_eq_groupFold, mem_keys_groupFold, List.mem_dedup]
  have h := congrArg (List.map (pointIndex fp c s)) (map_getD_range c.points_)
  rw [List.map_map] at h
  rw [← h]
  rfl

/-- A list read off the entries of the voxel map is, up to order, the list read off the
occupied voxel indices. -/
theorem voxelAccumulate_map_perm {β : Type} (fp : FloatOps) (c : PointCloud) (s : ℚ)
    (G : VoxelIndex3 × AccumulatedPoint → β) (F : VoxelIndex3 → β)
    (h : ∀ e ∈ voxelAccumulate fp c s, G e = F e.1) :
    ((voxelAccumulate fp c s).map G).Perm ((occupied fp c s).map F) := by
  have h1 : (voxelAccumulate fp c s).map G =
      ((voxelAccumulate fp c s).map Prod.fst).map F := by
    rw [List.map_map]
    exact List.map_congr_left h
  rw [h1]
  exact (voxelAccumulate_keys_perm fp c s).map _

theorem voxelAccumulate_position (fp : FloatOps) (c : PointCloud) (s : ℚ)
    (e : VoxelIndex3 × AccumulatedPoint) (he : e ∈ voxelAccumulate fp c s) :
    e.2.GetAveragePoint fp = accAverage fp (voxelPoints fp c s e.1) := by
  obtain ⟨hn, hp, _⟩ := voxelAccumulate_entry fp c s e he
  simp only [AccumulatedPoint.GetAveragePoint, accAverage, hn, hp]

theorem voxelAccumulate_color (fp : FloatOps) (c : PointCloud) (s : ℚ)
    (hc : c.HasColors = true) (e : VoxelIndex3 × AccumulatedPoint)
    (he : e ∈ voxelAccumulate fp c s) :
    e.2.GetAverageColor fp = accAverage fp (voxelColors fp c s e.1) := by
  obtain ⟨hn, _, _, hcol, _⟩ := voxelAccumulate_entry fp c s e he
  simp only [AccumulatedPoint.GetAverageColor, accAverage, hn, hcol, hc, if_true,
    length_voxelColors]

theorem voxelAccumulate_normal (fp : FloatOps) (normalized : Vector3d → Vector3d)
    (c : PointCloud) (s : ℚ) (hnrm : c.HasNormals = true)
    (e : VoxelIndex3 × AccumulatedPoint) (he : e ∈ voxelAccumulate fp c s) :
    e.2.GetAverageNormal normalized = normalized (vsum fp (voxelNormals fp c s e.1)) := by
  obtain ⟨_, _, hnormal, _⟩ := voxelAccumulate_entry fp c s e he
  simp only [AccumulatedPoint.GetAverageNormal, hnormal, hnrm, if_true]

theorem voxelDownSample_true_iff (fp : FloatOps) (normalized : Vector3d → Vector3d)
    (c : PointCloud) (s : ℚ) (out0 : PointCloud) :
    (VoxelDownSample fp normalized c s out0).1 = true ↔
      0 < c.points_.length ∧ 0 < s ∧ passesExtentGuard fp c s := by
  unfold VoxelDownSample passesExtentGuard
  simp only [PointCloud.HasPoints]
  by_cases h1 : 0 < c.points_.length
  · by_cases h2 : s ≤ 0
    · simp [h1, h2]
    · by_cases h3 : fp.mul s (INT_MAX : ℚ) <
          ((voxelMaxBound fp c s).sub fp (voxelMinBound fp c s)).maxCoeff
      · simp [h1, h2, h3]
      · simp only [h1, h2, h3, decide_True, if_false]
        simp only [not_le] at h2
        simp [h2]
  · simp [h1]

theorem length_groupFold_le {α K V : Type} [DecidableEq K] (dflt : V) (step : V → α → V)
    (key : α → K) (xs : List α) : (groupFold dflt step key xs).length ≤ xs.length := by
  induction xs using List.reverseRecOn with
  | nil => simp [groupFold]
  | append_singleton xs x ih =>
    have hstep : groupFold dflt step key (xs ++ [x]) =
        mapUpdate dflt (fun v => step v x) (key x) (groupFold dflt step key xs) := by
      simp [groupFold, List.foldl_append]
    rw [hstep, List.length_append, List.length_singleton]
    exact le_trans (length_mapUpdate_le _ _ _ _) (Nat.add_le_add_right ih 1)

theorem length_voxelAccumulate_le (fp : FloatOps) (c : PointCloud) (s : ℚ) :
    (voxelAccumulate fp c s).length ≤ c.points_.length := by
  rw [voxelAccumulate_eq_groupFold]
  have h := length_groupFold_le AccumulatedPoint.init (fun a i => a.AddPoint fp c i)
    (fun i => pointIndex fp c s (c.points_.getD i default))
    (List.range c.points_.length)
  rw [List.length_range] at h
  exact h

/-- The result of `VoxelDownSample`: failure with an empty output, or success with the
output of the two loops. -/
theorem voxelDownSample_cases (fp : FloatOps) (normalized : Vector3d → Vector3d)
    (c : PointCloud) (s : ℚ) (out0 : PointCloud) :
    VoxelDownSample fp normalized c s out0 = (false, ⟨[], [], []⟩) ∨
    VoxelDownSample fp normalized c s out0 =
      (true,
        ⟨(voxelAccumulate fp c s).map (fun e => e.2.GetAveragePoint fp),
         if c.HasNormals then
           (voxelAccumulate fp c s).map (fun e => e.2.GetAverageNormal normalized)
         else [],
         if c.HasColors then (voxelAccumulate fp c s).map (fun e => e.2.GetAverageColor fp)
         else []⟩) := by
  unfold VoxelDownSample
  simp only [voxelEmit_closed, PointCloud.Clear, List.nil_append]
  by_cases h1 : c.HasPoints = false
  · left; simp [h1]
  · by_cases h2 : s ≤ 0
    · left; simp [h1, h2]
    · by_cases h3 : fp.mul s (INT_MAX : ℚ) <
          ((voxelMaxBound fp c s).sub fp (voxelMinBound fp c s)).maxCoeff
      · left; simp [h1, h2, h3]
      · right; simp [h1, h2, h3]

/-- On success the output of `VoxelDownSample` is read off the voxel map. -/
theorem voxelDownSample_output (fp : FloatOps) (normalized : Vector3d → Vector3d)
    (c : PointCloud) (s : ℚ) (out0 : PointCloud)
    (h : (VoxelDownSample fp normalized c s out0).1 = true) :
    (VoxelDownSample fp normalized c s out0).2 =
      ⟨(voxelAccumulate fp c s).map (fun e => e.2.GetAveragePoint fp),
       if c.HasNormals then
         (voxelAccumulate fp c s).map (fun e => e.2.GetAverageNormal normalized)
       else [],
       if c.HasColors then (voxelAccumulate fp c s).map (fun e => e.2.GetAverageColor fp)
       else []⟩ := by
  rcases voxelDownSample_cases fp normalized c s out0 with h1 | h1
  · rw [h1] at h
    simp at h
  · rw [h1]

/-- On success the positions and colors, pair by pair, are those of the occupied voxels up to
order: the averages that the accumulators report. -/
theorem voxelDownSample_zip_colors_perm (fp : FloatOps) (normalized : Vector3d → Vector3d)
    (c : PointCloud) (s : ℚ) (out0 : PointCloud)
    (h : (VoxelDownSample fp normalized c s out0).1 = true) :
    (VoxelDownSample fp normalized c s out0).2.points_.Perm
      ((occupied fp c s).map (fun v => accAverage fp (voxelPoints fp c s v))) ∧
    (c.HasColors = true →
      (List.zip (VoxelDownSample fp normalized c s out0).2.points_
        (VoxelDownSample fp normalized c s out0).2.colors_).Perm
        ((occupied fp c s).map (fun v =>
          (accAverage fp (voxelPoints fp c s v), accAverage fp (voxelColors fp c s v))))) ∧
    (c.HasNormals = true →
      (List.zip (VoxelDownSample fp normalized c s out0).2.points_
        (VoxelDownSample fp normalized c s out0).2.normals_).Perm
        ((occupied fp c s).map (fun v =>
          (accAverage fp (voxelPoints fp c s v),
            normalized (vsum fp (voxelNormals fp c s v)))))) ∧
    (c.HasColors = false → (VoxelDownSample fp normalized c s out0).2.colors_ = []) := by
  rw [voxelDownSample_output fp normalized c s out0 h]
  refine ⟨?_, ?_, ?_, ?_⟩
  · exact voxelAccumulate_map_perm fp c s _ _
      (fun e he => voxelAccumulate_position fp c s e he)
  · intro hc
    simp only [hc, if_true]
    rw [List.zip_map']
    apply voxelAccumulate_map_perm fp c s
    intro e he
    simp only [voxelAccumulate_position fp c s e he, voxelAccumulate_color fp c s hc e he]
  · intro hn
    simp only [hn, if_true]
    rw [List.zip_map']
    apply voxelAccumulate_map_perm fp c s
    intro e he
    simp only [voxelAccumulate_position fp c s e he,
      voxelAccumulate_normal fp normalized c s hn e he]
  · intro hc
    simp [hc]

/-! ## Counting -/

/-- While the count fits an `int`, the average an accumulator reports is `sum / count`. -/
theorem accAverage_eq_mean (fp : FloatOps) (ps : List Vector3d)
    (h : (ps.length : Int) ≤ INT_MAX) : accAverage fp ps = mean fp ps := by
  unfold accAverage mean
  rw [toInt_of_le_max _ h]
  simp

theorem length_filter_eq_count {α β : Type} [DecidableEq β] (f : α → β) (v : β)
    (l : List α) :
    (l.filter (fun p => decide (f p = v))).length = List.count v (l.map f) := by
  induction l with
  | nil => rfl
  | cons a l ih =>
    by_cases h : f a = v
    · simp [List.filter_cons, h, ih]
    · rw [List.map_cons, List.count_cons_of_ne (Ne.symm h), ← ih]
      simp [List.filter_cons, h]

theorem sum_map_natCast {α : Type} (l : List α) (f : α → Nat) :
    (l.map (fun a => ((f a : Nat) : Int))).sum = (((l.map f).sum : Nat) : Int) := by
  induction l with
  | nil => rfl
  | cons a l ih =>
    rw [List.map_cons, List.sum_cons, ih, List.map_cons, List.sum_cons]
    push_cast
    rfl

/-- The voxels partition the input: their sizes sum to the number of input points. -/
theorem sum_length_voxelPoints (fp : FloatOps) (c : PointCloud) (s : ℚ) :
    ((occupied fp c s).map (fun v => (voxelPoints fp c s v).length)).sum =
      c.points_.length := by
  have h := List.sum_map_count_dedup_eq_length (c.points_.map (pointIndex fp c s))
  rw [List.length_map] at h
  rw [← h]
  unfold occupied
  congr 1
  apply List.map_congr_left
  intro v _
  exact length_filter_eq_count (pointIndex fp c s) v c.points_

/-- When no voxel has more than `INT_MAX` points, the count of every accumulator is the
number of points of its voxel. -/
theorem voxelAccumulate_count (fp : FloatOps) (c : PointCloud) (s : ℚ)
    (hfit : ∀ v, ((voxelPoints fp c s v).length : Int) ≤ INT_MAX)
    (e : VoxelIndex3 × AccumulatedPoint) (he : e ∈ voxelAccumulate fp c s) :
    e.2.num_of_points = ((voxelPoints fp c s e.1).length : Int) := by
  rw [(voxelAccumulate_entry fp c s e he).1, toInt_of_le_max _ (hfit e.1)]

/-- When no voxel has more than `INT_MAX` points, the counts sum to the number of input
points. -/
theorem voxelAccumulate_sum_count (fp : FloatOps) (c : PointCloud) (s : ℚ)
    (hfit : ∀ v, ((voxelPoints fp c s v).length : Int) ≤ INT_MAX) :
    ((voxelAccumulate fp c s).map (fun e => e.2.num_of_points)).sum = c.points_.length := by
  have h1 : (voxelAccumulate fp c s).map (fun e => e.2.num_of_points) =
      ((voxelAccumulate fp c s).map Prod.fst).map
        (fun v => ((voxelPoints fp c s v).length : Int)) := by
    rw [List.map_map]
    apply List.map_congr_left
    intro e he
    exact voxelAccumulate_count fp c s hfit e he
  rw [h1, ((voxelAccumulate_keys_perm fp c s).map _).sum_eq, sum_map_natCast,
    sum_length_voxelPoints]

theorem foldl_vmin_replicate (n : Nat) (p : Vector3d) :
    (List.replicate n p).foldl PointCloud.vmin p = p := by
  induction n with
  | zero => rfl
  | succ n ih =>
    rw [List.replicate_succ, List.foldl_cons]
    have e : PointCloud.vmin p p = p := by
      simp [PointCloud.vmin]
    rw [e, ih]

theorem foldl_vmax_replicate (n : Nat) (p : Vector3d) :
    (List.replicate n p).foldl PointCloud.vmax p = p := by
  induction n with
  | zero => rfl
  | succ n ih =>
    rw [List.replicate_succ, List.foldl_cons]
    have e : PointCloud.vmax p p = p := by
      simp [PointCloud.vmax]
    rw [e, ih]

/-- The bounds of a cloud of `N` copies of one point are that point. -/
theorem bounds_of_replicate (c : PointCloud) (N : Nat) (p : Vector3d) (hN : 0 < N)
    (h : c.points_ = List.replicate N p) : c.GetMinBound = p ∧ c.GetMaxBound = p := by
  obtain ⟨n, rfl⟩ : ∃ n, N = n + 1 := ⟨N - 1, by omega⟩
  unfold PointCloud.GetMinBound PointCloud.GetMaxBound
  rw [h, List.replicate_succ]
  exact ⟨foldl_vmin_replicate n p, foldl_vmax_replicate n p⟩

/-- A map built from elements that all have the key `k` has one entry, whose value has
taken all the elements. -/
theorem groupFold_const_key {α K V : Type} [DecidableEq K] (dflt : V) (step : V → α → V)
    (key : α → K) (k : K) (xs : List α) (hne : xs ≠ []) (h : ∀ x ∈ xs, key x = k) :
    groupFold dflt step key xs = [(k, xs.foldl step dflt)] := by
  induction xs using List.reverseRecOn with
  | nil => exact absurd rfl hne
  | append_singleton xs x ih =>
    have hstep : groupFold dflt step key (xs ++ [x]) =
        mapUpdate dflt (fun v => step v x) (key x) (groupFold dflt step key xs) := by
      simp [groupFold, List.foldl_append]
    have hx : key x = k := h x (by simp)
    rw [hstep, hx, List.foldl_append, List.foldl_cons, List.foldl_nil]
    by_cases hnil : xs = []
    · rw [hnil]
      rfl
    · rw [ih hnil (fun y hy => h y (by simp [hy]))]
      simp [mapUpdate]

/-- The voxel map of a cloud of `N` copies of one point `p`: a single accumulator, which has
taken all the points. -/
theorem voxelAccumulate_of_replicate (fp : FloatOps) (c : PointCloud) (s : ℚ) (N : Nat)
    (p : Vector3d) (hN : 0 < N) (h : c.points_ = List.replicate N p) :
    voxelAccumulate fp c s =
      [(pointIndex fp c s p,
        (List.range N).foldl (fun a i => a.AddPoint fp c i) AccumulatedPoint.init)] := by
  have hlen : c.points_.length = N := by
    rw [h, List.length_replicate]
  have hne : List.range c.points_.length ≠ [] := by
    intro hnil
    have := congrArg List.length hnil
    rw [List.length_range, List.length_nil] at this
    omega
  rw [voxelAccumulate_eq_groupFold,
    groupFold_const_key _ _ _ (pointIndex fp c s p) _ hne, hlen]
  intro i hi
  have hm := getD_mem_of_lt c.points_ i (List.mem_range.1 hi)
  rw [h] at hm
  rw [h, List.eq_of_mem_replicate hm]

/-- The single accumulator of a cloud of `N` copies of the point `p`, without normals and
colors: its 32-bit count is `toInt N` and its position sum the sum of the `N` copies. -/
theorem voxelAccumulate_of_replicate_fields (fp : FloatOps) (c : PointCloud) (s : ℚ)
    (N : Nat) (p : Vector3d) (hN : 0 < N) (h : c.points_ = List.replicate N p) :
    (voxelAccumulate fp c s).map (fun e => e.2.num_of_points) = [toInt (N : Int)] ∧
    (voxelAccumulate fp c s).map (fun e => e.2.point) = [vsum fp (List.replicate N p)] := by
  have hmap : (List.range N).map (fun i => c.points_.getD i default) =
      List.replicate N p := by
    have h1 := map_getD_range c.points_
    rw [h, List.length_replicate] at h1
    rw [h]
    exact h1
  obtain ⟨h1, h2, _, _⟩ := foldl_addPoint fp c (List.range N)
  rw [List.length_range] at h1
  rw [hmap] at h2
  rw [voxelAccumulate_of_replicate fp c s N p hN h]
  simp only [List.map_cons, List.map_nil, h1, h2, and_self]

theorem getMinBound_mem_bounds (c : PointCloud) (h : 0 < c.points_.length) :
    c.GetMinBound.x ≤ c.GetMaxBound.x ∧ c.GetMinBound.y ≤ c.GetMaxBound.y ∧
      c.GetMinBound.z ≤ c.GetMaxBound.z := by
  cases hc : c.points_ with
  | nil => rw [hc] at h; simp at h
  | cons a ps =>
    have hm : a ∈ c.points_ := by rw [hc]; simp
    obtain ⟨lx, ly, lz⟩ := getMinBound_le c a hm
    obtain ⟨ux, uy, uz⟩ := le_getMaxBound c a hm
    exact ⟨le_trans lx ux, le_trans ly uy, le_trans lz uz⟩

/-- In a cloud of at most `INT_MAX` points no voxel has more than `INT_MAX` points. -/
theorem voxelPoints_fit_of_size (fp : FloatOps) (c : PointCloud) (s : ℚ)
    (h : (c.points_.length : Int) ≤ INT_MAX) (v : VoxelIndex3) :
    ((voxelPoints fp c s v).length : Int) ≤ INT_MAX :=
  le_trans (Int.ofNat_le.2 (length_voxelPoints_le fp c s v)) h

/-! ## The loops of `UniformDownSample` and `ClipPointCloud` -/

theorem ceilDiv_le_iff (N K j : Nat) (hK : 0 < K) : (N + K - 1) / K ≤ j ↔ N ≤ j * K := by
  rw [Nat.div_le_iff_le_mul_add_pred hK, Nat.mul_comm K j]
  omega

theorem strideList_of_le (l : List Vector3d) (k c j : Nat) (h : c ≤ j) :
    strideList l k c j = [] := by
  unfold strideList
  rw [Nat.sub_eq_zero_of_le h]
  rfl

theorem strideList_step (l : List Vector3d) (k c j : Nat) (h : j < c) :
    strideList l k c j = l.getD (j * k) default :: strideList l k c (j + 1) := by
  unfold strideList
  have e : c - j = (c - (j + 1)) + 1 := by omega
  rw [e, List.range_succ_eq_map, List.map_cons, List.map_map]
  simp only [Nat.add_zero]
  congr 1
  apply List.map_congr_left
  intro t _
  simp only [Function.comp]
  congr 2
  omega

/-- The loop of `UniformDownSample` when the counter does not overflow: the last value it
takes, the first multiple of the stride not below the bound, is at most `INT_MAX`. -/
theorem uniformLoop_closed (input : PointCloud) (K N : Nat) (hK : 0 < K) (hn hc : Bool)
    (hmax : (((N + K - 1) / K * K : Nat) : Int) ≤ 2147483647) :
    ∀ (fuel j : Nat) (out : PointCloud), N - j * K ≤ fuel →
      uniformLoop input (K : Int) (N : Int) hn hc fuel ((j * K : Nat) : Int) out =
        ⟨out.points_ ++ strideList input.points_ K ((N + K - 1) / K) j,
         if hn then out.normals_ ++ strideList input.normals_ K ((N + K - 1) / K) j
         else out.normals_,
         if hc then out.colors_ ++ strideList input.colors_ K ((N + K - 1) / K) j
         else out.colors_⟩ := by
  intro fuel
  induction fuel with
  | zero =>
    intro j out h
    have h1 : N ≤ j * K := by omega
    have h2 := (ceilDiv_le_iff N K j hK).2 h1
    simp only [uniformLoop, strideList_of_le _ _ _ _ h2, List.append_nil, ite_self]
  | succ fuel ih =>
    intro j out h
    by_cases hlt : j * K < N
    · have hlt2 : ((j * K : Nat) : Int) < (N : Int) := by exact_mod_cast hlt
      have hj : j < (N + K - 1) / K := by
        by_contra hcon
        have := (ceilDiv_le_iff N K j hK).1 (not_lt.1 hcon)
        omega
      have hle : (j + 1) * K ≤ (N + K - 1) / K * K := Nat.mul_le_mul_right K hj
      have hle2 : (((j + 1) * K : Nat) : Int) ≤ 2147483647 :=
        le_trans (by exact_mod_cast hle) hmax
      have hjK : ((j * K : Nat) : Int) ≤ 2147483647 := by
        have : j * K ≤ (j + 1) * K := Nat.mul_le_mul_right K (Nat.le_succ j)
        exact le_trans (by exact_mod_cast this) hle2
      have hnext : toInt (((j * K : Nat) : Int) + (K : Int)) = (((j + 1) * K : Nat) : Int) := by
        have e : ((j * K : Nat) : Int) + (K : Int) = (((j + 1) * K : Nat) : Int) := by
          push_cast; ring
        rw [e]
        exact toInt_of_le_max _ hle2
      have hfuel : N - (j + 1) * K ≤ fuel := by
        have : (j + 1) * K = j * K + K := by ring
        omega
      simp only [uniformLoop, hlt2, if_true, hnext, toSizeT_of_le_max _ hjK]
      rw [ih (j + 1) _ hfuel]
      simp only [pushFrom, strideList_step _ _ _ _ hj]
      cases hn <;> cases hc <;> simp
    · have h1 : N ≤ j * K := not_lt.1 hlt
      have hlt2 : ¬ ((j * K : Nat) : Int) < (N : Int) := by
        intro hh
        exact hlt (by exact_mod_cast hh)
      have h2 := (ceilDiv_le_iff N K j hK).2 h1
      simp only [uniformLoop, hlt2, if_false, strideList_of_le _ _ _ _ h2, List.append_nil,
        ite_self]

/-- Once the loop counter can reach the bound within the allowed iterations, more
iterations change nothing. -/
theorem uniformLoop_fuel (input : PointCloud) (K N : Nat) (hK : 0 < K) (hn hc : Bool)
    (hmax : (((N + K - 1) / K * K : Nat) : Int) ≤ 2147483647)
    (fuel j : Nat) (out : PointCloud) (h : N - j * K ≤ fuel) :
    uniformLoop input (K : Int) (N : Int) hn hc fuel ((j * K : Nat) : Int) out =
      uniformLoop input (K : Int) (N : Int) hn hc (N - j * K) ((j * K : Nat) : Int) out := by
  rw [uniformLoop_closed input K N hK hn hc hmax fuel j out h,
    uniformLoop_closed input K N hK hn hc hmax (N - j * K) j out (le_refl _)]

theorem le_ceilDiv_mul (N K : Nat) (hK : 0 < K) : N ≤ (N + K - 1) / K * K :=
  (ceilDiv_le_iff N K _ hK).1 (le_refl _)

/-- The result of `UniformDownSample` on a cloud with points and a positive stride when the
loop counter does not overflow. -/
theorem uniformDownSample_closed (input : PointCloud) (K : Nat) (out0 : PointCloud)
    (hpoints : 0 < input.points_.length) (hK : 0 < K)
    (hmax : (((input.points_.length + K - 1) / K * K : Nat) : Int) ≤ 2147483647) :
    UniformDownSample input (K : Int) out0 =
      (true,
        ⟨strideList input.points_ K ((input.points_.length + K - 1) / K) 0,
         if input.HasNormals then
           strideList input.normals_ K ((input.points_.length + K - 1) / K) 0
         else [],
         if input.HasColors then
           strideList input.colors_ K ((input.points_.length + K - 1) / K) 0
         else []⟩) := by
  have hk : ¬ ((K : Int) ≤ 0) := by
    intro h
    have : (0 : Int) < (K : Int) := by exact_mod_cast hK
    omega
  have hN : (input.points_.length : Int) ≤ 2147483647 :=
    le_trans (by exact_mod_cast le_ceilDiv_mul input.points_.length K hK) hmax
  have h0 : ((0 * K : Nat) : Int) = 0 := by simp
  have hloop := uniformLoop_closed input K input.points_.length hK input.HasNormals
    input.HasColors hmax input.points_.length 0 out0.Clear (by simp)
  rw [h0] at hloop
  simp only [UniformDownSample, PointCloud.HasPoints, hpoints, decide_True, hk,
    toInt_of_le_max _ hN, Int.toNat_ofNat, hloop]
  simp [PointCloud.Clear]

theorem ceil_div_eq (N K c : Nat) (hK : 0 < K) (hc : c = (N + K - 1) / K) :
    ⌈(N : ℚ) / (K : ℚ)⌉ = (c : Int) := by
  have hKq : (0 : ℚ) < (K : ℚ) := by exact_mod_cast hK
  have hle : N ≤ c * K := (ceilDiv_le_iff N K c hK).1 (le_of_eq hc.symm)
  have hle2 : (N : ℚ) ≤ (c : ℚ) * (K : ℚ) := by exact_mod_cast hle
  rw [Int.ceil_eq_iff]
  constructor
  · rw [lt_div_iff₀ hKq]
    by_cases h0 : c = 0
    · have hN : (0 : ℚ) ≤ (N : ℚ) := Nat.cast_nonneg N
      rw [h0]
      push_cast
      linarith
    · have h1 : ¬ ((N + K - 1) / K ≤ c - 1) := by omega
      rw [ceilDiv_le_iff N K _ hK] at h1
      have h2 : (c - 1) * K < N := not_le.1 h1
      have h3 : (((c - 1) * K : Nat) : ℚ) < (N : ℚ) := by exact_mod_cast h2
      have h4 : 1 ≤ c := Nat.one_le_iff_ne_zero.2 h0
      push_cast [Nat.cast_sub h4] at h3 ⊢
      linarith
  · rw [div_le_iff₀ hKq]
    push_cast
    linarith

theorem strideList_length (l : List Vector3d) (k c : Nat) :
    (strideList l k c 0).length = c := by
  simp [strideList]

theorem strideList_getElem? (l : List Vector3d) (K N i : Nat) (hK : 0 < K)
    (hN : N ≤ l.length) (hi : i < (N + K - 1) / K) :
    i * K < N ∧ (strideList l K ((N + K - 1) / K) 0)[i]? = l[i * K]? := by
  have h1 : i * K < N := by
    by_contra hcon
    have := (ceilDiv_le_iff N K i hK).2 (not_lt.1 hcon)
    omega
  refine ⟨h1, ?_⟩
  have h2 : i * K < l.length := lt_of_lt_of_le h1 hN
  simp only [strideList, Nat.sub_zero, List.getElem?_map, List.getElem?_range hi,
    Option.map_some', Nat.zero_add, List.getD_eq_getElem?_getD, List.getElem?_eq_getElem h2,
    Option.getD_some]

/-- The stride law of `UniformDownSample` while the loop counter does not overflow: for a
cloud of `n >= 1` points and `k > 0` with `ceil(n / k) * k` at most `INT_MAX`, the call
returns true, the output has `ceil(n / k)` points, and the `i`-th output point is the input
point of index `i * k`; likewise for the normals and the colors when the input has them. -/
theorem uniformDownSample_stride_law (input_cloud : PointCloud) (every_k_points : Int)
    (output_cloud : PointCloud) (hpoints : 0 < input_cloud.points_.length)
    (hk : 0 < every_k_points)
    (hmax : ⌈(input_cloud.points_.length : ℚ) / (every_k_points : ℚ)⌉ * every_k_points ≤
      2147483647) :
    (UniformDownSample input_cloud every_k_points output_cloud).1 = true ∧
    ((UniformDownSample input_cloud every_k_points output_cloud).2.points_.length : Int) =
      ⌈(input_cloud.points_.length : ℚ) / (every_k_points : ℚ)⌉ ∧
    ∀ i : Nat, (i : Int) < ⌈(input_cloud.points_.length : ℚ) / (every_k_points : ℚ)⌉ →
      i * every_k_points.toNat < input_cloud.points_.length ∧
      (UniformDownSample input_cloud every_k_points output_cloud).2.points_[i]? =
        input_cloud.points_[i * every_k_points.toNat]? ∧
      (input_cloud.HasNormals = true →
        (UniformDownSample input_cloud every_k_points output_cloud).2.normals_[i]? =
          input_cloud.normals_[i * every_k_points.toNat]?) ∧
      (input_cloud.HasColors = true →
        (UniformDownSample input_cloud every_k_points output_cloud).2.colors_[i]? =
          input_cloud.colors_[i * every_k_points.toNat]?) := by
  obtain ⟨K, rfl⟩ := Int.eq_ofNat_of_zero_le hk.le
  have hK : 0 < K := by exact_mod_cast hk
  have hceil := ceil_div_eq input_cloud.points_.length K _ hK rfl
  have hcast : (((K : Nat) : Int) : ℚ) = (K : ℚ) := by simp
  rw [hcast, hceil, ← Nat.cast_mul] at hmax
  rw [uniformDownSample_closed input_cloud K output_cloud hpoints hK hmax]
  rw [hcast, hceil]
  refine ⟨rfl, ?_, ?_⟩
  · simp only [strideList_length]
  · intro i hi
    have hi2 : i < (input_cloud.points_.length + K - 1) / K := by exact_mod_cast hi
    simp only [Int.toNat_ofNat]
    obtain ⟨hlt, hpt⟩ := strideList_getElem? input_cloud.points_ K
      input_cloud.points_.length i hK (le_refl _) hi2
    refine ⟨hlt, hpt, ?_, ?_⟩
    · intro hn
      have hlen : input_cloud.points_.length ≤ input_cloud.normals_.length := by
        simp only [PointCloud.HasNormals, Bool.and_eq_true, decide_eq_true_eq] at hn
        omega
      simp only [hn, if_true]
      exact (strideList_getElem? input_cloud.normals_ K input_cloud.points_.length i hK hlen
        hi2).2
    · intro hc
      have hlen : input_cloud.points_.length ≤ input_cloud.colors_.length := by
        simp only [PointCloud.HasColors, Bool.and_eq_true, decide_eq_true_eq] at hc
        omega
      simp only [hc, if_true]
      exact (strideList_getElem? input_cloud.colors_ K input_cloud.points_.length i hK hlen
        hi2).2

theorem clipLoop_closed (input : PointCloud) (hn hc : Bool) (P : Nat → Bool) (is : List Nat)
    (out : PointCloud) :
    is.foldl (fun out i => if P i then pushFrom input hn hc i out else out) out =
      ⟨out.points_ ++ (is.filter P).map (fun i => input.points_.getD i default),
       if hn then out.normals_ ++ (is.filter P).map (fun i => input.normals_.getD i default)
       else out.normals_,
       if hc then out.colors_ ++ (is.filter P).map (fun i => input.colors_.getD i default)
       else out.colors_⟩ := by
  induction is generalizing out with
  | nil => simp
  | cons i rest ih =>
    simp only [List.foldl_cons]
    rw [ih]
    by_cases hP : P i = true
    · simp only [hP, if_true, pushFrom, List.filter_cons_of_pos, List.map_cons]
      cases hn <;> cases hc <;> simp
    · simp only [hP, if_false, List.filter_cons_of_neg, not_false_eq_true]
      simp [hP]

theorem inBox_iff (min_bound max_bound p : Vector3d) :
    inBox min_bound max_bound p = true ↔
      (min_bound.x ≤ p.x ∧ p.x ≤ max_bound.x) ∧ (min_bound.y ≤ p.y ∧ p.y ≤ max_bound.y) ∧
        (min_bound.z ≤ p.z ∧ p.z ≤ max_bound.z) := by
  simp only [inBox, Bool.and_eq_true, decide_eq_true_eq, ge_iff_le]
  tauto

theorem clipPointCloud_closed (input : PointCloud) (min_bound max_bound : Vector3d)
    (out0 : PointCloud) (hpoints : 0 < input.points_.length)
    (hbox : min_bound.x ≤ max_bound.x ∧ min_bound.y ≤ max_bound.y ∧
      min_bound.z ≤ max_bound.z) :
    ClipPointCloud input min_bound max_bound out0 =
      (true,
        ⟨(clipSelected input min_bound max_bound).map
           (fun i => input.points_.getD i default),
         if input.HasNormals then
           (clipSelected input min_bound max_bound).map
             (fun i => input.normals_.getD i default)
         else [],
         if input.HasColors then
           (clipSelected input min_bound max_bound).map
             (fun i => input.colors_.getD i default)
         else []⟩) := by
  have hb : ¬ (min_bound.x > max_bound.x ∨ min_bound.y > max_bound.y ∨
      min_bound.z > max_bound.z) := by
    simp only [gt_iff_lt, not_or, not_lt]
    exact hbox
  simp only [ClipPointCloud, PointCloud.HasPoints, hpoints, decide_True, hb]
  rw [clipLoop_closed input input.HasNormals input.HasColors
    (fun i => inBox min_bound max_bound (input.points_.getD i default))]
  simp [PointCloud.Clear, clipSelected]

/-- A cloud of `2^31` points: the size converted to `int` is negative and the loop of
`UniformDownSample` is not entered. -/
theorem uniformDownSample_wrap (input : PointCloud) (k : Int) (out0 : PointCloud)
    (hk : 0 < k) (hlen : input.points_.length = 2147483648) :
    UniformDownSample input k out0 = (true, ⟨[], [], []⟩) := by
  have hk2 : ¬ (k ≤ 0) := not_le.2 hk
  have h1 : toInt ((2147483648 : Nat) : Int) = -2147483648 := by
    unfold toInt
    norm_num
  have h2 : (-2147483648 : Int).toNat = 0 := by decide
  have hp : ¬ (input.HasPoints = false) := by
    simp only [PointCloud.HasPoints, hlen]
    decide
  have e : UniformDownSample input k out0 =
      (true, uniformLoop input k (toInt (input.points_.length : Int)) input.HasNormals
        input.HasColors (toInt (input.points_.length : Int)).toNat 0 out0.Clear) := by
    simp only [UniformDownSample]
    rw [if_neg hp, if_neg hk2]
  rw [e, hlen, h1, h2]
  rfl

theorem clipSelected_full (input : PointCloud) :
    clipSelected input input.GetMinBound input.GetMaxBound =
      List.range input.points_.length := by
  unfold clipSelected
  rw [List.filter_eq_self]
  intro i hi
  have hm := getD_mem_of_lt input.points_ i (List.mem_range.1 hi)
  rw [inBox_iff]
  obtain ⟨lx, ly, lz⟩ := getMinBound_le input _ hm
  obtain ⟨ux, uy, uz⟩ := le_getMaxBound input _ hm
  exact ⟨⟨lx, ux⟩, ⟨ly, uy⟩, ⟨lz, uz⟩⟩

theorem attribute_copy (points attr : List Vector3d) (hpoints : 0 < points.length)
    (hinv : attr = [] ∨ attr.length = points.length) :
    (if (decide (0 < points.length) && decide (attr.length = points.length)) = true then
      (List.range points.length).map (fun i => attr.getD i default) else []) = attr := by
  by_cases h : attr.length = points.length
  · simp only [hpoints, h, decide_True, Bool.and_self, if_true]
    rw [← h]
    exact map_getD_range attr
  · rcases hinv with h2 | h2
    · simp only [h, decide_False, Bool.and_false, Bool.false_eq_true, if_false]
      exact h2.symm
    · exact absurd h2 h

/-! ## Shape of the outputs -/

/-- The loop of `UniformDownSample` appends the entries of a list of at most `fuel` indices to
the three arrays. -/
theorem uniformLoop_shape (input : PointCloud) (k n : Int) (hn hc : Bool) :
    ∀ (fuel : Nat) (i : Int) (out : PointCloud), ∃ is : List Nat, is.length ≤ fuel ∧
      uniformLoop input k n hn hc fuel i out =
        ⟨out.points_ ++ is.map (fun j => input.points_.getD j default),
         if hn then out.normals_ ++ is.map (fun j => input.normals_.getD j default)
         else out.normals_,
         if hc then out.colors_ ++ is.map (fun j => input.colors_.getD j default)
         else out.colors_⟩ := by
  intro fuel
  induction fuel with
  | zero =>
    intro i out
    exact ⟨[], le_refl _, by simp [uniformLoop]⟩
  | succ fuel ih =>
    intro i out
    by_cases hlt : i < n
    · obtain ⟨is, hlen, heq⟩ := ih (toInt (i + k)) (pushFrom input hn hc (toSizeT i) out)
      refine ⟨toSizeT i :: is, by simp [hlen], ?_⟩
      simp only [uniformLoop, hlt, if_true]
      rw [heq]
      simp only [pushFrom]
      cases hn <;> cases hc <;> simp
    · exact ⟨[], Nat.zero_le _, by simp [uniformLoop, hlt]⟩

theorem toInt_toNat_le (N : Nat) : (toInt (N : Int)).toNat ≤ N := by
  unfold toInt
  omega

/-- The result of `UniformDownSample`: failure with an empty output, or success with the
entries of a list of at most `points_.size()` indices. -/
theorem uniformDownSample_cases (c : PointCloud) (k : Int) (out0 : PointCloud) :
    UniformDownSample c k out0 = (false, ⟨[], [], []⟩) ∨
    ∃ is : List Nat, is.length ≤ c.points_.length ∧
      UniformDownSample c k out0 =
        (true,
          ⟨is.map (fun j => c.points_.getD j default),
           if c.HasNormals then is.map (fun j => c.normals_.getD j default) else [],
           if c.HasColors then is.map (fun j => c.colors_.getD j default) else []⟩) := by
  unfold UniformDownSample
  by_cases h1 : c.HasPoints = false
  · left; simp [h1, PointCloud.Clear]
  · by_cases h2 : k ≤ 0
    · left; simp [h1, h2, PointCloud.Clear]
    · right
      obtain ⟨is, hlen, heq⟩ := uniformLoop_shape c k (toInt (c.points_.length : Int))
        c.HasNormals c.HasColors (toInt (c.points_.length : Int)).toNat 0 out0.Clear
      refine ⟨is, le_trans hlen (toInt_toNat_le _), ?_⟩
      rw [if_neg h1, if_neg h2]
      simp only []
      rw [heq]
      simp only [PointCloud.Clear, List.nil_append]

/-- The result of `ClipPointCloud`: failure with an empty output, or success with the entries
at the selected indices. -/
theorem clipPointCloud_cases (c : PointCloud) (min_bound max_bound : Vector3d)
    (out0 : PointCloud) :
    ClipPointCloud c min_bound max_bound out0 = (false, ⟨[], [], []⟩) ∨
    ClipPointCloud c min_bound max_bound out0 =
      (true,
        ⟨(clipSelected c min_bound max_bound).map (fun i => c.points_.getD i default),
         if c.HasNormals then
           (clipSelected c min_bound max_bound).map (fun i => c.normals_.getD i default)
         else [],
         if c.HasColors then
           (clipSelected c min_bound max_bound).map (fun i => c.colors_.getD i default)
         else []⟩) := by
  by_cases h1 : 0 < c.points_.length
  · by_cases h2 : min_bound.x ≤ max_bound.x ∧ min_bound.y ≤ max_bound.y ∧
        min_bound.z ≤ max_bound.z
    · right
      exact clipPointCloud_closed c min_bound max_bound out0 h1 h2
    · left
      have h3 : min_bound.x > max_bound.x ∨ min_bound.y > max_bound.y ∨
          min_bound.z > max_bound.z := by
        by_contra hcon
        simp only [gt_iff_lt, not_or, not_lt] at hcon
        exact h2 hcon
      simp [ClipPointCloud, PointCloud.HasPoints, h1, h3, PointCloud.Clear]
  · left
    have h3 : c.points_.length = 0 := by omega
    simp [ClipPointCloud, PointCloud.HasPoints, h3, PointCloud.Clear]

theorem length_clipSelected_le (c : PointCloud) (min_bound max_bound : Vector3d) :
    (clipSelected c min_bound max_bound).length ≤ c.points_.length := by
  unfold clipSelected
  have h := List.length_filter_le
    (fun i => inBox min_bound max_bound (c.points_.getD i default))
    (List.range c.points_.length)
  rw [List.length_range] at h
  exact h

/-- A cloud whose three arrays are images of one list under three maps, the normals and
colors being present or absent as a whole, is in lockstep. -/
theorem lockstep_of_shape {β : Type} (l : List β) (f g h : β → Vector3d) (hn hc : Bool) :
    ((hn = true → (if hn then l.map g else []).length = (l.map f).length) ∧
      (hn = false → (if hn then l.map g else []) = [])) ∧
    ((hc = true → (if hc then l.map h else []).length = (l.map f).length) ∧
      (hc = false → (if hc then l.map h else []) = [])) ∧
    (PointCloud.mk (l.map f) (if hn then l.map g else [])
      (if hc then l.map h else [])).Invariant := by
  unfold PointCloud.Invariant
  cases hn <;> cases hc <;> simp

theorem hasNormals_iff_of_invariant (c : PointCloud) (hpoints : 0 < c.points_.length)
    (hinv : c.Invariant) : c.HasNormals = true ↔ c.normals_ ≠ [] := by
  unfold PointCloud.HasNormals
  simp only [Bool.and_eq_true, decide_eq_true_eq]
  constructor
  · rintro ⟨_, h⟩ hnil
    rw [hnil] at h
    simp at h
    omega
  · intro h
    rcases hinv.1 with h2 | h2
    · exact absurd h2 h
    · exact ⟨hpoints, h2⟩

theorem hasColors_iff_of_invariant (c : PointCloud) (hpoints : 0 < c.points_.length)
    (hinv : c.Invariant) : c.HasColors = true ↔ c.colors_ ≠ [] := by
  unfold PointCloud.HasColors
  simp only [Bool.and_eq_true, decide_eq_true_eq]
  constructor
  · rintro ⟨_, h⟩ hnil
    rw [hnil] at h
    simp at h
    omega
  · intro h
    rcases hinv.2 with h2 | h2
    · exact absurd h2 h
    · exact ⟨hpoints, h2⟩

/-- An output of the common shape is in lockstep and satisfies the invariant. -/
theorem lockstep_of_output_shape {β : Type} (c : PointCloud) (hpoints : 0 < c.points_.length)
    (hinv : c.Invariant) (l : List β) (f g h : β → Vector3d) :
    Lockstep c ⟨l.map f, if c.HasNormals then l.map g else [],
      if c.HasColors then l.map h else []⟩ ∧
    (PointCloud.mk (l.map f) (if c.HasNormals then l.map g else [])
      (if c.HasColors then l.map h else [])).Invariant := by
  have hs := lockstep_of_shape l f g h c.HasNormals c.HasColors
  have hn := hasNormals_iff_of_invariant c hpoints hinv
  have hc := hasColors_iff_of_invariant c hpoints hinv
  refine ⟨⟨?_, ?_, ?_, ?_⟩, hs.2.2⟩
  · intro h1
    exact hs.1.1 (hn.2 h1)
  · intro h1
    apply hs.1.2
    cases h2 : c.HasNormals with
    | false => rfl
    | true => exact absurd h1 (hn.1 h2)
  · intro h1
    exact hs.2.1.1 (hc.2 h1)
  · intro h1
    apply hs.2.1.2
    cases h2 : c.HasColors with
    | false => rfl
    | true => exact absurd h1 (hc.1 h2)

theorem uniformDownSample_true_pos (c : PointCloud) (k : Int) (out0 : PointCloud)
    (h : (UniformDownSample c k out0).1 = true) : 0 < c.points_.length ∧ 0 < k := by
  unfold UniformDownSample at h
  by_cases h1 : c.HasPoints = false
  · simp [h1] at h
  · by_cases h2 : k ≤ 0
    · simp [h1, h2] at h
    · simp only [PointCloud.HasPoints, decide_eq_false_iff_not, not_not] at h1
      exact ⟨h1, not_le.1 h2⟩

theorem clipPointCloud_true_pos (c : PointCloud) (min_bound max_bound : Vector3d)
    (out0 : PointCloud) (h : (ClipPointCloud c min_bound max_bound out0).1 = true) :
    0 < c.points_.length ∧
      (min_bound.x ≤ max_bound.x ∧ min_bound.y ≤ max_bound.y ∧ min_bound.z ≤ max_bound.z) := by
  unfold ClipPointCloud at h
  by_cases h1 : c.HasPoints = false
  · simp [h1] at h
  · by_cases h2 : min_bound.x > max_bound.x ∨ min_bound.y > max_bound.y ∨
        min_bound.z > max_bound.z
    · simp [h1, h2] at h
    · simp only [PointCloud.HasPoints, decide_eq_false_iff_not, not_not] at h1
      simp only [gt_iff_lt, not_or, not_lt] at h2
      exact ⟨h1, h2⟩

theorem clipSelected_of_all_in_box (c : PointCloud) (min_bound max_bound : Vector3d)
    (hall : ∀ p ∈ c.points_, inBox min_bound max_bound p = true) :
    clipSelected c min_bound max_bound = List.range c.points_.length := by
  unfold clipSelected
  rw [List.filter_eq_self]
  intro i hi
  exact hall _ (getD_mem_of_lt c.points_ i (List.mem_range.1 hi))

/-- Clipping a cloud of the data model with a box that contains all its points returns the
cloud itself. -/
theorem clipPointCloud_identity (c : PointCloud) (min_bound max_bound : Vector3d)
    (out0 : PointCloud) (hpoints : 0 < c.points_.length)
    (hbox : min_bound.x ≤ max_bound.x ∧ min_bound.y ≤ max_bound.y ∧
      min_bound.z ≤ max_bound.z)
    (hinv : c.Invariant) (hall : ∀ p ∈ c.points_, inBox min_bound max_bound p = true) :
    ClipPointCloud c min_bound max_bound out0 = (true, c) := by
  rw [clipPointCloud_closed c _ _ out0 hpoints hbox,
    clipSelected_of_all_in_box c min_bound max_bound hall]
  have h1 := map_getD_range c.points_
  have h2 := attribute_copy c.points_ c.normals_ hpoints hinv.1
  have h3 := attribute_copy c.points_ c.colors_ hpoints hinv.2
  unfold PointCloud.HasNormals PointCloud.HasColors
  rw [h1, h2, h3]

theorem clipPointCloud_of_no_points (c : PointCloud) (min_bound max_bound : Vector3d)
    (out0 : PointCloud) (h : c.points_.length = 0) :
    ClipPointCloud c min_bound max_bound out0 = (false, ⟨[], [], []⟩) := by
  have h1 : c.HasPoints = false := by
    simp only [PointCloud.HasPoints, h]
    decide
  simp only [ClipPointCloud, h1, if_true, PointCloud.Clear]

/-! ## Composition of strides -/

theorem ceilDiv_ceilDiv (N K M : Nat) (hK : 0 < K) (hM : 0 < M) :
    ((N + K - 1) / K + M - 1) / M = (N + K * M - 1) / (K * M) := by
  have hKM : 0 < K * M := Nat.mul_pos hK hM
  apply le_antisymm
  · rw [ceilDiv_le_iff _ M _ hM, ceilDiv_le_iff _ K _ hK]
    have h := (ceilDiv_le_iff N (K * M) _ hKM).1 (le_refl _)
    calc N ≤ (N + K * M - 1) / (K * M) * (K * M) := h
      _ = (N + K * M - 1) / (K * M) * M * K := by ring
  · rw [ceilDiv_le_iff _ (K * M) _ hKM]
    have h1 := (ceilDiv_le_iff ((N + K - 1) / K) M _ hM).1 (le_refl _)
    have h2 := (ceilDiv_le_iff N K _ hK).1 h1
    calc N ≤ ((N + K - 1) / K + M - 1) / M * M * K := h2
      _ = ((N + K - 1) / K + M - 1) / M * (K * M) := by ring

theorem strideList_strideList (l : List Vector3d) (K M c1 : Nat) (hM : 0 < M) :
    strideList (strideList l K c1 0) M ((c1 + M - 1) / M) 0 =
      strideList l (K * M) ((c1 + M - 1) / M) 0 := by
  unfold strideList
  simp only [Nat.sub_zero, Nat.zero_add]
  apply List.map_congr_left
  intro t ht
  have ht2 : t < (c1 + M - 1) / M := List.mem_range.1 ht
  have ht3 : t * M < c1 := by
    by_contra hcon
    have := (ceilDiv_le_iff c1 M t hM).2 (not_lt.1 hcon)
    omega
  simp only [List.getD_eq_getElem?_getD, List.getElem?_map, List.getElem?_range ht3,
    Option.map_some', Option.getD_some]
  congr 2
  ring

theorem strideList_one (l : List Vector3d) :
    strideList l 1 ((l.length + 1 - 1) / 1) 0 = l := by
  unfold strideList
  simp only [Nat.add_sub_cancel, Nat.div_one, Nat.sub_zero, Nat.zero_add, Nat.mul_one]
  exact map_getD_range l

/-- A second `UniformDownSample` on the output of a first one. -/
theorem uniformDownSample_on_stride (p nl cl : List Vector3d) (hn hc : Bool)
    (K M c1 : Nat) (o2 : PointCloud) (hM : 0 < M) (hpos : 0 < c1)
    (hmax : (((c1 + M - 1) / M * M : Nat) : Int) ≤ 2147483647) :
    UniformDownSample
        ⟨strideList p K c1 0, if hn then strideList nl K c1 0 else [],
          if hc then strideList cl K c1 0 else []⟩ (M : Int) o2 =
      (true,
        ⟨strideList p (K * M) ((c1 + M - 1) / M) 0,
         if hn then strideList nl (K * M) ((c1 + M - 1) / M) 0 else [],
         if hc then strideList cl (K * M) ((c1 + M - 1) / M) 0 else []⟩) := by
  have hlen : (strideList p K c1 0).length = c1 := strideList_length _ _ _
  have hne : ¬ (0 = c1) := by omega
  rw [uniformDownSample_closed _ M o2 (by simp only [hlen]; exact hpos) hM
    (by simp only [hlen]; exact hmax)]
  simp only [hlen, PointCloud.HasNormals, PointCloud.HasColors]
  cases hn <;> cases hc <;>
    simp [strideList_length, strideList_strideList _ K M c1 hM, hpos, hne]

/-- Stride `K` followed by stride `M` gives the output cloud of stride `K * M`, when the loop
counter of the call with stride `K * M` does not overflow (then neither does the counter of
the two other calls). -/
theorem uniformDownSample_compose_nat (input : PointCloud) (K M : Nat)
    (o1 o2 o3 : PointCloud) (hpoints : 0 < input.points_.length) (hK : 0 < K)
    (hM : 0 < M)
    (hmax : (((input.points_.length + K * M - 1) / (K * M) * (K * M) : Nat) : Int) ≤
      2147483647) :
    (UniformDownSample (UniformDownSample input (K : Int) o1).2 (M : Int) o2).2 =
      (UniformDownSample input ((K * M : Nat) : Int) o3).2 := by
  have hKM : 0 < K * M := Nat.mul_pos hK hM
  have hcc := ceilDiv_ceilDiv input.points_.length K M hK hM
  obtain ⟨c1, hc1⟩ : ∃ c1 : Nat, c1 = (input.points_.length + K - 1) / K := ⟨_, rfl⟩
  obtain ⟨c2, hc2⟩ : ∃ c2 : Nat, c2 = (input.points_.length + K * M - 1) / (K * M) :=
    ⟨_, rfl⟩
  rw [← hc1, ← hc2] at hcc
  rw [← hc2] at hmax
  have hc1le : c1 ≤ c2 * M := by
    rw [← hcc]
    exact le_ceilDiv_mul c1 M hM
  have hpos : 0 < c1 := by
    rw [hc1]
    by_contra hcon
    have h0 : (input.points_.length + K - 1) / K ≤ 0 := by omega
    rw [ceilDiv_le_iff _ K 0 hK] at h0
    omega
  have hmax1 : (((input.points_.length + K - 1) / K * K : Nat) : Int) ≤ 2147483647 := by
    rw [← hc1]
    have : c1 * K ≤ c2 * (K * M) := by
      calc c1 * K ≤ c2 * M * K := Nat.mul_le_mul_right K hc1le
        _ = c2 * (K * M) := by ring
    exact le_trans (by exact_mod_cast this) hmax
  have hmax2 : (((c1 + M - 1) / M * M : Nat) : Int) ≤ 2147483647 := by
    rw [hcc]
    have : c2 * M ≤ c2 * (K * M) := by
      calc c2 * M = c2 * (1 * M) := by ring
        _ ≤ c2 * (K * M) := Nat.mul_le_mul_left c2 (Nat.mul_le_mul_right M hK)
    exact le_trans (by exact_mod_cast this) hmax
  rw [uniformDownSample_closed input K o1 hpoints hK hmax1,
    uniformDownSample_closed input (K * M) o3 hpoints hKM (by rw [← hc2]; exact hmax)]
  simp only []
  rw [← hc1, ← hc2, ← hcc]
  rw [uniformDownSample_on_stride _ _ _ _ _ K M c1 o2 hM hpos hmax2]

theorem attribute_stride_one (points attr : List Vector3d) (hpoints : 0 < points.length)
    (hinv : attr = [] ∨ attr.length = points.length) :
    (if (decide (0 < points.length) && decide (attr.length = points.length)) = true then
      strideList attr 1 ((points.length + 1 - 1) / 1) 0 else []) = attr := by
  by_cases h : attr.length = points.length
  · simp only [hpoints, h, decide_True, Bool.and_self, if_true]
    rw [← h]
    exact strideList_one attr
  · rcases hinv with h2 | h2
    · simp only [h, decide_False, Bool.and_false, Bool.false_eq_true, if_false]
      exact h2.symm
    · exact absurd h2 h

/-- Stride 1 on a cloud of the data model whose size fits an `int` returns the cloud. -/
theorem uniformDownSample_one (input : PointCloud) (out0 : PointCloud)
    (hpoints : 0 < input.points_.length)
    (hmax : (input.points_.length : Int) ≤ 2147483647) (hinv : input.Invariant) :
    UniformDownSample input 1 out0 = (true, input) := by
  have h := uniformDownSample_closed input 1 out0 hpoints (by decide)
    (by simpa using hmax)
  have e : ((1 : Nat) : Int) = 1 := rfl
  rw [e] at h
  rw [h]
  have h1 := strideList_one input.points_
  have h2 := attribute_stride_one input.points_ input.normals_ hpoints hinv.1
  have h3 := attribute_stride_one input.points_ input.colors_ hpoints hinv.2
  unfold PointCloud.HasNormals PointCloud.HasColors
  rw [h1, h2, h3]

/-! ## Reordering the input -/

theorem foldl_vmin_attained (ps : List Vector3d) (a : Vector3d) :
    ((ps.foldl PointCloud.vmin a).x = a.x ∨ ∃ q ∈ ps, (ps.foldl PointCloud.vmin a).x = q.x) ∧
    ((ps.foldl PointCloud.vmin a).y = a.y ∨ ∃ q ∈ ps, (ps.foldl PointCloud.vmin a).y = q.y) ∧
    ((ps.foldl PointCloud.vmin a).z = a.z ∨ ∃ q ∈ ps, (ps.foldl PointCloud.vmin a).z = q.z) := by
  induction ps generalizing a with
  | nil => simp
  | cons p ps ih =>
    obtain ⟨hx, hy, hz⟩ := ih (PointCloud.vmin a p)
    simp only [List.foldl_cons]
    refine ⟨?_, ?_, ?_⟩
    · rcases hx with h | ⟨q, hq, h⟩
      · rcases min_choice a.x p.x with h2 | h2
        · left; rw [h]; exact h2
        · right; exact ⟨p, by simp, by rw [h]; exact h2⟩
      · right; exact ⟨q, by simp [hq], h⟩
    · rcases hy with h | ⟨q, hq, h⟩
      · rcases min_choice a.y p.y with h2 | h2
        · left; rw [h]; exact h2
        · right; exact ⟨p, by simp, by rw [h]; exact h2⟩
      · right; exact ⟨q, by simp [hq], h⟩
    · rcases hz with h | ⟨q, hq, h⟩
      · rcases min_choice a.z p.z with h2 | h2
        · left; rw [h]; exact h2
        · right; exact ⟨p, by simp, by rw [h]; exact h2⟩
      · right; exact ⟨q, by simp [hq], h⟩

theorem foldl_vmax_attained (ps : List Vector3d) (a : Vector3d) :
    ((ps.foldl PointCloud.vmax a).x = a.x ∨ ∃ q ∈ ps, (ps.foldl PointCloud.vmax a).x = q.x) ∧
    ((ps.foldl PointCloud.vmax a).y = a.y ∨ ∃ q ∈ ps, (ps.foldl PointCloud.vmax a).y = q.y) ∧
    ((ps.foldl PointCloud.vmax a).z = a.z ∨ ∃ q ∈ ps, (ps.foldl PointCloud.vmax a).z = q.z) := by
  induction ps generalizing a with
  | nil => simp
  | cons p ps ih =>
    obtain ⟨hx, hy, hz⟩ := ih (PointCloud.vmax a p)
    simp only [List.foldl_cons]
    refine ⟨?_, ?_, ?_⟩
    · rcases hx with h | ⟨q, hq, h⟩
      · rcases max_choice a.x p.x with h2 | h2
        · left; rw [h]; exact h2
        · right; exact ⟨p, by simp, by rw [h]; exact h2⟩
      · right; exact ⟨q, by simp [hq], h⟩
    · rcases hy with h | ⟨q, hq, h⟩
      · rcases max_choice a.y p.y with h2 | h2
        · left; rw [h]; exact h2
        · right; exact ⟨p, by simp, by rw [h]; exact h2⟩
      · right; exact ⟨q, by simp [hq], h⟩
    · rcases hz with h | ⟨q, hq, h⟩
      · rcases max_choice a.z p.z with h2 | h2
        · left; rw [h]; exact h2
        · right; exact ⟨p, by simp, by rw [h]; exact h2⟩
      · right; exact ⟨q, by simp [hq], h⟩

theorem getMinBound_attained (c : PointCloud) (h : 0 < c.points_.length) :
    (∃ q ∈ c.points_, c.GetMinBound.x = q.x) ∧ (∃ q ∈ c.points_, c.GetMinBound.y = q.y) ∧
      (∃ q ∈ c.points_, c.GetMinBound.z = q.z) := by
  unfold PointCloud.GetMinBound
  cases hc : c.points_ with
  | nil => rw [hc] at h; simp at h
  | cons a ps =>
    simp only
    obtain ⟨hx, hy, hz⟩ := foldl_vmin_attained ps a
    refine ⟨?_, ?_, ?_⟩
    · rcases hx with h1 | ⟨q, hq, h1⟩
      · exact ⟨a, by simp, h1⟩
      · exact ⟨q, by simp [hq], h1⟩
    · rcases hy with h1 | ⟨q, hq, h1⟩
      · exact ⟨a, by simp, h1⟩
      · exact ⟨q, by simp [hq], h1⟩
    · rcases hz with h1 | ⟨q, hq, h1⟩
      · exact ⟨a, by simp, h1⟩
      · exact ⟨q, by simp [hq], h1⟩

theorem getMaxBound_attained (c : PointCloud) (h : 0 < c.points_.length) :
    (∃ q ∈ c.points_, c.GetMaxBound.x = q.x) ∧ (∃ q ∈ c.points_, c.GetMaxBound.y = q.y) ∧
      (∃ q ∈ c.points_, c.GetMaxBound.z = q.z) := by
  unfold PointCloud.GetMaxBound
  cases hc : c.points_ with
  | nil => rw [hc] at h; simp at h
  | cons a ps =>
    simp only
    obtain ⟨hx, hy, hz⟩ := foldl_vmax_attained ps a
    refine ⟨?_, ?_, ?_⟩
    · rcases hx with h1 | ⟨q, hq, h1⟩
      · exact ⟨a, by simp, h1⟩
      · exact ⟨q, by simp [hq], h1⟩
    · rcases hy with h1 | ⟨q, hq, h1⟩
      · exact ⟨a, by simp, h1⟩
      · exact ⟨q, by simp [hq], h1⟩
    · rcases hz with h1 | ⟨q, hq, h1⟩
      · exact ⟨a, by simp, h1⟩
      · exact ⟨q, by simp [hq], h1⟩

theorem vector3d_ext (a b : Vector3d) (hx : a.x = b.x) (hy : a.y = b.y) (hz : a.z = b.z) :
    a = b := by
  cases a; cases b
  simp only at hx hy hz
  rw [hx, hy, hz]

/-- The bounds depend on the points only up to order. -/
theorem bounds_of_perm (c1 c2 : PointCloud) (h : c1.points_.Perm c2.points_) :
    c1.GetMinBound = c2.GetMinBound ∧ c1.GetMaxBound = c2.GetMaxBound := by
  by_cases h0 : 0 < c1.points_.length
  · have h0b : 0 < c2.points_.length := by rw [← h.length_eq]; exact h0
    obtain ⟨⟨p1, hp1, e1⟩, ⟨p2, hp2, e2⟩, ⟨p3, hp3, e3⟩⟩ := getMinBound_attained c1 h0
    obtain ⟨⟨q1, hq1, f1⟩, ⟨q2, hq2, f2⟩, ⟨q3, hq3, f3⟩⟩ := getMinBound_attained c2 h0b
    obtain ⟨⟨P1, hP1, E1⟩, ⟨P2, hP2, E2⟩, ⟨P3, hP3, E3⟩⟩ := getMaxBound_attained c1 h0
    obtain ⟨⟨Q1, hQ1, F1⟩, ⟨Q2, hQ2, F2⟩, ⟨Q3, hQ3, F3⟩⟩ := getMaxBound_attained c2 h0b
    constructor
    · apply vector3d_ext
      · apply le_antisymm
        · rw [f1]; exact (getMinBound_le c1 q1 (h.mem_iff.2 hq1)).1
        · rw [e1]; exact (getMinBound_le c2 p1 (h.mem_iff.1 hp1)).1
      · apply le_antisymm
        · rw [f2]; exact (getMinBound_le c1 q2 (h.mem_iff.2 hq2)).2.1
        · rw [e2]; exact (getMinBound_le c2 p2 (h.mem_iff.1 hp2)).2.1
      · apply le_antisymm
        · rw [f3]; exact (getMinBound_le c1 q3 (h.mem_iff.2 hq3)).2.2
        · rw [e3]; exact (getMinBound_le c2 p3 (h.mem_iff.1 hp3)).2.2
    · apply vector3d_ext
      · apply le_antisymm
        · rw [E1]; exact (le_getMaxBound c2 P1 (h.mem_iff.1 hP1)).1
        · rw [F1]; exact (le_getMaxBound c1 Q1 (h.mem_iff.2 hQ1)).1
      · apply le_antisymm
        · rw [E2]; exact (le_getMaxBound c2 P2 (h.mem_iff.1 hP2)).2.1
        · rw [F2]; exact (le_getMaxBound c1 Q2 (h.mem_iff.2 hQ2)).2.1
      · apply le_antisymm
        · rw [E3]; exact (le_getMaxBound c2 P3 (h.mem_iff.1 hP3)).2.2
        · rw [F3]; exact (le_getMaxBound c1 Q3 (h.mem_iff.2 hQ3)).2.2
  · have h1 : c1.points_ = [] := by
      cases hc : c1.points_ with
      | nil => rfl
      | cons a t => rw [hc] at h0; simp at h0
    have h2 : c2.points_ = [] := by
      rw [h1] at h
      exact List.perm_nil.1 h.symm
    simp [PointCloud.GetMinBound, PointCloud.GetMaxBound, h1, h2]

/-- In exact arithmetic the accumulated sum is the sum, coordinate by coordinate. -/
theorem vsum_exact (ps : List Vector3d) :
    vsum FloatOps.exact ps =
      ⟨(ps.map Vector3d.x).sum, (ps.map Vector3d.y).sum, (ps.map Vector3d.z).sum⟩ := by
  induction ps using List.reverseRecOn with
  | nil => rfl
  | append_singleton ps p ih =>
    rw [vsum_append_singleton, ih]
    simp only [Vector3d.add, FloatOps.exact, List.map_append, List.sum_append, List.map_cons,
      List.map_nil, List.sum_cons, List.sum_nil, add_zero]

theorem vsum_perm (l1 l2 : List Vector3d) (h : l1.Perm l2) :
    vsum FloatOps.exact l1 = vsum FloatOps.exact l2 := by
  rw [vsum_exact, vsum_exact, (h.map Vector3d.x).sum_eq, (h.map Vector3d.y).sum_eq,
    (h.map Vector3d.z).sum_eq]

theorem accAverage_perm (l1 l2 : List Vector3d) (h : l1.Perm l2) :
    accAverage FloatOps.exact l1 = accAverage FloatOps.exact l2 := by
  unfold accAverage
  rw [vsum_perm l1 l2 h, h.length_eq]

theorem length_of_perm_range (σ : List Nat) (n : Nat) (h : σ.Perm (List.range n)) :
    σ.length = n := by
  rw [h.length_eq, List.length_range]

theorem permuteList_length (σ : List Nat) (l : List Vector3d) :
    (permuteList σ l).length = l.length := by
  unfold permuteList
  split
  · rename_i h
    rw [List.length_map, h]
  · rfl

theorem permuteList_eq_map (σ : List Nat) (l : List Vector3d) (h : l.length = σ.length) :
    permuteList σ l = σ.map (fun i => l.getD i default) := by
  unfold permuteList
  rw [if_pos h]

theorem permuteList_perm (σ : List Nat) (l : List Vector3d)
    (h : σ.Perm (List.range l.length)) : (permuteList σ l).Perm l := by
  rw [permuteList_eq_map σ l (length_of_perm_range σ _ h).symm]
  have h2 := h.map (fun i => l.getD i default)
  rw [map_getD_range] at h2
  exact h2

theorem permuteCloud_has (σ : List Nat) (c : PointCloud) :
    (permuteCloud σ c).HasPoints = c.HasPoints ∧
    (permuteCloud σ c).HasNormals = c.HasNormals ∧
    (permuteCloud σ c).HasColors = c.HasColors := by
  simp only [PointCloud.HasPoints, PointCloud.HasNormals, PointCloud.HasColors, permuteCloud,
    permuteList_length, and_self]

theorem pointIndex_congr (fp : FloatOps) (c1 c2 : PointCloud) (s : ℚ)
    (h : c1.GetMinBound = c2.GetMinBound) : pointIndex fp c1 s = pointIndex fp c2 s := by
  funext p
  unfold pointIndex voxelMinBound
  rw [h]

theorem passesExtentGuard_congr (fp : FloatOps) (c1 c2 : PointCloud) (s : ℚ)
    (h1 : c1.GetMinBound = c2.GetMinBound) (h2 : c1.GetMaxBound = c2.GetMaxBound) :
    passesExtentGuard fp c1 s ↔ passesExtentGuard fp c2 s := by
  unfold passesExtentGuard voxelMinBound voxelMaxBound
  rw [h1, h2]

theorem occupied_perm (fp : FloatOps) (c1 c2 : PointCloud) (s : ℚ)
    (h : c1.points_.Perm c2.points_) (hb : c1.GetMinBound = c2.GetMinBound) :
    (occupied fp c1 s).Perm (occupied fp c2 s) := by
  unfold occupied
  rw [pointIndex_congr fp c1 c2 s hb]
  rw [List.perm_ext_iff_of_nodup (List.nodup_dedup _) (List.nodup_dedup _)]
  intro v
  rw [List.mem_dedup, List.mem_dedup]
  exact (h.map _).mem_iff

theorem voxelPoints_perm (fp : FloatOps) (c1 c2 : PointCloud) (s : ℚ)
    (h : c1.points_.Perm c2.points_) (hb : c1.GetMinBound = c2.GetMinBound)
    (v : VoxelIndex3) : (voxelPoints fp c1 s v).Perm (voxelPoints fp c2 s v) := by
  unfold voxelPoints
  rw [pointIndex_congr fp c1 c2 s hb]
  exact h.filter _

theorem voxelColors_eq_rows (fp : FloatOps) (c : PointCloud) (s : ℚ) (v : VoxelIndex3) :
    voxelColors fp c s v =
      (((List.range c.points_.length).map
          (fun i => (c.points_.getD i default, c.colors_.getD i default))).filter
        (fun r => decide (pointIndex fp c s r.1 = v))).map Prod.snd := by
  rw [List.filter_map, List.map_map]
  rfl

theorem rows_permute (σ : List Nat) (p q : List Vector3d) (hp : p.length = σ.length)
    (hq : q.length = σ.length) :
    (List.range (permuteList σ p).length).map
        (fun j => ((permuteList σ p).getD j default, (permuteList σ q).getD j default)) =
      σ.map (fun i => (p.getD i default, q.getD i default)) := by
  rw [permuteList_eq_map σ p hp, permuteList_eq_map σ q hq]
  apply List.ext_getElem
  · simp
  · intro j h1 h2
    have hj : j < σ.length := by simpa using h2
    simp [List.getD_eq_getElem?_getD, List.getElem?_eq_getElem hj]

theorem voxelColors_perm (fp : FloatOps) (σ : List Nat) (c : PointCloud) (s : ℚ)
    (v : VoxelIndex3) (hσ : σ.Perm (List.range c.points_.length))
    (hc : c.HasColors = true)
    (hb : (permuteCloud σ c).GetMinBound = c.GetMinBound) :
    (voxelColors fp (permuteCloud σ c) s v).Perm (voxelColors fp c s v) := by
  have hlen := length_of_perm_range σ _ hσ
  have hcl : c.colors_.length = σ.length := by
    simp only [PointCloud.HasColors, Bool.and_eq_true, decide_eq_true_eq] at hc
    rw [hlen]
    exact hc.2
  rw [voxelColors_eq_rows, voxelColors_eq_rows, pointIndex_congr fp _ c s hb]
  have hrows := rows_permute σ c.points_ c.colors_ hlen.symm hcl
  have e : (permuteCloud σ c).points_ = permuteList σ c.points_ := rfl
  have e2 : (permuteCloud σ c).colors_ = permuteList σ c.colors_ := rfl
  rw [e, e2, hrows]
  exact ((hσ.map _).filter _).map _

/-! ## Clouds of copies of one point -/

/-- In exact arithmetic `N` copies of a vector add up to `N` times the vector. -/
theorem vsum_exact_replicate (N : Nat) (p : Vector3d) :
    vsum FloatOps.exact (List.replicate N p) =
      ⟨(N : ℚ) * p.x, (N : ℚ) * p.y, (N : ℚ) * p.z⟩ := by
  rw [vsum_exact]
  simp only [List.map_replicate, List.sum_replicate, nsmul_eq_mul]

/-- The output of `VoxelDownSample` on a cloud of `N` copies of the point `p`, each with the
color `q` and without normals, once the extent guard is passed: one point and one color,
each the sum of the `N` copies divided by the 32-bit count `toInt N`. -/
theorem voxelDownSample_of_replicate (fp : FloatOps) (normalized : Vector3d → Vector3d)
    (N : Nat) (p q : Vector3d) (s : ℚ) (out0 : PointCloud) (hN : 0 < N) (hs : 0 < s)
    (hg : passesExtentGuard fp ⟨List.replicate N p, [], List.replicate N q⟩ s) :
    VoxelDownSample fp normalized ⟨List.replicate N p, [], List.replicate N q⟩ s out0 =
      (true,
        ⟨[(vsum fp (List.replicate N p)).sdiv fp ((toInt (N : Int) : Int) : ℚ)], [],
         [(vsum fp (List.replicate N q)).sdiv fp ((toInt (N : Int) : Int) : ℚ)]⟩) := by
  have hlen : (PointCloud.mk (List.replicate N p) [] (List.replicate N q)).points_.length =
      N := List.length_replicate _ _
  have hpoints : 0 < (PointCloud.mk (List.replicate N p) []
      (List.replicate N q)).points_.length := by
    rw [hlen]
    exact hN
  have hsucc := (voxelDownSample_true_iff fp normalized _ s out0).2 ⟨hpoints, hs, hg⟩
  have hnormals : (PointCloud.mk (List.replicate N p) []
      (List.replicate N q)).HasNormals = false := by
    simp only [PointCloud.HasNormals, List.length_replicate, List.length_nil]
    have : ¬ (0 = N) := by omega
    simp [this]
  have hcolors : (PointCloud.mk (List.replicate N p) []
      (List.replicate N q)).HasColors = true := by
    simp only [PointCloud.HasColors, List.length_replicate]
    simp [hN]
  have hmapp : (List.range N).map (fun i => (List.replicate N p).getD i default) =
      List.replicate N p := by
    have h1 := map_getD_range (List.replicate N p)
    rw [List.length_replicate] at h1
    exact h1
  have hmapq : (List.range N).map (fun i => (List.replicate N q).getD i default) =
      List.replicate N q := by
    have h1 := map_getD_range (List.replicate N q)
    rw [List.length_replicate] at h1
    exact h1
  obtain ⟨h1, h2, _, h4⟩ := foldl_addPoint fp
    ⟨List.replicate N p, [], List.replicate N q⟩ (List.range N)
  rw [List.length_range] at h1
  rw [hcolors] at h4
  simp only [if_true] at h4
  have hroll : ∀ b : Bool × PointCloud, b.1 = true →
      b.2 = ⟨[(vsum fp (List.replicate N p)).sdiv fp ((toInt (N : Int) : Int) : ℚ)], [],
         [(vsum fp (List.replicate N q)).sdiv fp ((toInt (N : Int) : Int) : ℚ)]⟩ →
      b = (true, ⟨[(vsum fp (List.replicate N p)).sdiv fp ((toInt (N : Int) : Int) : ℚ)], [],
         [(vsum fp (List.replicate N q)).sdiv fp ((toInt (N : Int) : Int) : ℚ)]⟩) := by
    intro b hb1 hb2
    exact Prod.ext hb1 hb2
  apply hroll _ hsucc
  rw [voxelDownSample_output fp normalized _ s out0 hsucc,
    voxelAccumulate_of_replicate fp _ s N p hN rfl, hnormals, hcolors]
  simp only [List.map_cons, List.map_nil, if_true, AccumulatedPoint.GetAveragePoint,
    AccumulatedPoint.GetAverageColor, h1, h2, h4]
  rw [hmapp, hmapq]
  simp

/-- The output of `VoxelDownSample` on a cloud of `N` copies of the point `p`, without
normals and colors, once the extent guard is passed: one point, the sum of the `N` copies
divided by the 32-bit count `toInt N`. -/
theorem voxelDownSample_of_replicate_points (fp : FloatOps)
    (normalized : Vector3d → Vector3d) (N : Nat) (p : Vector3d) (s : ℚ) (out0 : PointCloud)
    (hN : 0 < N) (hs : 0 < s) (hg : passesExtentGuard fp ⟨List.replicate N p, [], []⟩ s) :
    VoxelDownSample fp normalized ⟨List.replicate N p, [], []⟩ s out0 =
      (true,
        ⟨[(vsum fp (List.replicate N p)).sdiv fp ((toInt (N : Int) : Int) : ℚ)], [], []⟩) := by
  have hlen : (PointCloud.mk (List.replicate N p) [] []).points_.length = N :=
    List.length_replicate _ _
  have hpoints : 0 < (PointCloud.mk (List.replicate N p) [] []).points_.length := by
    rw [hlen]
    exact hN
  have hsucc := (voxelDownSample_true_iff fp normalized _ s out0).2 ⟨hpoints, hs, hg⟩
  have hne : ¬ (0 = N) := by omega
  have hnormals : (PointCloud.mk (List.replicate N p) [] []).HasNormals = false := by
    simp only [PointCloud.HasNormals, List.length_replicate, List.length_nil]
    simp [hne]
  have hcolors : (PointCloud.mk (List.replicate N p) [] []).HasColors = false := by
    simp only [PointCloud.HasColors, List.length_replicate, List.length_nil]
    simp [hne]
  have hmapp : (List.range N).map (fun i => (List.replicate N p).getD i default) =
      List.replicate N p := by
    have h1 := map_getD_range (List.replicate N p)
    rw [List.length_replicate] at h1
    exact h1
  obtain ⟨h1, h2, _, _⟩ := foldl_addPoint fp ⟨List.replicate N p, [], []⟩ (List.range N)
  rw [List.length_range] at h1
  have hroll : ∀ b : Bool × PointCloud, b.1 = true →
      b.2 = ⟨[(vsum fp (List.replicate N p)).sdiv fp ((toInt (N : Int) : Int) : ℚ)], [],
        []⟩ →
      b = (true, ⟨[(vsum fp (List.replicate N p)).sdiv fp ((toInt (N : Int) : Int) : ℚ)], [],
        []⟩) := by
    intro b hb1 hb2
    exact Prod.ext hb1 hb2
  apply hroll _ hsucc
  rw [voxelDownSample_output fp normalized _ s out0 hsucc,
    voxelAccumulate_of_replicate fp _ s N p hN rfl, hnormals, hcolors]
  simp only [List.map_cons, List.map_nil, AccumulatedPoint.GetAveragePoint, h1, h2]
  rw [hmapp]
  simp

/-! ## Binary64 arithmetic on small integers -/

theorem halvings_le (fuel : Nat) : ∀ n k : Nat, n < 2 ^ (k + 1) → halvings fuel n ≤ k := by
  induction fuel with
  | zero =>
    intro n k _
    exact Nat.zero_le _
  | succ fuel ih =>
    intro n k h
    unfold halvings
    split
    · rename_i h2
      obtain ⟨j, rfl⟩ : ∃ j, k = j + 1 := by
        cases k with
        | zero =>
          simp at h
          omega
        | succ j => exact ⟨j, rfl⟩
      have hdiv : n / 2 < 2 ^ (j + 1) := by
        rw [Nat.div_lt_iff_lt_mul (by decide)]
        rw [pow_succ] at h
        exact h
      have := ih (n / 2) j hdiv
      omega
    · exact Nat.zero_le _

theorem bitLog_le (n k : Nat) (h : n < 2 ^ (k + 1)) : bitLog n ≤ k :=
  halvings_le n n k h

theorem floorLog2_one_le (n : Nat) : floorLog2 n 1 ≤ (bitLog n : Int) := by
  have h1 : bitLog 1 = 0 := by decide
  unfold floorLog2
  simp only [h1]
  split
  · split
    · simp
    · simp
  · split
    · simp
    · simp

theorem roundHalfEven_natCast (m : Nat) : roundHalfEven (m : ℚ) = (m : Int) := by
  unfold roundHalfEven
  have hf : ⌊(m : ℚ)⌋ = (m : Int) := Int.floor_natCast m
  simp only [hf]
  have : ((m : ℚ) - (((m : Int)) : ℚ)) < 1 / 2 := by
    push_cast
    norm_num
  rw [if_pos this]

theorem pow2_neg (k : Nat) : pow2 (-(k : Int)) = 1 / ((2 ^ k : Nat) : ℚ) := by
  unfold pow2
  cases k with
  | zero => simp
  | succ j =>
    have : ¬ (-(((j + 1 : Nat)) : Int) ≥ 0) := by
      push_cast
      omega
    rw [if_neg this]
    simp

/-- Rounding at an exponent of at most `52` leaves a natural number as it is. -/
theorem roundHalfEven_scaled (n : Nat) (e : Int) (he : e ≤ 52) :
    (roundHalfEven ((n : ℚ) / pow2 (e - 52)) : ℚ) * pow2 (e - 52) = (n : ℚ) := by
  obtain ⟨k, hk⟩ : ∃ k : Nat, e - 52 = -(k : Int) := ⟨(52 - e).toNat, by omega⟩
  rw [hk, pow2_neg]
  have hpos : (0 : ℚ) < ((2 ^ k : Nat) : ℚ) := by positivity
  have e1 : (n : ℚ) / (1 / ((2 ^ k : Nat) : ℚ)) = ((n * 2 ^ k : Nat) : ℚ) := by
    push_cast
    field_simp
  rw [e1, roundHalfEven_natCast]
  push_cast
  field_simp

/-- Every natural number below `2^53` is a `double`: rounding leaves it as it is. -/
theorem round64_natCast (n : Nat) (h : n < 2 ^ 53) : round64 (n : ℚ) = (n : ℚ) := by
  unfold round64
  by_cases h0 : (n : ℚ) = 0
  · rw [if_pos h0, h0]
  · rw [if_neg h0]
    have hnn : (0 : ℚ) ≤ (n : ℚ) := Nat.cast_nonneg n
    have habs : |(n : ℚ)| = (n : ℚ) := abs_of_nonneg hnn
    have hneg : ¬ ((n : ℚ) < 0) := not_lt.2 hnn
    simp only [habs, if_neg hneg]
    apply roundHalfEven_scaled
    apply max_le
    · have h1 : ((n : ℚ)).num.toNat = n := by simp
      have h2 : ((n : ℚ)).den = 1 := by simp
      rw [h1, h2]
      have := bitLog_le n 52 h
      have := floorLog2_one_le n
      omega
    · decide

/-- In binary64 arithmetic `N` copies of `(1,0,0)` add up to `(N,0,0)`, for `N` below
`2^53`. -/
theorem vsum_binary64_replicate (N : Nat) (h : N < 2 ^ 53) :
    vsum FloatOps.binary64 (List.replicate N ⟨1, 0, 0⟩) = ⟨(N : ℚ), 0, 0⟩ := by
  induction N with
  | zero => rfl
  | succ n ih =>
    rw [List.replicate_succ', vsum_append_singleton, ih (by omega)]
    have e0 : round64 ((0 : ℚ) + 0) = 0 := by
      rw [add_zero]
      rfl
    have e1 : round64 ((n : ℚ) + 1) = ((n + 1 : Nat) : ℚ) := by
      have := round64_natCast (n + 1) h
      push_cast at this
      push_cast
      exact this
    show Vector3d.mk (round64 ((n : ℚ) + 1)) (round64 ((0 : ℚ) + 0)) (round64 ((0 : ℚ) + 0)) =
      ⟨((n + 1 : Nat) : ℚ), 0, 0⟩
    rw [e0, e1]

/-- A cloud of copies of one point passes the extent guard when the cloud of that one point
does: the two have the same bounds. -/
theorem passesExtentGuard_of_replicate_point (fp : FloatOps) (c : PointCloud) (s : ℚ)
    (N : Nat) (p : Vector3d) (hN : 0 < N) (h : c.points_ = List.replicate N p)
    (hg : passesExtentGuard fp ⟨[p], [], []⟩ s) : passesExtentGuard fp c s := by
  obtain ⟨hmin, hmax⟩ := bounds_of_replicate c N p hN h
  obtain ⟨hmin1, hmax1⟩ := bounds_of_replicate ⟨[p], [], []⟩ 1 p (by decide) rfl
  unfold passesExtentGuard voxelMinBound voxelMaxBound at hg ⊢
  rw [hmin, hmax]
  rw [hmin1, hmax1] at hg
  exact hg

/-- The arithmetic mean of `N >= 1` copies of a vector is the vector. -/
theorem mean_exact_replicate (N : Nat) (hN : 0 < N) (p : Vector3d) :
    mean FloatOps.exact (List.replicate N p) = p := by
  unfold mean
  rw [vsum_exact_replicate, List.length_replicate]
  have h : (N : ℚ) ≠ 0 := Nat.cast_ne_zero.2 (by omega)
  show Vector3d.mk ((N : ℚ) * p.x / (N : ℚ)) ((N : ℚ) * p.y / (N : ℚ))
    ((N : ℚ) * p.z / (N : ℚ)) = p
  rw [mul_div_cancel_left₀ _ h, mul_div_cancel_left₀ _ h, mul_div_cancel_left₀ _ h]

/-- The extent of a cloud of copies of one point is zero on every axis. -/
theorem extent_of_replicate (c : PointCloud) (N : Nat) (p : Vector3d) (hN : 0 < N)
    (h : c.points_ = List.replicate N p) : extent c = ⟨0, 0, 0⟩ := by
  obtain ⟨hmin, hmax⟩ := bounds_of_replicate c N p hN h
  unfold extent
  rw [hmin, hmax]
  show Vector3d.mk (p.x - p.x) (p.y - p.y) (p.z - p.z) = ⟨0, 0, 0⟩
  rw [sub_self, sub_self, sub_self]

/-- The 32-bit count wraps: on `2^31` copies of the point `(1,0,0)` with `voxel_size = 1`,
`VoxelDownSample` in binary64 arithmetic emits the single point `(-1,0,0)`, the sum
`(2^31,0,0)` divided by the count `-2^31`. -/
theorem voxelDownSample_wrapped_count :
    VoxelDownSample FloatOps.binary64 id ⟨List.replicate 2147483648 ⟨1, 0, 0⟩, [], []⟩ 1
      ⟨[], [], []⟩ = (true, ⟨[⟨-1, 0, 0⟩], [], []⟩) := by
  have hN : 0 < 2147483648 := by decide
  have hg := passesExtentGuard_of_replicate_point FloatOps.binary64
    ⟨List.replicate 2147483648 ⟨1, 0, 0⟩, [], []⟩ 1 2147483648 ⟨1, 0, 0⟩ hN rfl (by decide!)
  have hwrap : toInt ((2147483648 : Nat) : Int) = -2147483648 := by decide
  have hquot : (Vector3d.mk ((2147483648 : Nat) : ℚ) 0 0).sdiv FloatOps.binary64
      (((-2147483648 : Int)) : ℚ) = ⟨-1, 0, 0⟩ := by decide!
  rw [voxelDownSample_of_replicate_points FloatOps.binary64 id 2147483648 ⟨1, 0, 0⟩ 1
    ⟨[], [], []⟩ hN (by norm_num) hg, vsum_binary64_replicate 2147483648 (by decide),
    hwrap, hquot]

/-! ## Exact arithmetic: indices and means -/

/-- One coordinate of the index computation: with `lo ≤ c ≤ hi` and the guard
`hi - lo + s ≤ s * INT_MAX`, the floor of `(c - (lo - s/2)) / s` is in `[0, INT_MAX)`. -/
theorem floor_coord_range (s lo hi c : ℚ) (hs : 0 < s) (h1 : lo ≤ c) (h2 : c ≤ hi)
    (hg : hi + s / 2 - (lo - s / 2) ≤ s * (INT_MAX : ℚ)) :
    0 ≤ ⌊(c - (lo - s / 2)) / s⌋ ∧ ⌊(c - (lo - s / 2)) / s⌋ < INT_MAX := by
  constructor
  · apply Int.floor_nonneg.2
    apply div_nonneg _ hs.le
    linarith
  · rw [Int.floor_lt]
    rw [div_lt_iff₀ hs]
    have : (INT_MAX : ℚ) * s = s * (INT_MAX : ℚ) := mul_comm _ _
    linarith

theorem maxCoeff_padded_exact (c : PointCloud) (s : ℚ) :
    ((voxelMaxBound FloatOps.exact c s).sub FloatOps.exact
      (voxelMinBound FloatOps.exact c s)).maxCoeff =
      max (max (c.GetMaxBound.x + s * (1 / 2) - (c.GetMinBound.x - s * (1 / 2)))
        (c.GetMaxBound.y + s * (1 / 2) - (c.GetMinBound.y - s * (1 / 2))))
        (c.GetMaxBound.z + s * (1 / 2) - (c.GetMinBound.z - s * (1 / 2))) := rfl

theorem pointIndex_exact (c : PointCloud) (s : ℚ) (p : Vector3d) :
    pointIndex FloatOps.exact c s p =
      (toInt ⌊(p.x - (c.GetMinBound.x - s * (1 / 2))) / s⌋,
       toInt ⌊(p.y - (c.GetMinBound.y - s * (1 / 2))) / s⌋,
       toInt ⌊(p.z - (c.GetMinBound.z - s * (1 / 2))) / s⌋) := rfl

theorem mul_exact (a b : ℚ) : FloatOps.exact.mul a b = a * b := rfl

theorem extent_le_of_guard (c : PointCloud) (s : ℚ)
    (hg : passesExtentGuard FloatOps.exact c s) :
    c.GetMaxBound.x + s / 2 - (c.GetMinBound.x - s / 2) ≤ s * (INT_MAX : ℚ) ∧
    c.GetMaxBound.y + s / 2 - (c.GetMinBound.y - s / 2) ≤ s * (INT_MAX : ℚ) ∧
    c.GetMaxBound.z + s / 2 - (c.GetMinBound.z - s / 2) ≤ s * (INT_MAX : ℚ) := by
  unfold passesExtentGuard at hg
  have h := not_lt.1 hg
  rw [maxCoeff_padded_exact, mul_exact] at h
  have hx := le_trans (le_trans (le_max_left _ _) (le_max_left _ _)) h
  have hy := le_trans (le_trans (le_max_right _ _) (le_max_left _ _)) h
  have hz := le_trans (le_max_right _ _) h
  refine ⟨?_, ?_, ?_⟩ <;> linarith

/-- In exact arithmetic, once the guard is passed, the index computed by the code for a point
between the bounds is the mathematical floor: the conversion to `int` does not wrap. -/
theorem pointIndex_eq_spec_of_bounds (c : PointCloud) (s : ℚ) (hs : 0 < s)
    (hg : passesExtentGuard FloatOps.exact c s) (p : Vector3d)
    (hx : c.GetMinBound.x ≤ p.x ∧ p.x ≤ c.GetMaxBound.x)
    (hy : c.GetMinBound.y ≤ p.y ∧ p.y ≤ c.GetMaxBound.y)
    (hz : c.GetMinBound.z ≤ p.z ∧ p.z ≤ c.GetMaxBound.z) :
    pointIndex FloatOps.exact c s p = specVoxelIndex c s p := by
  obtain ⟨gx, gy, gz⟩ := extent_le_of_guard c s hg
  have rx := floor_coord_range s _ _ _ hs hx.1 hx.2 gx
  have ry := floor_coord_range s _ _ _ hs hy.1 hy.2 gy
  have rz := floor_coord_range s _ _ _ hs hz.1 hz.2 gz
  have e2 : s * (1 / 2) = s / 2 := by ring
  rw [pointIndex_exact, e2, toInt_of_range _ rx.1 rx.2, toInt_of_range _ ry.1 ry.2,
    toInt_of_range _ rz.1 rz.2]
  rfl

theorem pointIndex_eq_spec (c : PointCloud) (s : ℚ) (hs : 0 < s)
    (hg : passesExtentGuard FloatOps.exact c s) (p : Vector3d) (hp : p ∈ c.points_) :
    pointIndex FloatOps.exact c s p = specVoxelIndex c s p := by
  obtain ⟨lx, ly, lz⟩ := getMinBound_le c p hp
  obtain ⟨ux, uy, uz⟩ := le_getMaxBound c p hp
  exact pointIndex_eq_spec_of_bounds c s hs hg p ⟨lx, ux⟩ ⟨ly, uy⟩ ⟨lz, uz⟩

theorem sum_ge_of_forall_ge (l : List ℚ) (a : ℚ) (h : ∀ x ∈ l, a ≤ x) :
    (l.length : ℚ) * a ≤ l.sum := by
  induction l with
  | nil => simp
  | cons x t ih =>
    have h1 := h x (by simp)
    have h2 := ih (fun y hy => h y (by simp [hy]))
    simp only [List.length_cons, List.sum_cons, Nat.cast_add, Nat.cast_one]
    linarith

theorem sum_le_of_forall_le (l : List ℚ) (b : ℚ) (h : ∀ x ∈ l, x ≤ b) :
    l.sum ≤ (l.length : ℚ) * b := by
  induction l with
  | nil => simp
  | cons x t ih =>
    have h1 := h x (by simp)
    have h2 := ih (fun y hy => h y (by simp [hy]))
    simp only [List.length_cons, List.sum_cons, Nat.cast_add, Nat.cast_one]
    linarith

theorem sum_lt_of_forall_lt (l : List ℚ) (b : ℚ) (hne : l ≠ []) (h : ∀ x ∈ l, x < b) :
    l.sum < (l.length : ℚ) * b := by
  cases l with
  | nil => exact absurd rfl hne
  | cons x t =>
    have h1 := h x (by simp)
    have h2 := sum_le_of_forall_le t b (fun y hy => (h y (by simp [hy])).le)
    simp only [List.length_cons, List.sum_cons, Nat.cast_add, Nat.cast_one]
    linarith

theorem length_pos_cast (l : List ℚ) (hne : l ≠ []) : (0 : ℚ) < (l.length : ℚ) := by
  have : 0 < l.length := List.length_pos.2 hne
  exact_mod_cast this

/-- The mean of numbers of one grid cell lies in that cell. -/
theorem floor_mean (l : List ℚ) (lo s : ℚ) (k : Int) (hs : 0 < s) (hne : l ≠ [])
    (h : ∀ x ∈ l, ⌊(x - lo) / s⌋ = k) : ⌊(l.sum / (l.length : ℚ) - lo) / s⌋ = k := by
  have hn := length_pos_cast l hne
  have hlow : ∀ x ∈ l, lo + (k : ℚ) * s ≤ x := by
    intro x hx
    have h1 := (Int.floor_eq_iff.1 (h x hx)).1
    rw [le_div_iff₀ hs] at h1
    linarith
  have hupp : ∀ x ∈ l, x < lo + ((k : ℚ) + 1) * s := by
    intro x hx
    have h1 := (Int.floor_eq_iff.1 (h x hx)).2
    rw [div_lt_iff₀ hs] at h1
    linarith
  have h1 := sum_ge_of_forall_ge l _ hlow
  have h2 := sum_lt_of_forall_lt l _ hne hupp
  rw [Int.floor_eq_iff]
  constructor
  · rw [le_div_iff₀ hs, le_sub_iff_add_le, le_div_iff₀ hn]
    nlinarith
  · rw [div_lt_iff₀ hs, sub_lt_iff_lt_add, div_lt_iff₀ hn]
    nlinarith

theorem mean_between (l : List ℚ) (lo hi : ℚ) (hne : l ≠ [])
    (h : ∀ x ∈ l, lo ≤ x ∧ x ≤ hi) :
    lo ≤ l.sum / (l.length : ℚ) ∧ l.sum / (l.length : ℚ) ≤ hi := by
  have hn := length_pos_cast l hne
  have h1 := sum_ge_of_forall_ge l lo (fun x hx => (h x hx).1)
  have h2 := sum_le_of_forall_le l hi (fun x hx => (h x hx).2)
  constructor
  · rw [le_div_iff₀ hn]
    linarith
  · rw [div_le_iff₀ hn]
    linarith

theorem mean_x (ps : List Vector3d) :
    (mean FloatOps.exact ps).x =
      (ps.map Vector3d.x).sum / ((ps.map Vector3d.x).length : ℚ) := by
  unfold mean
  rw [vsum_exact]
  simp [Vector3d.sdiv, FloatOps.exact]

theorem mean_y (ps : List Vector3d) :
    (mean FloatOps.exact ps).y =
      (ps.map Vector3d.y).sum / ((ps.map Vector3d.y).length : ℚ) := by
  unfold mean
  rw [vsum_exact]
  simp [Vector3d.sdiv, FloatOps.exact]

theorem mean_z (ps : List Vector3d) :
    (mean FloatOps.exact ps).z =
      (ps.map Vector3d.z).sum / ((ps.map Vector3d.z).length : ℚ) := by
  unfold mean
  rw [vsum_exact]
  simp [Vector3d.sdiv, FloatOps.exact]

/-- The mean of points of one voxel has the index of that voxel. -/
theorem specVoxelIndex_mean (c : PointCloud) (s : ℚ) (hs : 0 < s) (ps : List Vector3d)
    (v : VoxelIndex3) (hne : ps ≠ []) (h : ∀ p ∈ ps, specVoxelIndex c s p = v) :
    specVoxelIndex c s (mean FloatOps.exact ps) = v := by
  have hx : ∀ x ∈ ps.map Vector3d.x, ⌊(x - (c.GetMinBound.x - s / 2)) / s⌋ = v.1 := by
    intro x hx
    obtain ⟨p, hp, rfl⟩ := List.mem_map.1 hx
    exact congrArg Prod.fst (h p hp)
  have hy : ∀ x ∈ ps.map Vector3d.y, ⌊(x - (c.GetMinBound.y - s / 2)) / s⌋ = v.2.1 := by
    intro x hx
    obtain ⟨p, hp, rfl⟩ := List.mem_map.1 hx
    exact congrArg (fun t => t.2.1) (h p hp)
  have hz : ∀ x ∈ ps.map Vector3d.z, ⌊(x - (c.GetMinBound.z - s / 2)) / s⌋ = v.2.2 := by
    intro x hx
    obtain ⟨p, hp, rfl⟩ := List.mem_map.1 hx
    exact congrArg (fun t => t.2.2) (h p hp)
  have hnx : ps.map Vector3d.x ≠ [] := by simpa using hne
  have hny : ps.map Vector3d.y ≠ [] := by simpa using hne
  have hnz : ps.map Vector3d.z ≠ [] := by simpa using hne
  unfold specVoxelIndex
  rw [mean_x, mean_y, mean_z, floor_mean _ _ s _ hs hnx hx, floor_mean _ _ s _ hs hny hy,
    floor_mean _ _ s _ hs hnz hz]

/-- The mean of input points lies between the minimum and the maximum bound. -/
theorem mean_in_bounds (c : PointCloud) (ps : List Vector3d) (hne : ps ≠ [])
    (h : ∀ p ∈ ps, p ∈ c.points_) :
    (c.GetMinBound.x ≤ (mean FloatOps.exact ps).x ∧
      (mean FloatOps.exact ps).x ≤ c.GetMaxBound.x) ∧
    (c.GetMinBound.y ≤ (mean FloatOps.exact ps).y ∧
      (mean FloatOps.exact ps).y ≤ c.GetMaxBound.y) ∧
    (c.GetMinBound.z ≤ (mean FloatOps.exact ps).z ∧
      (mean FloatOps.exact ps).z ≤ c.GetMaxBound.z) := by
  have hnx : ps.map Vector3d.x ≠ [] := by simpa using hne
  have hny : ps.map Vector3d.y ≠ [] := by simpa using hne
  have hnz : ps.map Vector3d.z ≠ [] := by simpa using hne
  rw [mean_x, mean_y, mean_z]
  refine ⟨mean_between _ _ _ hnx ?_, mean_between _ _ _ hny ?_, mean_between _ _ _ hnz ?_⟩
  · intro x hx
    obtain ⟨p, hp, rfl⟩ := List.mem_map.1 hx
    exact ⟨(getMinBound_le c p (h p hp)).1, (le_getMaxBound c p (h p hp)).1⟩
  · intro x hx
    obtain ⟨p, hp, rfl⟩ := List.mem_map.1 hx
    exact ⟨(getMinBound_le c p (h p hp)).2.1, (le_getMaxBound c p (h p hp)).2.1⟩
  · intro x hx
    obtain ⟨p, hp, rfl⟩ := List.mem_map.1 hx
    exact ⟨(getMinBound_le c p (h p hp)).2.2, (le_getMaxBound c p (h p hp)).2.2⟩

theorem entry_eq_of_key_eq {K V : Type} [DecidableEq K] (m : List (K × V))
    (h : (m.map Prod.fst).Nodup) (e1 e2 : K × V) (h1 : e1 ∈ m) (h2 : e2 ∈ m)
    (hk : e1.1 = e2.1) : e1 = e2 := by
  have f1 := mapFind_of_mem m h e1 h1
  have f2 := mapFind_of_mem m h e2 h2
  rw [hk, f2] at f1
  exact Prod.ext hk (Option.some.inj f1).symm

/-- In exact arithmetic, on a cloud that passes the guard and in which no voxel has more than
`INT_MAX` points, the position that an accumulator reports is the mean of the points of its
voxel; it has the index of that voxel, as the mathematical floor and as the code computes
it, and lies between the bounds of the cloud. -/
theorem voxelAccumulate_mean_facts (c : PointCloud) (s : ℚ) (hs : 0 < s)
    (hg : passesExtentGuard FloatOps.exact c s)
    (hfit : ∀ v, ((voxelPoints FloatOps.exact c s v).length : Int) ≤ INT_MAX)
    (e : VoxelIndex3 × AccumulatedPoint) (he : e ∈ voxelAccumulate FloatOps.exact c s) :
    e.2.GetAveragePoint FloatOps.exact = mean FloatOps.exact (voxelPoints FloatOps.exact c s e.1) ∧
    specVoxelIndex c s (e.2.GetAveragePoint FloatOps.exact) = e.1 ∧
    pointIndex FloatOps.exact c s (e.2.GetAveragePoint FloatOps.exact) = e.1 ∧
    ((c.GetMinBound.x ≤ (e.2.GetAveragePoint FloatOps.exact).x ∧
        (e.2.GetAveragePoint FloatOps.exact).x ≤ c.GetMaxBound.x) ∧
     (c.GetMinBound.y ≤ (e.2.GetAveragePoint FloatOps.exact).y ∧
        (e.2.GetAveragePoint FloatOps.exact).y ≤ c.GetMaxBound.y) ∧
     (c.GetMinBound.z ≤ (e.2.GetAveragePoint FloatOps.exact).z ∧
        (e.2.GetAveragePoint FloatOps.exact).z ≤ c.GetMaxBound.z)) := by
  obtain ⟨_, _, _, _, hne⟩ := voxelAccumulate_entry FloatOps.exact c s e he
  have hpos : e.2.GetAveragePoint FloatOps.exact =
      mean FloatOps.exact (voxelPoints FloatOps.exact c s e.1) := by
    rw [voxelAccumulate_position FloatOps.exact c s e he, accAverage_eq_mean _ _ (hfit e.1)]
  have hmem : ∀ p ∈ voxelPoints FloatOps.exact c s e.1, p ∈ c.points_ := by
    intro p hp
    unfold voxelPoints at hp
    exact (List.mem_filter.1 hp).1
  have hidx : ∀ p ∈ voxelPoints FloatOps.exact c s e.1, specVoxelIndex c s p = e.1 := by
    intro p hp
    rw [← pointIndex_eq_spec c s hs hg p (hmem p hp)]
    unfold voxelPoints at hp
    exact of_decide_eq_true (List.mem_filter.1 hp).2
  have h1 : specVoxelIndex c s (e.2.GetAveragePoint FloatOps.exact) = e.1 := by
    rw [hpos]
    exact specVoxelIndex_mean c s hs _ _ hne hidx
  have hb := mean_in_bounds c (voxelPoints FloatOps.exact c s e.1) hne hmem
  rw [← hpos] at hb
  refine ⟨hpos, h1, ?_, hb⟩
  rw [pointIndex_eq_spec_of_bounds c s hs hg _ hb.1 hb.2.1 hb.2.2]
  exact h1

theorem floor_coord_zero (s lo c : ℚ) (hs : 0 < s) (h1 : lo ≤ c) (h2 : c - lo < s / 2) :
    ⌊(c - (lo - s / 2)) / s⌋ = 0 := by
  rw [Int.floor_eq_iff]
  simp only [Int.cast_zero, zero_add]
  constructor
  · exact div_nonneg (by linarith) hs.le
  · rw [div_lt_iff₀ hs]
    linarith

theorem extent_x (c : PointCloud) : (extent c).x = c.GetMaxBound.x - c.GetMinBound.x := rfl

theorem extent_y (c : PointCloud) : (extent c).y = c.GetMaxBound.y - c.GetMinBound.y := rfl

theorem extent_z (c : PointCloud) : (extent c).z = c.GetMaxBound.z - c.GetMinBound.z := rfl

theorem passesExtentGuard_of_small (c : PointCloud) (s : ℚ) (hs : 0 < s)
    (hx : (extent c).x ≤ s) (hy : (extent c).y ≤ s) (hz : (extent c).z ≤ s) :
    passesExtentGuard FloatOps.exact c s := by
  unfold passesExtentGuard
  rw [not_lt, maxCoeff_padded_exact, mul_exact]
  have hI : ((INT_MAX : Int) : ℚ) = 2147483647 := by simp [INT_MAX]
  rw [hI]
  rw [extent_x] at hx
  rw [extent_y] at hy
  rw [extent_z] at hz
  apply max_le
  · apply max_le <;> nlinarith
  · nlinarith

theorem specVoxelIndex_zero_of_small (c : PointCloud) (s : ℚ) (hs : 0 < s)
    (hx : (extent c).x < s / 2) (hy : (extent c).y < s / 2) (hz : (extent c).z < s / 2)
    (p : Vector3d) (hp : p ∈ c.points_) : specVoxelIndex c s p = (0, 0, 0) := by
  obtain ⟨lx, ly, lz⟩ := getMinBound_le c p hp
  obtain ⟨ux, uy, uz⟩ := le_getMaxBound c p hp
  rw [extent_x] at hx
  rw [extent_y] at hy
  rw [extent_z] at hz
  unfold specVoxelIndex
  rw [floor_coord_zero s _ _ hs lx (by linarith), floor_coord_zero s _ _ hs ly (by linarith),
    floor_coord_zero s _ _ hs lz (by linarith)]

theorem dedup_eq_singleton {β : Type} [DecidableEq β] (l : List β) (a : β) (hne : l ≠ [])
    (h : ∀ x ∈ l, x = a) : l.dedup = [a] := by
  apply List.perm_singleton.1
  rw [List.perm_ext_iff_of_nodup (List.nodup_dedup _) (List.nodup_singleton _)]
  intro x
  rw [List.mem_dedup, List.mem_singleton]
  constructor
  · exact h x
  · rintro rfl
    cases l with
    | nil => exact absurd rfl hne
    | cons b t =>
      have := h b (by simp)
      rw [← this]
      simp

theorem voxel_size_pos_of_small (c : PointCloud) (s : ℚ) (hpoints : 0 < c.points_.length)
    (hx : (extent c).x < s / 2) : 0 < s := by
  have h := (getMinBound_mem_bounds c hpoints).1
  rw [extent_x] at hx
  linarith

/-- For every arithmetic: when every point of a cloud of at most `INT_MAX` points gets the
voxel index `v`, a successful call emits one point, the quotient `sum / count` of all the
input points. -/
theorem voxelDownSample_one_index (fp : FloatOps) (normalized : Vector3d → Vector3d)
    (c : PointCloud) (s : ℚ) (out0 : PointCloud) (v : VoxelIndex3)
    (hsize : (c.points_.length : Int) ≤ INT_MAX)
    (hsucc : (VoxelDownSample fp normalized c s out0).1 = true)
    (hidx : ∀ p ∈ c.points_, pointIndex fp c s p = v) :
    (VoxelDownSample fp normalized c s out0).2.points_ = [mean fp c.points_] := by
  have hpoints := ((voxelDownSample_true_iff fp normalized c s out0).1 hsucc).1
  have hperm := (voxelDownSample_zip_colors_perm fp normalized c s out0 hsucc).1
  have hne : c.points_.map (pointIndex fp c s) ≠ [] := by
    intro h
    rw [List.map_eq_nil_iff] at h
    rw [h] at hpoints
    exact absurd hpoints (by simp)
  have hocc : occupied fp c s = [v] := by
    unfold occupied
    apply dedup_eq_singleton _ _ hne
    intro w hw
    obtain ⟨p, hp, rfl⟩ := List.mem_map.1 hw
    exact hidx p hp
  have hpts : voxelPoints fp c s v = c.points_ := by
    unfold voxelPoints
    rw [List.filter_eq_self]
    intro p hp
    exact decide_eq_true (hidx p hp)
  rw [hocc] at hperm
  simp only [List.map_cons, List.map_nil, hpts] at hperm
  rw [accAverage_eq_mean _ _ hsize] at hperm
  exact List.perm_singleton.1 hperm

/-- In exact arithmetic a cloud of at most `INT_MAX` points whose extent is below half a
voxel on every axis is down-sampled to its mean. -/
theorem voxelDownSample_single_voxel (normalized : Vector3d → Vector3d) (c : PointCloud)
    (s : ℚ) (out0 : PointCloud) (hpoints : 0 < c.points_.length)
    (hsize : (c.points_.length : Int) ≤ INT_MAX) (hs : 0 < s)
    (hx : (extent c).x < s / 2) (hy : (extent c).y < s / 2) (hz : (extent c).z < s / 2) :
    (VoxelDownSample FloatOps.exact normalized c s out0).1 = true ∧
    (VoxelDownSample FloatOps.exact normalized c s out0).2.points_ =
      [mean FloatOps.exact c.points_] ∧
    ∀ p ∈ c.points_, pointIndex FloatOps.exact c s p = (0, 0, 0) := by
  have hg : passesExtentGuard FloatOps.exact c s :=
    passesExtentGuard_of_small c s hs (by linarith) (by linarith) (by linarith)
  have hidx : ∀ p ∈ c.points_, pointIndex FloatOps.exact c s p = (0, 0, 0) := by
    intro p hp
    rw [pointIndex_eq_spec c s hs hg p hp]
    exact specVoxelIndex_zero_of_small c s hs hx hy hz p hp
  have hsucc := (voxelDownSample_true_iff FloatOps.exact normalized c s out0).2
    ⟨hpoints, hs, hg⟩
  exact ⟨hsucc,
    voxelDownSample_one_index FloatOps.exact normalized c s out0 (0, 0, 0) hsize hsucc hidx,
    hidx⟩

/-- In exact arithmetic two opposite corners of a cube of side `s` fall into two voxels. -/
theorem voxelDownSample_two_corners (normalized : Vector3d → Vector3d) (s : ℚ)
    (out0 : PointCloud) (hs : 0 < s) :
    extent ⟨[⟨0, 0, 0⟩, ⟨s, s, s⟩], [], []⟩ = ⟨s, s, s⟩ ∧
    (VoxelDownSample FloatOps.exact normalized ⟨[⟨0, 0, 0⟩, ⟨s, s, s⟩], [], []⟩ s out0).1 =
      true ∧
    (VoxelDownSample FloatOps.exact normalized ⟨[⟨0, 0, 0⟩, ⟨s, s, s⟩], [], []⟩ s
      out0).2.points_.length = 2 := by
  have hmin : (PointCloud.mk [⟨0, 0, 0⟩, ⟨s, s, s⟩] [] []).GetMinBound = ⟨0, 0, 0⟩ := by
    simp only [PointCloud.GetMinBound, List.foldl_cons, List.foldl_nil, PointCloud.vmin,
      min_eq_left hs.le]
  have hmax : (PointCloud.mk [⟨0, 0, 0⟩, ⟨s, s, s⟩] [] []).GetMaxBound = ⟨s, s, s⟩ := by
    simp only [PointCloud.GetMaxBound, List.foldl_cons, List.foldl_nil, PointCloud.vmax,
      max_eq_right hs.le]
  have hext : extent ⟨[⟨0, 0, 0⟩, ⟨s, s, s⟩], [], []⟩ = ⟨s, s, s⟩ := by
    unfold extent
    rw [hmin, hmax]
    show Vector3d.mk (s - 0) (s - 0) (s - 0) = ⟨s, s, s⟩
    simp
  have hg : passesExtentGuard FloatOps.exact ⟨[⟨0, 0, 0⟩, ⟨s, s, s⟩], [], []⟩ s := by
    apply passesExtentGuard_of_small _ _ hs <;> rw [hext]
  have hpoints : 0 < (PointCloud.mk [⟨0, 0, 0⟩, ⟨s, s, s⟩] [] []).points_.length := by
    simp
  have hf0 : ⌊((0 : ℚ) - (0 - s / 2)) / s⌋ = 0 := by
    have e : ((0 : ℚ) - (0 - s / 2)) / s = 1 / 2 := by
      field_simp
      ring
    rw [e]
    norm_num
  have hf1 : ⌊(s - (0 - s / 2)) / s⌋ = 1 := by
    have e : (s - (0 - s / 2)) / s = 3 / 2 := by
      field_simp
      ring
    rw [e]
    norm_num
  have hi0 : pointIndex FloatOps.exact ⟨[⟨0, 0, 0⟩, ⟨s, s, s⟩], [], []⟩ s ⟨0, 0, 0⟩ =
      (0, 0, 0) := by
    rw [pointIndex_eq_spec _ s hs hg _ (by simp)]
    simp only [specVoxelIndex, hmin, hf0]
  have hi1 : pointIndex FloatOps.exact ⟨[⟨0, 0, 0⟩, ⟨s, s, s⟩], [], []⟩ s ⟨s, s, s⟩ =
      (1, 1, 1) := by
    rw [pointIndex_eq_spec _ s hs hg _ (by simp)]
    simp only [specVoxelIndex, hmin, hf1]
  have hocc : occupied FloatOps.exact ⟨[⟨0, 0, 0⟩, ⟨s, s, s⟩], [], []⟩ s =
      [(0, 0, 0), (1, 1, 1)] := by
    simp only [occupied, List.map_cons, List.map_nil, hi0, hi1]
    decide
  have hsucc := (voxelDownSample_true_iff FloatOps.exact normalized _ s out0).2
    ⟨hpoints, hs, hg⟩
  refine ⟨hext, hsucc, ?_⟩
  have hperm := (voxelDownSample_zip_colors_perm FloatOps.exact normalized _ s out0
    hsucc).1.length_eq
  rw [hocc] at hperm
  exact hperm

/-! ## Claims on `VoxelDownSample` that hold for every arithmetic -/

/-- Claim C1, as stated, fails: the count of an accumulator is a 32-bit `int`.  For a cloud
of `2^31` copies of the point `(1,0,0)` and `voxel_size = 1` the call, in binary64
arithmetic, succeeds with one output point, `(-1,0,0)`: the sum `(2^31,0,0)` divided by the
wrapped count `-2^31`, not the arithmetic mean `(1,0,0)` of the input points. -/
theorem positions_huge_voxel_counterexample :
    (0 < (PointCloud.mk (List.replicate 2147483648 ⟨1, 0, 0⟩) [] []).points_.length ∧
      (0 : ℚ) < 1 ∧
      passesExtentGuard FloatOps.binary64 ⟨List.replicate 2147483648 ⟨1, 0, 0⟩, [], []⟩ 1) ∧
    VoxelDownSample FloatOps.binary64 id ⟨List.replicate 2147483648 ⟨1, 0, 0⟩, [], []⟩ 1
      ⟨[], [], []⟩ = (true, ⟨[⟨-1, 0, 0⟩], [], []⟩) ∧
    mean FloatOps.exact (PointCloud.mk (List.replicate 2147483648 ⟨1, 0, 0⟩) [] []).points_ =
      ⟨1, 0, 0⟩ := by
  have hlen : (PointCloud.mk (List.replicate 2147483648 ⟨1, 0, 0⟩) [] []).points_.length =
      2147483648 := List.length_replicate _ _
  have hN : 0 < 2147483648 := by decide
  have hg := passesExtentGuard_of_replicate_point FloatOps.binary64
    ⟨List.replicate 2147483648 ⟨1, 0, 0⟩, [], []⟩ 1 2147483648 ⟨1, 0, 0⟩ hN rfl (by decide!)
  have hwrap : toInt ((2147483648 : Nat) : Int) = -2147483648 := by decide
  have hquot : (Vector3d.mk ((2147483648 : Nat) : ℚ) 0 0).sdiv FloatOps.binary64
      (((-2147483648 : Int)) : ℚ) = ⟨-1, 0, 0⟩ := by decide!
  refine ⟨⟨?_, by norm_num, hg⟩, ?_, ?_⟩
  · rw [hlen]
    exact hN
  · rw [voxelDownSample_of_replicate_points FloatOps.binary64 id 2147483648 ⟨1, 0, 0⟩ 1
      ⟨[], [], []⟩ hN (by norm_num) hg, vsum_binary64_replicate 2147483648 (by decide),
      hwrap, hquot]
  · unfold mean
    rw [hlen]
    show (vsum FloatOps.exact (List.replicate 2147483648 ⟨1, 0, 0⟩)).sdiv FloatOps.exact
      ((2147483648 : Nat) : ℚ) = ⟨1, 0, 0⟩
    rw [vsum_exact_replicate]
    simp only [Vector3d.sdiv, FloatOps.exact]
    norm_num

/-- Claim C1, amended: for a cloud with at least one point, in which no voxel has more than
`INT_MAX` points, and a positive `voxel_size` that passes the extent guard,
`VoxelDownSample` returns true and emits one point per occupied voxel index, the index of a
point being `int(floor((p - min_bound) / voxel_size))` per coordinate with
`min_bound = GetMinBound(input) - voxel_size * 0.5`; the emitted positions are, up to order,
the quotients `sum / count` of the input points grouped by voxel index.  This holds for
every arithmetic on `double` (`fp`), the sums being added up in input order. -/
theorem voxelDownSample_positions (fp : FloatOps) (normalized : Vector3d → Vector3d)
    (input_cloud : PointCloud) (voxel_size : ℚ) (output_cloud : PointCloud)
    (hpoints : 0 < input_cloud.points_.length) (hsize : 0 < voxel_size)
    (hguard : passesExtentGuard fp input_cloud voxel_size)
    (hfit : ∀ v, ((voxelPoints fp input_cloud voxel_size v).length : Int) ≤ INT_MAX) :
    (VoxelDownSample fp normalized input_cloud voxel_size output_cloud).1 = true ∧
    (VoxelDownSample fp normalized input_cloud voxel_size output_cloud).2.points_.length =
      (occupied fp input_cloud voxel_size).length ∧
    (VoxelDownSample fp normalized input_cloud voxel_size output_cloud).2.points_.Perm
      ((occupied fp input_cloud voxel_size).map
        (fun v => mean fp (voxelPoints fp input_cloud voxel_size v))) := by
  have hsucc := (voxelDownSample_true_iff fp normalized input_cloud voxel_size
    output_cloud).2 ⟨hpoints, hsize, hguard⟩
  have hperm := (voxelDownSample_zip_colors_perm fp normalized input_cloud voxel_size
    output_cloud hsucc).1
  have hmean : (fun v => accAverage fp (voxelPoints fp input_cloud voxel_size v)) =
      (fun v => mean fp (voxelPoints fp input_cloud voxel_size v)) :=
    funext (fun v => accAverage_eq_mean fp _ (hfit v))
  rw [hmean] at hperm
  refine ⟨hsucc, ?_, hperm⟩
  have := hperm.length_eq
  rw [List.length_map] at this
  exact this

/-- Claim C2: for every arithmetic on `double`, `VoxelDownSample` returns false exactly when
the input has no points, or `voxel_size <= 0`, or `voxel_size * MAX_INT32` is less than the
largest per-axis component of `max_bound - min_bound` with
`min_bound = GetMinBound(input) - voxel_size * 0.5` and
`max_bound = GetMaxBound(input) + voxel_size * 0.5`; with `voxel_size = 0` it returns false
and an empty output. -/
theorem voxelDownSample_false_iff (fp : FloatOps) (normalized : Vector3d → Vector3d)
    (input_cloud : PointCloud) (voxel_size : ℚ) (output_cloud : PointCloud) :
    ((VoxelDownSample fp normalized input_cloud voxel_size output_cloud).1 = false ↔
      (input_cloud.points_.length = 0 ∨ voxel_size ≤ 0 ∨
        fp.mul voxel_size 2147483647 <
          max (max
            (fp.sub (fp.add input_cloud.GetMaxBound.x (fp.mul voxel_size (1 / 2)))
              (fp.sub input_cloud.GetMinBound.x (fp.mul voxel_size (1 / 2))))
            (fp.sub (fp.add input_cloud.GetMaxBound.y (fp.mul voxel_size (1 / 2)))
              (fp.sub input_cloud.GetMinBound.y (fp.mul voxel_size (1 / 2)))))
            (fp.sub (fp.add input_cloud.GetMaxBound.z (fp.mul voxel_size (1 / 2)))
              (fp.sub input_cloud.GetMinBound.z (fp.mul voxel_size (1 / 2)))))) ∧
    VoxelDownSample fp normalized input_cloud 0 output_cloud = (false, ⟨[], [], []⟩) := by
  have e : ((voxelMaxBound fp input_cloud voxel_size).sub fp
        (voxelMinBound fp input_cloud voxel_size)).maxCoeff =
      max (max
        (fp.sub (fp.add input_cloud.GetMaxBound.x (fp.mul voxel_size (1 / 2)))
          (fp.sub input_cloud.GetMinBound.x (fp.mul voxel_size (1 / 2))))
        (fp.sub (fp.add input_cloud.GetMaxBound.y (fp.mul voxel_size (1 / 2)))
          (fp.sub input_cloud.GetMinBound.y (fp.mul voxel_size (1 / 2)))))
        (fp.sub (fp.add input_cloud.GetMaxBound.z (fp.mul voxel_size (1 / 2)))
          (fp.sub input_cloud.GetMinBound.z (fp.mul voxel_size (1 / 2)))) := rfl
  have e3 : ((INT_MAX : Int) : ℚ) = 2147483647 := by simp [INT_MAX]
  constructor
  · rw [← e, ← e3, ← Bool.not_eq_true, voxelDownSample_true_iff]
    unfold passesExtentGuard
    constructor
    · intro h
      by_cases h1 : input_cloud.points_.length = 0
      · exact Or.inl h1
      · by_cases h2 : voxel_size ≤ 0
        · exact Or.inr (Or.inl h2)
        · refine Or.inr (Or.inr ?_)
          by_contra h3
          exact h ⟨Nat.pos_of_ne_zero h1, not_le.1 h2, h3⟩
    · rintro (h1 | h2 | h3) ⟨g1, g2, g3⟩
      · omega
      · exact absurd g2 (not_lt.2 h2)
      · exact g3 h3
  · unfold VoxelDownSample
    by_cases h1 : input_cloud.HasPoints = false
    · simp [h1, PointCloud.Clear]
    · simp [h1, PointCloud.Clear]

/-- The extent guard is evaluated in rounded arithmetic: for the points `(0,0,0)` and
`(644245093.8000001,0,0)` with `voxel_size = 0.3` (the nearest `double`s) the guard is passed
in binary64 arithmetic and the call returns true, where exact arithmetic on the same values
finds the padded extent larger than `voxel_size * INT_MAX` and returns false. -/
theorem voxelDownSample_guard_rounded_example :
    (VoxelDownSample FloatOps.binary64 id
      ⟨[⟨0, 0, 0⟩, ⟨5404319547811431 / 8388608, 0, 0⟩], [], []⟩
      (5404319552844595 / 18014398509481984) ⟨[], [], []⟩).1 = true ∧
    (VoxelDownSample FloatOps.exact id
      ⟨[⟨0, 0, 0⟩, ⟨5404319547811431 / 8388608, 0, 0⟩], [], []⟩
      (5404319552844595 / 18014398509481984) ⟨[], [], []⟩).1 = false := by
  decide!

/-- Claim C4, as stated, fails: `num_of_points` is a 32-bit `int`.  For a cloud of `2^31`
copies of the point `(0,0,0)` and `voxel_size = 1` the call succeeds, the single accumulator
has taken all the points, and its count has wrapped to `-2^31`: the counts do not sum to the
number of input points (no value of an `int` is `2^31`). -/
theorem conservation_huge_voxel_counterexample :
    (VoxelDownSample FloatOps.binary64 id ⟨List.replicate 2147483648 ⟨0, 0, 0⟩, [], []⟩ 1
      ⟨[], [], []⟩).1 = true ∧
    (PointCloud.mk (List.replicate 2147483648 ⟨0, 0, 0⟩) [] []).points_.length =
      2147483648 ∧
    ((voxelAccumulate FloatOps.binary64 ⟨List.replicate 2147483648 ⟨0, 0, 0⟩, [], []⟩ 1).map
      (fun e => e.2.num_of_points)).sum = -2147483648 ∧
    ((voxelAccumulate FloatOps.binary64 ⟨List.replicate 2147483648 ⟨0, 0, 0⟩, [], []⟩ 1).map
      (fun e => e.2.num_of_points)).sum ≠
      ((PointCloud.mk (List.replicate 2147483648 ⟨0, 0, 0⟩) [] []).points_.length : Int) := by
  have hlen : (PointCloud.mk (List.replicate 2147483648 ⟨0, 0, 0⟩) [] []).points_.length =
      2147483648 := List.length_replicate _ _
  have hN : 0 < 2147483648 := by decide
  have hacc := (voxelAccumulate_of_replicate_fields FloatOps.binary64
    ⟨List.replicate 2147483648 ⟨0, 0, 0⟩, [], []⟩ 1 2147483648 ⟨0, 0, 0⟩ hN rfl).1
  have hwrap : toInt ((2147483648 : Nat) : Int) = -2147483648 := by decide
  have hsum : ((voxelAccumulate FloatOps.binary64
      ⟨List.replicate 2147483648 ⟨0, 0, 0⟩, [], []⟩ 1).map
      (fun e => e.2.num_of_points)).sum = -2147483648 := by
    rw [hacc, hwrap]
    rfl
  refine ⟨?_, hlen, hsum, ?_⟩
  · rw [voxelDownSample_true_iff]
    refine ⟨?_, by norm_num, ?_⟩
    · rw [hlen]
      exact hN
    · exact passesExtentGuard_of_replicate_point FloatOps.binary64 _ 1 2147483648 ⟨0, 0, 0⟩
        hN rfl (by decide!)
  · rw [hsum, hlen]
    decide

/-- Claim C4 (conservation), amended: for every arithmetic on `double` and every successful
`VoxelDownSample` call in which no voxel has more than `INT_MAX` points, the output has one
point per accumulator of the voxel map, the counts `num_of_points` of the accumulators sum
to the number of input points, and every input point has exactly one accumulator, the one
stored under its voxel index, whose count is the number of input points with that index. -/
theorem voxelDownSample_conservation (fp : FloatOps) (normalized : Vector3d → Vector3d)
    (input_cloud : PointCloud) (voxel_size : ℚ) (output_cloud : PointCloud)
    (hfit : ∀ v, ((voxelPoints fp input_cloud voxel_size v).length : Int) ≤ INT_MAX)
    (hsuccess : (VoxelDownSample fp normalized input_cloud voxel_size output_cloud).1 =
      true) :
    (VoxelDownSample fp normalized input_cloud voxel_size output_cloud).2.points_ =
      (voxelAccumulate fp input_cloud voxel_size).map (fun e => e.2.GetAveragePoint fp) ∧
    ((voxelAccumulate fp input_cloud voxel_size).map (fun e => e.2.num_of_points)).sum =
      input_cloud.points_.length ∧
    ((voxelAccumulate fp input_cloud voxel_size).map Prod.fst).Nodup ∧
    (∀ i, i < input_cloud.points_.length →
      pointIndex fp input_cloud voxel_size (input_cloud.points_.getD i default) ∈
        (voxelAccumulate fp input_cloud voxel_size).map Prod.fst) ∧
    ∀ e ∈ voxelAccumulate fp input_cloud voxel_size,
      e.2.num_of_points = ((voxelMembers fp input_cloud voxel_size e.1).length : Int) := by
  rw [voxelDownSample_output fp normalized input_cloud voxel_size output_cloud hsuccess]
  refine ⟨rfl, voxelAccumulate_sum_count fp _ _ hfit,
    nodup_keys_voxelAccumulate fp _ _, ?_, ?_⟩
  · intro i hi
    rw [voxelAccumulate_eq_groupFold, mem_keys_groupFold]
    exact List.mem_map_of_mem _ (List.mem_range.2 hi)
  · intro e he
    rw [voxelAccumulate_count fp _ _ hfit e he, length_voxelMembers]

/-- Claim C14, as stated, fails: the count of an accumulator is a 32-bit `int`.  For a cloud
of `2^31` copies of the point `(1,0,0)`, each with the color `(1,0,0)`, and `voxel_size = 1`
the call, in binary64 arithmetic, succeeds with the single color `(-1,0,0)`: the color sum
`(2^31,0,0)` divided by the wrapped count `-2^31`, not the arithmetic mean `(1,0,0)` of the
colors. -/
theorem colors_huge_voxel_counterexample :
    (PointCloud.mk (List.replicate 2147483648 ⟨1, 0, 0⟩) []
      (List.replicate 2147483648 ⟨1, 0, 0⟩)).HasColors = true ∧
    VoxelDownSample FloatOps.binary64 id
      ⟨List.replicate 2147483648 ⟨1, 0, 0⟩, [], List.replicate 2147483648 ⟨1, 0, 0⟩⟩ 1
      ⟨[], [], []⟩ = (true, ⟨[⟨-1, 0, 0⟩], [], [⟨-1, 0, 0⟩]⟩) ∧
    mean FloatOps.exact (PointCloud.mk (List.replicate 2147483648 ⟨1, 0, 0⟩) []
      (List.replicate 2147483648 ⟨1, 0, 0⟩)).colors_ = ⟨1, 0, 0⟩ := by
  have hN : 0 < 2147483648 := by decide
  have hg := passesExtentGuard_of_replicate_point FloatOps.binary64
    ⟨List.replicate 2147483648 ⟨1, 0, 0⟩, [], List.replicate 2147483648 ⟨1, 0, 0⟩⟩ 1
    2147483648 ⟨1, 0, 0⟩ hN rfl (by decide!)
  have hwrap : toInt ((2147483648 : Nat) : Int) = -2147483648 := by decide
  have hquot : (Vector3d.mk ((2147483648 : Nat) : ℚ) 0 0).sdiv FloatOps.binary64
      (((-2147483648 : Int)) : ℚ) = ⟨-1, 0, 0⟩ := by decide!
  have hclen : (PointCloud.mk (List.replicate 2147483648 ⟨1, 0, 0⟩) []
      (List.replicate 2147483648 ⟨1, 0, 0⟩)).colors_.length = 2147483648 :=
    List.length_replicate _ _
  refine ⟨?_, ?_, ?_⟩
  · simp only [PointCloud.HasColors, List.length_replicate]
    decide
  · rw [voxelDownSample_of_replicate FloatOps.binary64 id 2147483648 ⟨1, 0, 0⟩ ⟨1, 0, 0⟩ 1
      ⟨[], [], []⟩ hN (by norm_num) hg, vsum_binary64_replicate 2147483648 (by decide),
      hwrap, hquot]
  · unfold mean
    rw [hclen]
    show (vsum FloatOps.exact (List.replicate 2147483648 ⟨1, 0, 0⟩)).sdiv FloatOps.exact
      ((2147483648 : Nat) : ℚ) = ⟨1, 0, 0⟩
    rw [vsum_exact_replicate]
    simp only [Vector3d.sdiv, FloatOps.exact]
    norm_num

/-- Claim C14, amended: for every arithmetic on `double` and every successful
`VoxelDownSample` call on an input that has colors and in which no voxel has more than
`INT_MAX` points, the color emitted for each occupied voxel is the quotient
`color_sum / count` of the colors of exactly the input points assigned to that voxel, at the
same output index as the quotient `sum / count` of their positions. -/
theorem voxelDownSample_colors (fp : FloatOps) (normalized : Vector3d → Vector3d)
    (input_cloud : PointCloud) (voxel_size : ℚ) (output_cloud : PointCloud)
    (hsuccess : (VoxelDownSample fp normalized input_cloud voxel_size output_cloud).1 =
      true)
    (hcolors : input_cloud.HasColors = true)
    (hfit : ∀ v, ((voxelPoints fp input_cloud voxel_size v).length : Int) ≤ INT_MAX) :
    (VoxelDownSample fp normalized input_cloud voxel_size output_cloud).2.colors_.length =
      (VoxelDownSample fp normalized input_cloud voxel_size output_cloud).2.points_.length ∧
    (List.zip (VoxelDownSample fp normalized input_cloud voxel_size output_cloud).2.points_
      (VoxelDownSample fp normalized input_cloud voxel_size output_cloud).2.colors_).Perm
      ((occupied fp input_cloud voxel_size).map
        (fun v => (mean fp (voxelPoints fp input_cloud voxel_size v),
          mean fp (voxelColors fp input_cloud voxel_size v)))) := by
  have hperm := (voxelDownSample_zip_colors_perm fp normalized input_cloud voxel_size
    output_cloud hsuccess).2.1 hcolors
  have hmean : (fun v => (accAverage fp (voxelPoints fp input_cloud voxel_size v),
        accAverage fp (voxelColors fp input_cloud voxel_size v))) =
      (fun v => (mean fp (voxelPoints fp input_cloud voxel_size v),
        mean fp (voxelColors fp input_cloud voxel_size v))) := by
    funext v
    rw [accAverage_eq_mean fp _ (hfit v),
      accAverage_eq_mean fp (voxelColors fp input_cloud voxel_size v)
        (by rw [length_voxelColors]; exact hfit v)]
  rw [hmean] at hperm
  refine ⟨?_, hperm⟩
  rw [voxelDownSample_output fp normalized input_cloud voxel_size output_cloud hsuccess]
  simp [hcolors]
/-- Claim C1, amended, at the binary64 arithmetic of the program: the points with
`x = 0, 0.25, 0.3` (the `double` nearest to `0.3`) and `voxel_size = 0.2` (the `double`
nearest to `0.2`) have three distinct voxel indices, the quotient for `0.3` rounding to
`2.0`, and the call emits three points. -/
theorem voxelDownSample_positions_witness :
    (0 < (PointCloud.mk [⟨0, 0, 0⟩, ⟨1 / 4, 0, 0⟩,
        ⟨5404319552844595 / 18014398509481984, 0, 0⟩] [] []).points_.length ∧
      (0 : ℚ) < 3602879701896397 / 18014398509481984 ∧
      passesExtentGuard FloatOps.binary64
        ⟨[⟨0, 0, 0⟩, ⟨1 / 4, 0, 0⟩, ⟨5404319552844595 / 18014398509481984, 0, 0⟩], [], []⟩
        (3602879701896397 / 18014398509481984)) ∧
    occupied FloatOps.binary64
      ⟨[⟨0, 0, 0⟩, ⟨1 / 4, 0, 0⟩, ⟨5404319552844595 / 18014398509481984, 0, 0⟩], [], []⟩
      (3602879701896397 / 18014398509481984) = [(0, 0, 0), (1, 0, 0), (2, 0, 0)] ∧
    (VoxelDownSample FloatOps.binary64 id
      ⟨[⟨0, 0, 0⟩, ⟨1 / 4, 0, 0⟩, ⟨5404319552844595 / 18014398509481984, 0, 0⟩], [], []⟩
      (3602879701896397 / 18014398509481984) ⟨[], [], []⟩).2.points_.length =
      (occupied FloatOps.binary64
        ⟨[⟨0, 0, 0⟩, ⟨1 / 4, 0, 0⟩, ⟨5404319552844595 / 18014398509481984, 0, 0⟩], [], []⟩
        (3602879701896397 / 18014398509481984)).length :=
  ⟨⟨by decide, by norm_num, by decide!⟩, by decide!,
    (voxelDownSample_positions FloatOps.binary64 id
      ⟨[⟨0, 0, 0⟩, ⟨1 / 4, 0, 0⟩, ⟨5404319552844595 / 18014398509481984, 0, 0⟩], [], []⟩
      (3602879701896397 / 18014398509481984) ⟨[], [], []⟩ (by decide) (by norm_num)
      (by decide!) (voxelPoints_fit_of_size _ _ _ (by decide))).2.1⟩

/-- Claim C4, amended, at the binary64 arithmetic of the program: for the points with
`x = 0, 0.25, 0.3` and `voxel_size = 0.2` the call succeeds and the counts of the
accumulators sum to `3`. -/
theorem voxelDownSample_conservation_witness :
    ((∀ v, ((voxelPoints FloatOps.binary64
        ⟨[⟨0, 0, 0⟩, ⟨1 / 4, 0, 0⟩, ⟨5404319552844595 / 18014398509481984, 0, 0⟩], [], []⟩
        (3602879701896397 / 18014398509481984) v).length : Int) ≤ INT_MAX) ∧
      (VoxelDownSample FloatOps.binary64 id
        ⟨[⟨0, 0, 0⟩, ⟨1 / 4, 0, 0⟩, ⟨5404319552844595 / 18014398509481984, 0, 0⟩], [], []⟩
        (3602879701896397 / 18014398509481984) ⟨[], [], []⟩).1 = true) ∧
    ((voxelAccumulate FloatOps.binary64
      ⟨[⟨0, 0, 0⟩, ⟨1 / 4, 0, 0⟩, ⟨5404319552844595 / 18014398509481984, 0, 0⟩], [], []⟩
      (3602879701896397 / 18014398509481984)).map (fun e => e.2.num_of_points)).sum =
      (PointCloud.mk [⟨0, 0, 0⟩, ⟨1 / 4, 0, 0⟩,
        ⟨5404319552844595 / 18014398509481984, 0, 0⟩] [] []).points_.length :=
  ⟨⟨voxelPoints_fit_of_size _ _ _ (by decide), by decide!⟩,
    (voxelDownSample_conservation FloatOps.binary64 id
      ⟨[⟨0, 0, 0⟩, ⟨1 / 4, 0, 0⟩, ⟨5404319552844595 / 18014398509481984, 0, 0⟩], [], []⟩
      (3602879701896397 / 18014398509481984) ⟨[], [], []⟩
      (voxelPoints_fit_of_size _ _ _ (by decide)) (by decide!)).2.1⟩

/-- Claim C14, amended, at the binary64 arithmetic of the program: for the points with
`x = 0, 0.25, 0.3`, colored `(1,0,0)`, `(0,1,0)`, `(0,0,1)`, and `voxel_size = 0.2` the call
succeeds and emits as many colors as points. -/
theorem voxelDownSample_colors_witness :
    ((VoxelDownSample FloatOps.binary64 id
        ⟨[⟨0, 0, 0⟩, ⟨1 / 4, 0, 0⟩, ⟨5404319552844595 / 18014398509481984, 0, 0⟩], [],
          [⟨1, 0, 0⟩, ⟨0, 1, 0⟩, ⟨0, 0, 1⟩]⟩
        (3602879701896397 / 18014398509481984) ⟨[], [], []⟩).1 = true ∧
      (PointCloud.mk [⟨0, 0, 0⟩, ⟨1 / 4, 0, 0⟩,
        ⟨5404319552844595 / 18014398509481984, 0, 0⟩] []
        [⟨1, 0, 0⟩, ⟨0, 1, 0⟩, ⟨0, 0, 1⟩]).HasColors = true ∧
      ∀ v, ((voxelPoints FloatOps.binary64
        ⟨[⟨0, 0, 0⟩, ⟨1 / 4, 0, 0⟩, ⟨5404319552844595 / 18014398509481984, 0, 0⟩], [],
          [⟨1, 0, 0⟩, ⟨0, 1, 0⟩, ⟨0, 0, 1⟩]⟩
        (3602879701896397 / 18014398509481984) v).length : Int) ≤ INT_MAX) ∧
    (VoxelDownSample FloatOps.binary64 id
      ⟨[⟨0, 0, 0⟩, ⟨1 / 4, 0, 0⟩, ⟨5404319552844595 / 18014398509481984, 0, 0⟩], [],
        [⟨1, 0, 0⟩, ⟨0, 1, 0⟩, ⟨0, 0, 1⟩]⟩
      (3602879701896397 / 18014398509481984) ⟨[], [], []⟩).2.colors_.length =
      (VoxelDownSample FloatOps.binary64 id
        ⟨[⟨0, 0, 0⟩, ⟨1 / 4, 0, 0⟩, ⟨5404319552844595 / 18014398509481984, 0, 0⟩], [],
          [⟨1, 0, 0⟩, ⟨0, 1, 0⟩, ⟨0, 0, 1⟩]⟩
        (3602879701896397 / 18014398509481984) ⟨[], [], []⟩).2.points_.length :=
  ⟨⟨by decide!, by decide, voxelPoints_fit_of_size _ _ _ (by decide)⟩,
    (voxelDownSample_colors FloatOps.binary64 id
      ⟨[⟨0, 0, 0⟩, ⟨1 / 4, 0, 0⟩, ⟨5404319552844595 / 18014398509481984, 0, 0⟩], [],
        [⟨1, 0, 0⟩, ⟨0, 1, 0⟩, ⟨0, 0, 1⟩]⟩
      (3602879701896397 / 18014398509481984) ⟨[], [], []⟩ (by decide!) (by decide)
      (voxelPoints_fit_of_size _ _ _ (by decide))).1⟩

/-! ## Claims on `UniformDownSample` and `ClipPointCloud` -/

/-- Claim C6 (the stride law), evaluated where the code breaks it: for a cloud of `2^31`
points and `every_k_points = 1` the size converted by `static_cast<int>` is `-2^31`, the loop
`for (int i = 0; i < n; ..)` is not entered, and `UniformDownSample` returns true with an
empty output, although `ceil(n / k) = 2^31`. -/
theorem uniformDownSample_huge_cloud_empty :
    (0 < (PointCloud.mk (List.replicate 2147483648 ⟨0, 0, 0⟩) [] []).points_.length ∧
      (0 : Int) < 1) ∧
    toInt (((PointCloud.mk (List.replicate 2147483648 ⟨0, 0, 0⟩) [] []).points_.length :
      Nat) : Int) = -2147483648 ∧
    UniformDownSample ⟨List.replicate 2147483648 ⟨0, 0, 0⟩, [], []⟩ 1 ⟨[], [], []⟩ =
      (true, ⟨[], [], []⟩) ∧
    ⌈(((PointCloud.mk (List.replicate 2147483648 ⟨0, 0, 0⟩) [] []).points_.length : ℚ)) /
      (((1 : Int)) : ℚ)⌉ = 2147483648 := by
  have hlen : (PointCloud.mk (List.replicate 2147483648 ⟨0, 0, 0⟩) [] []).points_.length =
      2147483648 := List.length_replicate _ _
  refine ⟨⟨?_, by decide⟩, ?_, uniformDownSample_wrap _ 1 _ (by decide) hlen, ?_⟩
  · rw [hlen]
    decide
  · rw [hlen]
    unfold toInt
    norm_num
  · rw [hlen]
    norm_num

/-- Claim C7 (clip subset law): for a non-empty cloud and a box with
`min_bound <= max_bound` on the three axes, the output points of `ClipPointCloud` are the
input points at the indices whose point lies in the closed box, each such index once and in
increasing order: they are exactly the input points satisfying the inclusive predicate, in
input order; the normals and colors, when present, are taken at the same indices. -/
theorem clipPointCloud_subset (input_cloud : PointCloud) (min_bound max_bound : Vector3d)
    (output_cloud : PointCloud) (hpoints : 0 < input_cloud.points_.length)
    (hbox : min_bound.x ≤ max_bound.x ∧ min_bound.y ≤ max_bound.y ∧
      min_bound.z ≤ max_bound.z) :
    (ClipPointCloud input_cloud min_bound max_bound output_cloud).1 = true ∧
    (clipSelected input_cloud min_bound max_bound).Pairwise (fun i j => i < j) ∧
    (∀ i, i ∈ clipSelected input_cloud min_bound max_bound ↔
      i < input_cloud.points_.length ∧
        (min_bound.x ≤ (input_cloud.points_.getD i default).x ∧
          (input_cloud.points_.getD i default).x ≤ max_bound.x) ∧
        (min_bound.y ≤ (input_cloud.points_.getD i default).y ∧
          (input_cloud.points_.getD i default).y ≤ max_bound.y) ∧
        (min_bound.z ≤ (input_cloud.points_.getD i default).z ∧
          (input_cloud.points_.getD i default).z ≤ max_bound.z)) ∧
    (ClipPointCloud input_cloud min_bound max_bound output_cloud).2.points_ =
      (clipSelected input_cloud min_bound max_bound).map
        (fun i => input_cloud.points_.getD i default) ∧
    (ClipPointCloud input_cloud min_bound max_bound output_cloud).2.points_ =
      input_cloud.points_.filter (inBox min_bound max_bound) ∧
    (∀ p ∈ (ClipPointCloud input_cloud min_bound max_bound output_cloud).2.points_,
      (min_bound.x ≤ p.x ∧ p.x ≤ max_bound.x) ∧ (min_bound.y ≤ p.y ∧ p.y ≤ max_bound.y) ∧
        (min_bound.z ≤ p.z ∧ p.z ≤ max_bound.z)) ∧
    (input_cloud.HasNormals = true →
      (ClipPointCloud input_cloud min_bound max_bound output_cloud).2.normals_ =
        (clipSelected input_cloud min_bound max_bound).map
          (fun i => input_cloud.normals_.getD i default)) ∧
    (input_cloud.HasColors = true →
      (ClipPointCloud input_cloud min_bound max_bound output_cloud).2.colors_ =
        (clipSelected input_cloud min_bound max_bound).map
          (fun i => input_cloud.colors_.getD i default)) := by
  rw [clipPointCloud_closed input_cloud min_bound max_bound output_cloud hpoints hbox]
  have hfilter : (clipSelected input_cloud min_bound max_bound).map
      (fun i => input_cloud.points_.getD i default) =
      input_cloud.points_.filter (inBox min_bound max_bound) :=
    filter_index_map input_cloud.points_ (inBox min_bound max_bound)
  refine ⟨rfl, ?_, ?_, rfl, hfilter, ?_, ?_, ?_⟩
  · exact List.Pairwise.filter _ (List.pairwise_lt_range _)
  · intro i
    simp only [clipSelected, List.mem_filter, List.mem_range, inBox_iff]
  · intro p hp
    simp only [hfilter, List.mem_filter, inBox_iff] at hp
    exact hp.2
  · intro hn
    simp only [hn, if_true]
  · intro hc
    simp only [hc, if_true]

theorem clipPointCloud_subset_witness :
    (0 < (PointCloud.mk [⟨0, 0, 0⟩, ⟨3, 0, 0⟩, ⟨1, 1, 1⟩, ⟨1 / 2, 0, 2⟩]
        [⟨0, 0, 1⟩, ⟨0, 1, 0⟩, ⟨1, 0, 0⟩, ⟨0, 0, 1⟩] []).points_.length ∧
      ((Vector3d.mk 0 0 0).x ≤ (Vector3d.mk 1 1 1).x ∧
        (Vector3d.mk 0 0 0).y ≤ (Vector3d.mk 1 1 1).y ∧
        (Vector3d.mk 0 0 0).z ≤ (Vector3d.mk 1 1 1).z)) ∧
    (ClipPointCloud ⟨[⟨0, 0, 0⟩, ⟨3, 0, 0⟩, ⟨1, 1, 1⟩, ⟨1 / 2, 0, 2⟩],
        [⟨0, 0, 1⟩, ⟨0, 1, 0⟩, ⟨1, 0, 0⟩, ⟨0, 0, 1⟩], []⟩ ⟨0, 0, 0⟩ ⟨1, 1, 1⟩
        ⟨[], [], []⟩).2.points_ =
      (PointCloud.mk [⟨0, 0, 0⟩, ⟨3, 0, 0⟩, ⟨1, 1, 1⟩, ⟨1 / 2, 0, 2⟩]
        [⟨0, 0, 1⟩, ⟨0, 1, 0⟩, ⟨1, 0, 0⟩, ⟨0, 0, 1⟩] []).points_.filter
          (inBox ⟨0, 0, 0⟩ ⟨1, 1, 1⟩) :=
  ⟨⟨by decide, by decide!⟩,
    (clipPointCloud_subset ⟨[⟨0, 0, 0⟩, ⟨3, 0, 0⟩, ⟨1, 1, 1⟩, ⟨1 / 2, 0, 2⟩],
        [⟨0, 0, 1⟩, ⟨0, 1, 0⟩, ⟨1, 0, 0⟩, ⟨0, 0, 1⟩], []⟩ ⟨0, 0, 0⟩ ⟨1, 1, 1⟩ ⟨[], [], []⟩
      (by decide) (by decide!)).2.2.2.2.1⟩

/-- Claim C8: `ClipPointCloud` returns false exactly when the input has no points or
`min_bound` exceeds `max_bound` on at least one axis; a box with `min_bound <= max_bound` on
every axis that contains no point of a non-empty input gives success with an output of zero
points; and `min_bound = (1,1,1)`, `max_bound = (0,0,0)` gives false. -/
theorem clipPointCloud_false_iff (input_cloud : PointCloud) (min_bound max_bound : Vector3d)
    (output_cloud : PointCloud) :
    ((ClipPointCloud input_cloud min_bound max_bound output_cloud).1 = false ↔
      (input_cloud.points_.length = 0 ∨ min_bound.x > max_bound.x ∨
        min_bound.y > max_bound.y ∨ min_bound.z > max_bound.z)) ∧
    (0 < input_cloud.points_.length →
      (min_bound.x ≤ max_bound.x ∧ min_bound.y ≤ max_bound.y ∧ min_bound.z ≤ max_bound.z) →
      (∀ p ∈ input_cloud.points_, inBox min_bound max_bound p = false) →
      (ClipPointCloud input_cloud min_bound max_bound output_cloud).1 = true ∧
      (ClipPointCloud input_cloud min_bound max_bound output_cloud).2.points_.length = 0) ∧
    (ClipPointCloud input_cloud ⟨1, 1, 1⟩ ⟨0, 0, 0⟩ output_cloud).1 = false := by
  refine ⟨?_, ?_, ?_⟩
  · by_cases h1 : 0 < input_cloud.points_.length
    · by_cases h2 : min_bound.x > max_bound.x ∨ min_bound.y > max_bound.y ∨
          min_bound.z > max_bound.z
      · have h3 : input_cloud.points_.length ≠ 0 := Nat.pos_iff_ne_zero.1 h1
        simp only [ClipPointCloud, PointCloud.HasPoints, h1, decide_True, h2, h3, if_true,
          false_or]
        simp
      · have h3 : input_cloud.points_.length ≠ 0 := Nat.pos_iff_ne_zero.1 h1
        have hbox : min_bound.x ≤ max_bound.x ∧ min_bound.y ≤ max_bound.y ∧
            min_bound.z ≤ max_bound.z := by
          simp only [gt_iff_lt, not_or, not_lt] at h2
          exact h2
        rw [clipPointCloud_closed input_cloud min_bound max_bound output_cloud h1 hbox]
        simp only [h3, false_or]
        constructor
        · intro h; exact absurd h (by decide)
        · intro h; exact absurd h h2
    · have h3 : input_cloud.points_.length = 0 := by omega
      simp [ClipPointCloud, PointCloud.HasPoints, h3]
  · intro h1 hbox hnone
    rw [clipPointCloud_closed input_cloud min_bound max_bound output_cloud h1 hbox]
    refine ⟨rfl, ?_⟩
    have hsel : clipSelected input_cloud min_bound max_bound = [] := by
      unfold clipSelected
      rw [List.filter_eq_nil_iff]
      intro i hi
      rw [hnone _ (getD_mem_of_lt _ _ (List.mem_range.1 hi))]
      decide
    simp [hsel]
  · have hb : (Vector3d.mk 1 1 1).x > (Vector3d.mk 0 0 0).x := by
      show (0 : ℚ) < 1
      norm_num
    by_cases h1 : input_cloud.HasPoints = false
    · simp [ClipPointCloud, h1]
    · simp [ClipPointCloud, h1, hb]

theorem clipPointCloud_false_iff_witness :
    (0 < (PointCloud.mk [⟨0, 0, 0⟩, ⟨3, 0, 0⟩] [] []).points_.length ∧
      ((Vector3d.mk 1 1 1).x ≤ (Vector3d.mk 1 1 1).x ∧
        (Vector3d.mk 1 1 1).y ≤ (Vector3d.mk 1 1 1).y ∧
        (Vector3d.mk 1 1 1).z ≤ (Vector3d.mk 1 1 1).z) ∧
      inBox ⟨1, 1, 1⟩ ⟨1, 1, 1⟩ ⟨0, 0, 0⟩ = false ∧
      inBox ⟨1, 1, 1⟩ ⟨1, 1, 1⟩ ⟨3, 0, 0⟩ = false) ∧
    (ClipPointCloud ⟨[⟨0, 0, 0⟩, ⟨3, 0, 0⟩], [], []⟩ ⟨1, 1, 1⟩ ⟨1, 1, 1⟩ ⟨[], [], []⟩).1 = true ∧
    (ClipPointCloud ⟨[⟨0, 0, 0⟩, ⟨3, 0, 0⟩], [], []⟩ ⟨1, 1, 1⟩ ⟨1, 1, 1⟩
      ⟨[], [], []⟩).2.points_.length = 0 :=
  ⟨⟨by decide, by decide!, by decide!, by decide!⟩,
    (clipPointCloud_false_iff ⟨[⟨0, 0, 0⟩, ⟨3, 0, 0⟩], [], []⟩ ⟨1, 1, 1⟩ ⟨1, 1, 1⟩
      ⟨[], [], []⟩).2.1 (by decide) (by decide!) (by decide!)⟩

/-- Claim C9 (full-box clip identity): for every non-empty cloud of the data model (normals
and colors empty or as long as the points), `ClipPointCloud` with `min_bound` the
componentwise minimum and `max_bound` the componentwise maximum of its points returns true
and an output equal to the input: same points, normals and colors, in the same order. -/
theorem clipPointCloud_full_box (input_cloud : PointCloud) (output_cloud : PointCloud)
    (hpoints : 0 < input_cloud.points_.length) (hinv : input_cloud.Invariant) :
    ClipPointCloud input_cloud input_cloud.GetMinBound input_cloud.GetMaxBound output_cloud =
      (true, input_cloud) := by
  rw [clipPointCloud_closed input_cloud _ _ output_cloud hpoints
    (getMinBound_mem_bounds input_cloud hpoints), clipSelected_full]
  have h1 := map_getD_range input_cloud.points_
  have h2 := attribute_copy input_cloud.points_ input_cloud.normals_ hpoints hinv.1
  have h3 := attribute_copy input_cloud.points_ input_cloud.colors_ hpoints hinv.2
  unfold PointCloud.HasNormals PointCloud.HasColors
  rw [h1, h2, h3]

theorem clipPointCloud_full_box_witness :
    (0 < (PointCloud.mk [⟨0, 0, 0⟩, ⟨3, 0, 0⟩, ⟨1, 1, 1⟩, ⟨1 / 2, 0, 2⟩]
        [⟨0, 0, 1⟩, ⟨0, 1, 0⟩, ⟨1, 0, 0⟩, ⟨0, 0, 1⟩] []).points_.length ∧
      (PointCloud.mk [⟨0, 0, 0⟩, ⟨3, 0, 0⟩, ⟨1, 1, 1⟩, ⟨1 / 2, 0, 2⟩]
        [⟨0, 0, 1⟩, ⟨0, 1, 0⟩, ⟨1, 0, 0⟩, ⟨0, 0, 1⟩] []).Invariant) ∧
    ClipPointCloud ⟨[⟨0, 0, 0⟩, ⟨3, 0, 0⟩, ⟨1, 1, 1⟩, ⟨1 / 2, 0, 2⟩],
        [⟨0, 0, 1⟩, ⟨0, 1, 0⟩, ⟨1, 0, 0⟩, ⟨0, 0, 1⟩], []⟩
      (PointCloud.mk [⟨0, 0, 0⟩, ⟨3, 0, 0⟩, ⟨1, 1, 1⟩, ⟨1 / 2, 0, 2⟩]
        [⟨0, 0, 1⟩, ⟨0, 1, 0⟩, ⟨1, 0, 0⟩, ⟨0, 0, 1⟩] []).GetMinBound
      (PointCloud.mk [⟨0, 0, 0⟩, ⟨3, 0, 0⟩, ⟨1, 1, 1⟩, ⟨1 / 2, 0, 2⟩]
        [⟨0, 0, 1⟩, ⟨0, 1, 0⟩, ⟨1, 0, 0⟩, ⟨0, 0, 1⟩] []).GetMaxBound
      ⟨[⟨9, 9, 9⟩], [], []⟩ =
      (true, ⟨[⟨0, 0, 0⟩, ⟨3, 0, 0⟩, ⟨1, 1, 1⟩, ⟨1 / 2, 0, 2⟩],
        [⟨0, 0, 1⟩, ⟨0, 1, 0⟩, ⟨1, 0, 0⟩, ⟨0, 0, 1⟩], []⟩) :=
  ⟨⟨by decide, by decide!⟩,
    clipPointCloud_full_box ⟨[⟨0, 0, 0⟩, ⟨3, 0, 0⟩, ⟨1, 1, 1⟩, ⟨1 / 2, 0, 2⟩],
        [⟨0, 0, 1⟩, ⟨0, 1, 0⟩, ⟨1, 0, 0⟩, ⟨0, 0, 1⟩], []⟩ ⟨[⟨9, 9, 9⟩], [], []⟩
      (by decide) (by decide!)⟩

/-- Claim C10: `UniformDownSample` returns false exactly when the input has no points or
`every_k_points <= 0`; with `every_k_points = 0` it returns false. -/
theorem uniformDownSample_false_iff (input_cloud : PointCloud) (every_k_points : Int)
    (output_cloud : PointCloud) :
    ((UniformDownSample input_cloud every_k_points output_cloud).1 = false ↔
      (input_cloud.points_.length = 0 ∨ every_k_points ≤ 0)) ∧
    (UniformDownSample input_cloud 0 output_cloud).1 = false := by
  constructor
  · by_cases h1 : 0 < input_cloud.points_.length
    · have h3 : input_cloud.points_.length ≠ 0 := Nat.pos_iff_ne_zero.1 h1
      by_cases h2 : every_k_points ≤ 0
      · simp [UniformDownSample, PointCloud.HasPoints, h1, h2]
      · simp [UniformDownSample, PointCloud.HasPoints, h1, h2, h3]
    · have h3 : input_cloud.points_.length = 0 := by omega
      simp [UniformDownSample, PointCloud.HasPoints, h3]
  · by_cases h1 : input_cloud.HasPoints = false
    · simp [UniformDownSample, h1]
    · simp [UniformDownSample, h1]

/-! ## Claims on the call contract shared by the three filters -/

/-- Claim C11 (no partial output on failure): for each of `VoxelDownSample`,
`UniformDownSample` and `ClipPointCloud` and every prior content of the output cloud, a call
that returns false leaves the output with zero points, zero normals and zero colors, and the
result (flag and output) does not depend on the prior content of the output cloud.  For
`VoxelDownSample` this holds for every arithmetic on `double`. -/
theorem no_partial_output (fp : FloatOps) (normalized : Vector3d → Vector3d) (input_cloud : PointCloud)
    (voxel_size : ℚ) (every_k_points : Int) (min_bound max_bound : Vector3d)
    (output_cloud prior : PointCloud) :
    (((VoxelDownSample fp normalized input_cloud voxel_size output_cloud).1 = false →
        (VoxelDownSample fp normalized input_cloud voxel_size output_cloud).2 = ⟨[], [], []⟩) ∧
      VoxelDownSample fp normalized input_cloud voxel_size output_cloud =
        VoxelDownSample fp normalized input_cloud voxel_size prior) ∧
    (((UniformDownSample input_cloud every_k_points output_cloud).1 = false →
        (UniformDownSample input_cloud every_k_points output_cloud).2 = ⟨[], [], []⟩) ∧
      UniformDownSample input_cloud every_k_points output_cloud =
        UniformDownSample input_cloud every_k_points prior) ∧
    (((ClipPointCloud input_cloud min_bound max_bound output_cloud).1 = false →
        (ClipPointCloud input_cloud min_bound max_bound output_cloud).2 = ⟨[], [], []⟩) ∧
      ClipPointCloud input_cloud min_bound max_bound output_cloud =
        ClipPointCloud input_cloud min_bound max_bound prior) := by
  refine ⟨⟨?_, rfl⟩, ⟨?_, rfl⟩, ⟨?_, rfl⟩⟩
  · intro h
    rcases voxelDownSample_cases fp normalized input_cloud voxel_size output_cloud with h1 | h1
    · rw [h1]
    · rw [h1] at h
      simp at h
  · intro h
    rcases uniformDownSample_cases input_cloud every_k_points output_cloud with
      h1 | ⟨is, _, h1⟩
    · rw [h1]
    · rw [h1] at h
      simp at h
  · intro h
    rcases clipPointCloud_cases input_cloud min_bound max_bound output_cloud with h1 | h1
    · rw [h1]
    · rw [h1] at h
      simp at h

theorem no_partial_output_witness :
    (VoxelDownSample FloatOps.binary64 id ⟨[⟨0, 0, 0⟩, ⟨1, 0, 0⟩], [], []⟩ 0
      ⟨[⟨9, 9, 9⟩], [⟨0, 0, 1⟩], []⟩).1 = false ∧
    (VoxelDownSample FloatOps.binary64 id ⟨[⟨0, 0, 0⟩, ⟨1, 0, 0⟩], [], []⟩ 0
      ⟨[⟨9, 9, 9⟩], [⟨0, 0, 1⟩], []⟩).2 = ⟨[], [], []⟩ :=
  ⟨by decide!,
    (no_partial_output FloatOps.binary64 id ⟨[⟨0, 0, 0⟩, ⟨1, 0, 0⟩], [], []⟩ 0 0 ⟨1, 1, 1⟩ ⟨0, 0, 0⟩
      ⟨[⟨9, 9, 9⟩], [⟨0, 0, 1⟩], []⟩ ⟨[], [], []⟩).1.1 (by decide!)⟩

/-- Claim C12 (attribute lockstep): for each of the three filters and every input satisfying
the `PointCloud` invariant, on success the output has as many normals as points when the
input has normals and no normals otherwise, the same for colors; hence the output satisfies
the `PointCloud` invariant again.  For `VoxelDownSample` this holds for every arithmetic on
`double`. -/
theorem attribute_lockstep (fp : FloatOps) (normalized : Vector3d → Vector3d) (input_cloud : PointCloud)
    (voxel_size : ℚ) (every_k_points : Int) (min_bound max_bound : Vector3d)
    (output_cloud : PointCloud) (hinv : input_cloud.Invariant) :
    ((VoxelDownSample fp normalized input_cloud voxel_size output_cloud).1 = true →
      Lockstep input_cloud (VoxelDownSample fp normalized input_cloud voxel_size output_cloud).2 ∧
      (VoxelDownSample fp normalized input_cloud voxel_size output_cloud).2.Invariant) ∧
    ((UniformDownSample input_cloud every_k_points output_cloud).1 = true →
      Lockstep input_cloud (UniformDownSample input_cloud every_k_points output_cloud).2 ∧
      (UniformDownSample input_cloud every_k_points output_cloud).2.Invariant) ∧
    ((ClipPointCloud input_cloud min_bound max_bound output_cloud).1 = true →
      Lockstep input_cloud (ClipPointCloud input_cloud min_bound max_bound output_cloud).2 ∧
      (ClipPointCloud input_cloud min_bound max_bound output_cloud).2.Invariant) := by
  refine ⟨?_, ?_, ?_⟩
  · intro h
    have hpos := ((voxelDownSample_true_iff _ _ _ _ _).1 h).1
    rcases voxelDownSample_cases fp normalized input_cloud voxel_size output_cloud with h1 | h1
    · rw [h1] at h
      simp at h
    · rw [h1]
      exact lockstep_of_output_shape input_cloud hpos hinv _ _ _ _
  · intro h
    have hpos := (uniformDownSample_true_pos _ _ _ h).1
    rcases uniformDownSample_cases input_cloud every_k_points output_cloud with
      h1 | ⟨is, _, h1⟩
    · rw [h1] at h
      simp at h
    · rw [h1]
      exact lockstep_of_output_shape input_cloud hpos hinv _ _ _ _
  · intro h
    have hpos := (clipPointCloud_true_pos _ _ _ _ h).1
    rcases clipPointCloud_cases input_cloud min_bound max_bound output_cloud with h1 | h1
    · rw [h1] at h
      simp at h
    · rw [h1]
      exact lockstep_of_output_shape input_cloud hpos hinv _ _ _ _

theorem attribute_lockstep_witness :
    ((PointCloud.mk [⟨0, 0, 0⟩, ⟨3, 0, 0⟩, ⟨1, 1, 1⟩] [⟨0, 0, 1⟩, ⟨0, 1, 0⟩, ⟨1, 0, 0⟩]
        []).Invariant ∧
      (ClipPointCloud ⟨[⟨0, 0, 0⟩, ⟨3, 0, 0⟩, ⟨1, 1, 1⟩], [⟨0, 0, 1⟩, ⟨0, 1, 0⟩, ⟨1, 0, 0⟩], []⟩
        ⟨0, 0, 0⟩ ⟨1, 1, 1⟩ ⟨[], [], []⟩).1 = true) ∧
    (ClipPointCloud ⟨[⟨0, 0, 0⟩, ⟨3, 0, 0⟩, ⟨1, 1, 1⟩], [⟨0, 0, 1⟩, ⟨0, 1, 0⟩, ⟨1, 0, 0⟩], []⟩
      ⟨0, 0, 0⟩ ⟨1, 1, 1⟩ ⟨[], [], []⟩).2.Invariant :=
  ⟨⟨by decide!, by decide!⟩,
    ((attribute_lockstep FloatOps.binary64 id
      ⟨[⟨0, 0, 0⟩, ⟨3, 0, 0⟩, ⟨1, 1, 1⟩], [⟨0, 0, 1⟩, ⟨0, 1, 0⟩, ⟨1, 0, 0⟩], []⟩ 1 1
      ⟨0, 0, 0⟩ ⟨1, 1, 1⟩ ⟨[], [], []⟩ (by decide!)).2.2 (by decide!)).2⟩

/-- Claim C15 (cardinality bound): for each of the three filters and every input and
parameter value, the output has at most as many points as the input, whether the call
succeeds or fails.  For `VoxelDownSample` this holds for every arithmetic on `double`. -/
theorem cardinality_bound (fp : FloatOps) (normalized : Vector3d → Vector3d) (input_cloud : PointCloud)
    (voxel_size : ℚ) (every_k_points : Int) (min_bound max_bound : Vector3d)
    (output_cloud : PointCloud) :
    (VoxelDownSample fp normalized input_cloud voxel_size output_cloud).2.points_.length ≤
      input_cloud.points_.length ∧
    (UniformDownSample input_cloud every_k_points output_cloud).2.points_.length ≤
      input_cloud.points_.length ∧
    (ClipPointCloud input_cloud min_bound max_bound output_cloud).2.points_.length ≤
      input_cloud.points_.length := by
  refine ⟨?_, ?_, ?_⟩
  · rcases voxelDownSample_cases fp normalized input_cloud voxel_size output_cloud with h1 | h1
    · rw [h1]; exact Nat.zero_le _
    · rw [h1]
      simp only [List.length_map]
      exact length_voxelAccumulate_le _ _ _
  · rcases uniformDownSample_cases input_cloud every_k_points output_cloud with
      h1 | ⟨is, hlen, h1⟩
    · rw [h1]; exact Nat.zero_le _
    · rw [h1]
      simp only [List.length_map]
      exact hlen
  · rcases clipPointCloud_cases input_cloud min_bound max_bound output_cloud with h1 | h1
    · rw [h1]; exact Nat.zero_le _
    · rw [h1]
      simp only [List.length_map]
      exact length_clipSelected_le _ _ _

/-! ## Algebraic claims on `ClipPointCloud` and `UniformDownSample` -/

/-- Claim C20: `ClipPointCloud` is idempotent on non-empty results: for a non-empty cloud and
a box with `min_bound <= max_bound` on every axis, if the first clip's output has at least
one point, clipping that output again with the same box returns true and the same cloud; if
it has zero points, clipping it again returns false. -/
theorem clipPointCloud_idempotent (input_cloud : PointCloud)
    (min_bound max_bound : Vector3d) (output_cloud second_output : PointCloud)
    (hpoints : 0 < input_cloud.points_.length)
    (hbox : min_bound.x ≤ max_bound.x ∧ min_bound.y ≤ max_bound.y ∧
      min_bound.z ≤ max_bound.z) :
    (0 < (ClipPointCloud input_cloud min_bound max_bound output_cloud).2.points_.length →
      ClipPointCloud (ClipPointCloud input_cloud min_bound max_bound output_cloud).2
        min_bound max_bound second_output =
        (true, (ClipPointCloud input_cloud min_bound max_bound output_cloud).2)) ∧
    ((ClipPointCloud input_cloud min_bound max_bound output_cloud).2.points_.length = 0 →
      (ClipPointCloud (ClipPointCloud input_cloud min_bound max_bound output_cloud).2
        min_bound max_bound second_output).1 = false) := by
  rw [clipPointCloud_closed input_cloud min_bound max_bound output_cloud hpoints hbox]
  constructor
  · intro hpos
    apply clipPointCloud_identity _ _ _ _ hpos hbox
    · exact (lockstep_of_shape _ _ _ _ _ _).2.2
    · intro p hp
      have hfilter : (clipSelected input_cloud min_bound max_bound).map
          (fun i => input_cloud.points_.getD i default) =
          input_cloud.points_.filter (inBox min_bound max_bound) :=
        filter_index_map input_cloud.points_ (inBox min_bound max_bound)
      simp only [hfilter, List.mem_filter] at hp
      exact hp.2
  · intro hzero
    rw [clipPointCloud_of_no_points _ _ _ _ hzero]

theorem clipPointCloud_idempotent_witness :
    (0 < (PointCloud.mk [⟨0, 0, 0⟩, ⟨3, 0, 0⟩, ⟨1, 1, 1⟩] [⟨0, 0, 1⟩, ⟨0, 1, 0⟩, ⟨1, 0, 0⟩]
        []).points_.length ∧
      ((Vector3d.mk 0 0 0).x ≤ (Vector3d.mk 1 1 1).x ∧
        (Vector3d.mk 0 0 0).y ≤ (Vector3d.mk 1 1 1).y ∧
        (Vector3d.mk 0 0 0).z ≤ (Vector3d.mk 1 1 1).z) ∧
      0 < (ClipPointCloud
        ⟨[⟨0, 0, 0⟩, ⟨3, 0, 0⟩, ⟨1, 1, 1⟩], [⟨0, 0, 1⟩, ⟨0, 1, 0⟩, ⟨1, 0, 0⟩], []⟩
        ⟨0, 0, 0⟩ ⟨1, 1, 1⟩ ⟨[], [], []⟩).2.points_.length) ∧
    ClipPointCloud
      (ClipPointCloud
        ⟨[⟨0, 0, 0⟩, ⟨3, 0, 0⟩, ⟨1, 1, 1⟩], [⟨0, 0, 1⟩, ⟨0, 1, 0⟩, ⟨1, 0, 0⟩], []⟩
        ⟨0, 0, 0⟩ ⟨1, 1, 1⟩ ⟨[], [], []⟩).2
      ⟨0, 0, 0⟩ ⟨1, 1, 1⟩ ⟨[], [], []⟩ =
      (true, (ClipPointCloud
        ⟨[⟨0, 0, 0⟩, ⟨3, 0, 0⟩, ⟨1, 1, 1⟩], [⟨0, 0, 1⟩, ⟨0, 1, 0⟩, ⟨1, 0, 0⟩], []⟩
        ⟨0, 0, 0⟩ ⟨1, 1, 1⟩ ⟨[], [], []⟩).2) :=
  ⟨⟨by decide, by decide!, by decide!⟩,
    (clipPointCloud_idempotent
      ⟨[⟨0, 0, 0⟩, ⟨3, 0, 0⟩, ⟨1, 1, 1⟩], [⟨0, 0, 1⟩, ⟨0, 1, 0⟩, ⟨1, 0, 0⟩], []⟩
      ⟨0, 0, 0⟩ ⟨1, 1, 1⟩ ⟨[], [], []⟩ ⟨[], [], []⟩ (by decide) (by decide!)).1 (by decide!)⟩

/-- Claim C19 (stride 1 returns the input), evaluated where the code breaks it: for a cloud
of `2^31` points, which satisfies the invariant of the data model, `UniformDownSample` with
stride 1 returns true and an empty cloud, not the input: the size converted by
`static_cast<int>` is negative and the loop is not entered. -/
theorem uniformDownSample_stride_one_huge_cloud :
    (0 < (PointCloud.mk (List.replicate 2147483648 ⟨0, 0, 0⟩) [] []).points_.length ∧
      (PointCloud.mk (List.replicate 2147483648 ⟨0, 0, 0⟩) [] []).Invariant) ∧
    UniformDownSample ⟨List.replicate 2147483648 ⟨0, 0, 0⟩, [], []⟩ 1 ⟨[], [], []⟩ =
      (true, ⟨[], [], []⟩) ∧
    (UniformDownSample ⟨List.replicate 2147483648 ⟨0, 0, 0⟩, [], []⟩ 1 ⟨[], [], []⟩).2 ≠
      ⟨List.replicate 2147483648 ⟨0, 0, 0⟩, [], []⟩ := by
  have hlen : (PointCloud.mk (List.replicate 2147483648 ⟨0, 0, 0⟩) [] []).points_.length =
      2147483648 := List.length_replicate _ _
  have hres := uniformDownSample_wrap
    ⟨List.replicate 2147483648 ⟨0, 0, 0⟩, [], []⟩ 1 ⟨[], [], []⟩ (by decide) hlen
  refine ⟨⟨?_, Or.inl rfl, Or.inl rfl⟩, hres, ?_⟩
  · rw [hlen]
    decide
  · rw [hres]
    intro h
    have h2 := congrArg (fun c : PointCloud => c.points_.length) h
    simp only [List.length_nil] at h2
    rw [hlen] at h2
    exact absurd h2 (by decide)

/-! ## Reordering the input of `VoxelDownSample` -/

/-- Claim C18: `VoxelDownSample` is invariant under reordering of the input: for every cloud
and every permutation applied simultaneously to its points, normals and colors, the success
flag is the same, for every arithmetic on `double`, and, in exact arithmetic, the emitted
positions and the emitted (position, color) pairs are the same up to order. -/
theorem voxelDownSample_reorder (fp : FloatOps) (normalized : Vector3d → Vector3d)
    (σ : List Nat) (input_cloud : PointCloud) (voxel_size : ℚ)
    (output_cloud other_output : PointCloud)
    (hσ : σ.Perm (List.range input_cloud.points_.length)) :
    (VoxelDownSample fp normalized (permuteCloud σ input_cloud) voxel_size output_cloud).1 =
      (VoxelDownSample fp normalized input_cloud voxel_size other_output).1 ∧
    (VoxelDownSample FloatOps.exact normalized (permuteCloud σ input_cloud) voxel_size
      output_cloud).2.points_.Perm
      (VoxelDownSample FloatOps.exact normalized input_cloud voxel_size
        other_output).2.points_ ∧
    (List.zip
      (VoxelDownSample FloatOps.exact normalized (permuteCloud σ input_cloud) voxel_size
        output_cloud).2.points_
      (VoxelDownSample FloatOps.exact normalized (permuteCloud σ input_cloud) voxel_size
        output_cloud).2.colors_).Perm
      (List.zip
        (VoxelDownSample FloatOps.exact normalized input_cloud voxel_size
          other_output).2.points_
        (VoxelDownSample FloatOps.exact normalized input_cloud voxel_size
          other_output).2.colors_) := by
  have hperm : (permuteCloud σ input_cloud).points_.Perm input_cloud.points_ :=
    permuteList_perm σ input_cloud.points_ hσ
  obtain ⟨hmin, hmax⟩ := bounds_of_perm _ _ hperm
  have hlen : (permuteCloud σ input_cloud).points_.length = input_cloud.points_.length :=
    hperm.length_eq
  have hiff : ∀ gp : FloatOps,
      ((VoxelDownSample gp normalized (permuteCloud σ input_cloud) voxel_size
        output_cloud).1 = true ↔
      (VoxelDownSample gp normalized input_cloud voxel_size other_output).1 = true) := by
    intro gp
    rw [voxelDownSample_true_iff, voxelDownSample_true_iff, hlen,
      passesExtentGuard_congr gp _ input_cloud voxel_size hmin hmax]
  have hflag : ∀ gp : FloatOps,
      (VoxelDownSample gp normalized (permuteCloud σ input_cloud) voxel_size
        output_cloud).1 =
      (VoxelDownSample gp normalized input_cloud voxel_size other_output).1 := by
    intro gp
    cases h : (VoxelDownSample gp normalized input_cloud voxel_size other_output).1 with
    | true => exact (hiff gp).2 h
    | false =>
      cases h2 : (VoxelDownSample gp normalized (permuteCloud σ input_cloud) voxel_size
          output_cloud).1 with
      | false => rfl
      | true =>
        rw [(hiff gp).1 h2] at h
        exact absurd h (by decide)
  refine ⟨hflag fp, ?_⟩
  by_cases hsucc :
      (VoxelDownSample FloatOps.exact normalized input_cloud voxel_size other_output).1 =
        true
  · have hsucc2 := (hiff FloatOps.exact).2 hsucc
    obtain ⟨a1, a2, _, a3⟩ := voxelDownSample_zip_colors_perm FloatOps.exact normalized
      input_cloud voxel_size other_output hsucc
    obtain ⟨b1, b2, _, b3⟩ := voxelDownSample_zip_colors_perm FloatOps.exact normalized
      (permuteCloud σ input_cloud) voxel_size output_cloud hsucc2
    have hocc := occupied_perm FloatOps.exact _ input_cloud voxel_size hperm hmin
    have hmean : (fun v => accAverage FloatOps.exact
          (voxelPoints FloatOps.exact (permuteCloud σ input_cloud) voxel_size v)) =
        (fun v => accAverage FloatOps.exact
          (voxelPoints FloatOps.exact input_cloud voxel_size v)) :=
      funext (fun v => accAverage_perm _ _
        (voxelPoints_perm FloatOps.exact _ input_cloud voxel_size hperm hmin v))
    refine ⟨?_, ?_⟩
    · refine b1.trans (List.Perm.trans ?_ a1.symm)
      rw [hmean]
      exact hocc.map _
    · by_cases hc : input_cloud.HasColors = true
      · have hc2 : (permuteCloud σ input_cloud).HasColors = true := by
          rw [(permuteCloud_has σ input_cloud).2.2]; exact hc
        have hpc : (fun v => (accAverage FloatOps.exact
              (voxelPoints FloatOps.exact (permuteCloud σ input_cloud) voxel_size v),
            accAverage FloatOps.exact
              (voxelColors FloatOps.exact (permuteCloud σ input_cloud) voxel_size v))) =
            (fun v => (accAverage FloatOps.exact
              (voxelPoints FloatOps.exact input_cloud voxel_size v),
            accAverage FloatOps.exact
              (voxelColors FloatOps.exact input_cloud voxel_size v))) := by
          funext v
          rw [accAverage_perm _ _
              (voxelPoints_perm FloatOps.exact _ input_cloud voxel_size hperm hmin v),
            accAverage_perm _ _
              (voxelColors_perm FloatOps.exact σ input_cloud voxel_size v hσ hc hmin)]
        refine (b2 hc2).trans (List.Perm.trans ?_ (a2 hc).symm)
        rw [hpc]
        exact hocc.map _
      · have hc1 : input_cloud.HasColors = false := by
          cases h : input_cloud.HasColors with
          | false => rfl
          | true => exact absurd h hc
        have hc2 : (permuteCloud σ input_cloud).HasColors = false := by
          rw [(permuteCloud_has σ input_cloud).2.2]; exact hc1
        rw [a3 hc1, b3 hc2]
        simp
  · have hf2 : (VoxelDownSample FloatOps.exact normalized input_cloud voxel_size
        other_output).1 = false := by
      cases h : (VoxelDownSample FloatOps.exact normalized input_cloud voxel_size
          other_output).1 with
      | false => rfl
      | true => exact absurd h hsucc
    have hf1 : (VoxelDownSample FloatOps.exact normalized (permuteCloud σ input_cloud)
        voxel_size output_cloud).1 = false := by
      rw [hflag FloatOps.exact]
      exact hf2
    have e1 : (VoxelDownSample FloatOps.exact normalized (permuteCloud σ input_cloud)
        voxel_size output_cloud).2 = ⟨[], [], []⟩ := by
      rcases voxelDownSample_cases FloatOps.exact normalized (permuteCloud σ input_cloud)
        voxel_size output_cloud with h1 | h1
      · rw [h1]
      · rw [h1] at hf1; simp at hf1
    have e2 : (VoxelDownSample FloatOps.exact normalized input_cloud voxel_size
        other_output).2 = ⟨[], [], []⟩ := by
      rcases voxelDownSample_cases FloatOps.exact normalized input_cloud voxel_size
        other_output with h1 | h1
      · rw [h1]
      · rw [h1] at hf2; simp at hf2
    rw [e1, e2]
    exact ⟨List.Perm.refl _, List.Perm.refl _⟩

theorem voxelDownSample_reorder_witness :
    ([2, 0, 1] : List Nat).Perm (List.range (PointCloud.mk
      [⟨0, 0, 0⟩, ⟨1 / 4, 0, 0⟩, ⟨1, 0, 0⟩] [] [⟨1, 0, 0⟩, ⟨0, 1, 0⟩, ⟨0, 0, 1⟩]).points_.length) ∧
    permuteCloud [2, 0, 1]
      ⟨[⟨0, 0, 0⟩, ⟨1 / 4, 0, 0⟩, ⟨1, 0, 0⟩], [], [⟨1, 0, 0⟩, ⟨0, 1, 0⟩, ⟨0, 0, 1⟩]⟩ =
      ⟨[⟨1, 0, 0⟩, ⟨0, 0, 0⟩, ⟨1 / 4, 0, 0⟩], [], [⟨0, 0, 1⟩, ⟨1, 0, 0⟩, ⟨0, 1, 0⟩]⟩ ∧
    (List.zip
      (VoxelDownSample FloatOps.exact id (permuteCloud [2, 0, 1]
        ⟨[⟨0, 0, 0⟩, ⟨1 / 4, 0, 0⟩, ⟨1, 0, 0⟩], [], [⟨1, 0, 0⟩, ⟨0, 1, 0⟩, ⟨0, 0, 1⟩]⟩) 1
        ⟨[], [], []⟩).2.points_
      (VoxelDownSample FloatOps.exact id (permuteCloud [2, 0, 1]
        ⟨[⟨0, 0, 0⟩, ⟨1 / 4, 0, 0⟩, ⟨1, 0, 0⟩], [], [⟨1, 0, 0⟩, ⟨0, 1, 0⟩, ⟨0, 0, 1⟩]⟩) 1
        ⟨[], [], []⟩).2.colors_).Perm
      (List.zip
        (VoxelDownSample FloatOps.exact id
          ⟨[⟨0, 0, 0⟩, ⟨1 / 4, 0, 0⟩, ⟨1, 0, 0⟩], [], [⟨1, 0, 0⟩, ⟨0, 1, 0⟩, ⟨0, 0, 1⟩]⟩ 1
          ⟨[], [], []⟩).2.points_
        (VoxelDownSample FloatOps.exact id
          ⟨[⟨0, 0, 0⟩, ⟨1 / 4, 0, 0⟩, ⟨1, 0, 0⟩], [], [⟨1, 0, 0⟩, ⟨0, 1, 0⟩, ⟨0, 0, 1⟩]⟩ 1
          ⟨[], [], []⟩).2.colors_) :=
  ⟨by decide!, by decide!,
    (voxelDownSample_reorder FloatOps.binary64 id [2, 0, 1]
      ⟨[⟨0, 0, 0⟩, ⟨1 / 4, 0, 0⟩, ⟨1, 0, 0⟩], [], [⟨1, 0, 0⟩, ⟨0, 1, 0⟩, ⟨0, 0, 1⟩]⟩ 1
      ⟨[], [], []⟩ ⟨[], [], []⟩ (by decide!)).2.2⟩

/-! ## Claims on `VoxelDownSample` that hold in exact arithmetic only -/

/-- Claim C5, as stated, fails, in three ways, each shown in the binary64 arithmetic of the
program.  (a) The grid starts half a voxel below the minimum bound: the points `(0,0,0)` and
`(1,0,0)` lie in a cube of side `voxel_size = 1`, yet the call emits two points.
(b) Rounding: the points `(0,0,0)` and `(1 - 2^-53, 0, 0)` with `voxel_size = 2` have an
extent below `voxel_size / 2`, yet `(1 - 2^-53) + 1` rounds to `2`, the second point gets the
index `(1,0,0)`, and the call emits two points.  (c) The 32-bit count: `2^31` copies of
`(1,0,0)` with `voxel_size = 1` give the single point `(-1,0,0)`, not their mean. -/
theorem centroid_counterexample :
    (((extent ⟨[⟨0, 0, 0⟩, ⟨1, 0, 0⟩], [], []⟩).x ≤ 1 ∧
        (extent ⟨[⟨0, 0, 0⟩, ⟨1, 0, 0⟩], [], []⟩).y ≤ 1 ∧
        (extent ⟨[⟨0, 0, 0⟩, ⟨1, 0, 0⟩], [], []⟩).z ≤ 1) ∧
      (VoxelDownSample FloatOps.binary64 id ⟨[⟨0, 0, 0⟩, ⟨1, 0, 0⟩], [], []⟩ 1
        ⟨[], [], []⟩).1 = true ∧
      (VoxelDownSample FloatOps.binary64 id ⟨[⟨0, 0, 0⟩, ⟨1, 0, 0⟩], [], []⟩ 1
        ⟨[], [], []⟩).2.points_.length = 2) ∧
    (((extent ⟨[⟨0, 0, 0⟩, ⟨9007199254740991 / 9007199254740992, 0, 0⟩], [], []⟩).x <
          2 / 2 ∧
        (extent ⟨[⟨0, 0, 0⟩, ⟨9007199254740991 / 9007199254740992, 0, 0⟩], [], []⟩).y <
          2 / 2 ∧
        (extent ⟨[⟨0, 0, 0⟩, ⟨9007199254740991 / 9007199254740992, 0, 0⟩], [], []⟩).z <
          2 / 2) ∧
      (VoxelDownSample FloatOps.binary64 id
        ⟨[⟨0, 0, 0⟩, ⟨9007199254740991 / 9007199254740992, 0, 0⟩], [], []⟩ 2
        ⟨[], [], []⟩).1 = true ∧
      (VoxelDownSample FloatOps.binary64 id
        ⟨[⟨0, 0, 0⟩, ⟨9007199254740991 / 9007199254740992, 0, 0⟩], [], []⟩ 2
        ⟨[], [], []⟩).2.points_.length = 2) ∧
    (extent ⟨List.replicate 2147483648 ⟨1, 0, 0⟩, [], []⟩ = ⟨0, 0, 0⟩ ∧
      VoxelDownSample FloatOps.binary64 id ⟨List.replicate 2147483648 ⟨1, 0, 0⟩, [], []⟩ 1
        ⟨[], [], []⟩ = (true, ⟨[⟨-1, 0, 0⟩], [], []⟩) ∧
      mean FloatOps.exact
        (PointCloud.mk (List.replicate 2147483648 ⟨1, 0, 0⟩) [] []).points_ = ⟨1, 0, 0⟩) :=
  ⟨by decide!, by decide!,
    extent_of_replicate _ 2147483648 ⟨1, 0, 0⟩ (by decide) rfl,
    voxelDownSample_wrapped_count,
    mean_exact_replicate 2147483648 (by decide) ⟨1, 0, 0⟩⟩

/-- Claim C5, amended: in exact arithmetic, for every cloud of `N >= 1` and at most
`INT_MAX` points whose extent is strictly less than `voxel_size / 2` on every axis, with
`voxel_size > 0`, `VoxelDownSample` succeeds and yields exactly one output point, the
arithmetic mean of the `N` input points.  In the arithmetic of the code, however it rounds,
a successful call on such a cloud yields exactly one output point, the quotient
`sum / count` of the `N` input points, whenever all points get the same voxel index. -/
theorem voxelDownSample_centroid (fp : FloatOps) (normalized : Vector3d → Vector3d)
    (input_cloud : PointCloud) (voxel_size : ℚ) (output_cloud : PointCloud)
    (hpoints : 0 < input_cloud.points_.length)
    (hmax : (input_cloud.points_.length : Int) ≤ INT_MAX) (hsize : 0 < voxel_size)
    (hx : (extent input_cloud).x < voxel_size / 2)
    (hy : (extent input_cloud).y < voxel_size / 2)
    (hz : (extent input_cloud).z < voxel_size / 2) :
    ((VoxelDownSample FloatOps.exact normalized input_cloud voxel_size output_cloud).1 =
        true ∧
      (VoxelDownSample FloatOps.exact normalized input_cloud voxel_size
        output_cloud).2.points_ = [mean FloatOps.exact input_cloud.points_]) ∧
    ((VoxelDownSample fp normalized input_cloud voxel_size output_cloud).1 = true →
      ∀ v, (∀ p ∈ input_cloud.points_, pointIndex fp input_cloud voxel_size p = v) →
        (VoxelDownSample fp normalized input_cloud voxel_size output_cloud).2.points_ =
          [mean fp input_cloud.points_]) := by
  have h := voxelDownSample_single_voxel normalized input_cloud voxel_size output_cloud
    hpoints hmax hsize hx hy hz
  exact ⟨⟨h.1, h.2.1⟩, fun hsucc v hidx =>
    voxelDownSample_one_index fp normalized input_cloud voxel_size output_cloud v hmax hsucc
      hidx⟩

/-- Claim C5, amended, at three points within a quarter of `voxel_size = 5`: the call
succeeds with their mean as the one output point. -/
theorem voxelDownSample_centroid_witness :
    (0 < (PointCloud.mk [⟨0, 0, 0⟩, ⟨1, 0, 0⟩, ⟨1 / 4, 2, 0⟩] [] []).points_.length ∧
      ((PointCloud.mk [⟨0, 0, 0⟩, ⟨1, 0, 0⟩, ⟨1 / 4, 2, 0⟩] [] []).points_.length : Int) ≤
        INT_MAX ∧
      (0 : ℚ) < 5 ∧
      (extent ⟨[⟨0, 0, 0⟩, ⟨1, 0, 0⟩, ⟨1 / 4, 2, 0⟩], [], []⟩).x < 5 / 2 ∧
      (extent ⟨[⟨0, 0, 0⟩, ⟨1, 0, 0⟩, ⟨1 / 4, 2, 0⟩], [], []⟩).y < 5 / 2 ∧
      (extent ⟨[⟨0, 0, 0⟩, ⟨1, 0, 0⟩, ⟨1 / 4, 2, 0⟩], [], []⟩).z < 5 / 2) ∧
    (VoxelDownSample FloatOps.exact id ⟨[⟨0, 0, 0⟩, ⟨1, 0, 0⟩, ⟨1 / 4, 2, 0⟩], [], []⟩ 5
      ⟨[], [], []⟩).1 = true ∧
    (VoxelDownSample FloatOps.exact id ⟨[⟨0, 0, 0⟩, ⟨1, 0, 0⟩, ⟨1 / 4, 2, 0⟩], [], []⟩ 5
      ⟨[], [], []⟩).2.points_ =
      [mean FloatOps.exact [⟨0, 0, 0⟩, ⟨1, 0, 0⟩, ⟨1 / 4, 2, 0⟩]] :=
  ⟨⟨by decide, by decide, by norm_num, by decide!, by decide!, by decide!⟩,
    (voxelDownSample_centroid FloatOps.binary64 id
      ⟨[⟨0, 0, 0⟩, ⟨1, 0, 0⟩, ⟨1 / 4, 2, 0⟩], [], []⟩ 5 ⟨[], [], []⟩
      (by decide) (by decide) (by norm_num) (by decide!) (by decide!) (by decide!)).1⟩

/-- Claim C16, as stated, fails, in three ways, each shown in the binary64 arithmetic of the
program.  (a) Eight copies of `(0.7,0,0)` (the `double` nearest to `0.7`) with
`voxel_size = 1`: the rounded sum divided by `8` is the next `double` above `0.7`, so the
emitted position lies above `GetMaxBound(input)`.  (b) The point with
`x = next(0.7) - 0.375`, eight copies of `x = 0.7` and the point with `x = next(0.7)`, with
`voxel_size = 0.25`: three voxels, two of which emit the same position.  (c) The 32-bit
count: `2^31` copies of `(1,0,0)` with `voxel_size = 1` give the position `(-1,0,0)`, below
`GetMinBound(input)`. -/
theorem in_cell_counterexample :
    (VoxelDownSample FloatOps.binary64 id
        ⟨List.replicate 8 ⟨3152519739159347 / 4503599627370496, 0, 0⟩, [], []⟩ 1
        ⟨[], [], []⟩ =
        (true, ⟨[⟨6305039478318695 / 9007199254740992, 0, 0⟩], [], []⟩) ∧
      (PointCloud.mk (List.replicate 8 ⟨3152519739159347 / 4503599627370496, 0, 0⟩) []
        []).GetMaxBound.x < 6305039478318695 / 9007199254740992) ∧
    ((VoxelDownSample FloatOps.binary64 id
        ⟨⟨2927339757790823 / 9007199254740992, 0, 0⟩ ::
          (List.replicate 8 ⟨3152519739159347 / 4503599627370496, 0, 0⟩ ++
            [⟨6305039478318695 / 9007199254740992, 0, 0⟩]), [], []⟩ (1 / 4)
        ⟨[], [], []⟩).1 = true ∧
      ¬ (VoxelDownSample FloatOps.binary64 id
        ⟨⟨2927339757790823 / 9007199254740992, 0, 0⟩ ::
          (List.replicate 8 ⟨3152519739159347 / 4503599627370496, 0, 0⟩ ++
            [⟨6305039478318695 / 9007199254740992, 0, 0⟩]), [], []⟩ (1 / 4)
        ⟨[], [], []⟩).2.points_.Nodup) ∧
    (VoxelDownSample FloatOps.binary64 id ⟨List.replicate 2147483648 ⟨1, 0, 0⟩, [], []⟩ 1
        ⟨[], [], []⟩ = (true, ⟨[⟨-1, 0, 0⟩], [], []⟩) ∧
      (PointCloud.mk (List.replicate 2147483648 ⟨1, 0, 0⟩) [] []).GetMinBound =
        ⟨1, 0, 0⟩) :=
  ⟨by decide!, by decide!, voxelDownSample_wrapped_count,
    (bounds_of_replicate _ 2147483648 ⟨1, 0, 0⟩ (by decide) rfl).1⟩

/-- Claim C16, amended: in exact arithmetic, for every successful `VoxelDownSample` call in
which no voxel has more than `INT_MAX` points, each emitted position lies in the voxel cell
it represents: recomputing `floor((q - min_bound) / voxel_size)` for the emitted mean `q`
gives the index of its voxel; hence the emitted positions are pairwise distinct, and each
lies componentwise between `GetMinBound(input)` and `GetMaxBound(input)`. -/
theorem voxelDownSample_in_cell (normalized : Vector3d → Vector3d)
    (input_cloud : PointCloud) (voxel_size : ℚ) (output_cloud : PointCloud)
    (hfit : ∀ v,
      ((voxelPoints FloatOps.exact input_cloud voxel_size v).length : Int) ≤ INT_MAX)
    (hsuccess : (VoxelDownSample FloatOps.exact normalized input_cloud voxel_size
      output_cloud).1 = true) :
    (VoxelDownSample FloatOps.exact normalized input_cloud voxel_size
      output_cloud).2.points_ =
      (voxelAccumulate FloatOps.exact input_cloud voxel_size).map
        (fun e => e.2.GetAveragePoint FloatOps.exact) ∧
    (∀ e ∈ voxelAccumulate FloatOps.exact input_cloud voxel_size,
      specVoxelIndex input_cloud voxel_size (e.2.GetAveragePoint FloatOps.exact) = e.1 ∧
      voxelIndex FloatOps.exact (voxelMinBound FloatOps.exact input_cloud voxel_size)
        voxel_size (e.2.GetAveragePoint FloatOps.exact) = e.1) ∧
    (VoxelDownSample FloatOps.exact normalized input_cloud voxel_size
      output_cloud).2.points_.Nodup ∧
    ∀ q ∈ (VoxelDownSample FloatOps.exact normalized input_cloud voxel_size
        output_cloud).2.points_,
      (input_cloud.GetMinBound.x ≤ q.x ∧ q.x ≤ input_cloud.GetMaxBound.x) ∧
      (input_cloud.GetMinBound.y ≤ q.y ∧ q.y ≤ input_cloud.GetMaxBound.y) ∧
      (input_cloud.GetMinBound.z ≤ q.z ∧ q.z ≤ input_cloud.GetMaxBound.z) := by
  obtain ⟨_, hs, hg⟩ := (voxelDownSample_true_iff _ _ _ _ _).1 hsuccess
  rw [voxelDownSample_output FloatOps.exact normalized input_cloud voxel_size output_cloud
    hsuccess]
  refine ⟨rfl, ?_, ?_, ?_⟩
  · intro e he
    have h := voxelAccumulate_mean_facts input_cloud voxel_size hs hg hfit e he
    exact ⟨h.2.1, h.2.2.1⟩
  · have hkeys := nodup_keys_voxelAccumulate FloatOps.exact input_cloud voxel_size
    apply List.Nodup.map_on _ hkeys.of_map
    intro e1 he1 e2 he2 heq
    apply entry_eq_of_key_eq _ hkeys e1 e2 he1 he2
    rw [← (voxelAccumulate_mean_facts input_cloud voxel_size hs hg hfit e1 he1).2.1,
      ← (voxelAccumulate_mean_facts input_cloud voxel_size hs hg hfit e2 he2).2.1, heq]
  · intro q hq
    obtain ⟨e, he, rfl⟩ := List.mem_map.1 hq
    exact (voxelAccumulate_mean_facts input_cloud voxel_size hs hg hfit e he).2.2.2

/-- Claim C16, amended, at the points `(0,0,0)`, `(1,0,0)`, `(1/4,0,0)` with
`voxel_size = 1`: the call succeeds and the emitted positions are pairwise distinct. -/
theorem voxelDownSample_in_cell_witness :
    ((∀ v, ((voxelPoints FloatOps.exact ⟨[⟨0, 0, 0⟩, ⟨1, 0, 0⟩, ⟨1 / 4, 0, 0⟩], [], []⟩ 1
        v).length : Int) ≤ INT_MAX) ∧
      (VoxelDownSample FloatOps.exact id ⟨[⟨0, 0, 0⟩, ⟨1, 0, 0⟩, ⟨1 / 4, 0, 0⟩], [], []⟩ 1
        ⟨[], [], []⟩).1 = true) ∧
    (VoxelDownSample FloatOps.exact id ⟨[⟨0, 0, 0⟩, ⟨1, 0, 0⟩, ⟨1 / 4, 0, 0⟩], [], []⟩ 1
      ⟨[], [], []⟩).2.points_.Nodup :=
  ⟨⟨voxelPoints_fit_of_size _ _ _ (by decide), by decide!⟩,
    (voxelDownSample_in_cell id ⟨[⟨0, 0, 0⟩, ⟨1, 0, 0⟩, ⟨1 / 4, 0, 0⟩], [], []⟩ 1 ⟨[], [], []⟩
      (voxelPoints_fit_of_size _ _ _ (by decide)) (by decide!)).2.2.1⟩

/-- Claim C17, as stated, fails, in two ways, each shown in the binary64 arithmetic of the
program.  (a) Rounding: the points `(0,0,0)` and `(1 - 2^-53, 0, 0)` with `voxel_size = 2`
have an extent below `voxel_size / 2` on every axis, yet `(1 - 2^-53) + 1` rounds to `2`,
the second point gets the index `(1,0,0)`, and the call emits two points.  (b) The 32-bit
count: `2^31` copies of `(1,0,0)` with `voxel_size = 1` give the single point `(-1,0,0)`,
not their mean. -/
theorem half_voxel_counterexample :
    (((extent ⟨[⟨0, 0, 0⟩, ⟨9007199254740991 / 9007199254740992, 0, 0⟩], [], []⟩).x <
          2 / 2 ∧
        (extent ⟨[⟨0, 0, 0⟩, ⟨9007199254740991 / 9007199254740992, 0, 0⟩], [], []⟩).y <
          2 / 2 ∧
        (extent ⟨[⟨0, 0, 0⟩, ⟨9007199254740991 / 9007199254740992, 0, 0⟩], [], []⟩).z <
          2 / 2) ∧
      pointIndex FloatOps.binary64
        ⟨[⟨0, 0, 0⟩, ⟨9007199254740991 / 9007199254740992, 0, 0⟩], [], []⟩ 2
        ⟨9007199254740991 / 9007199254740992, 0, 0⟩ = (1, 0, 0) ∧
      (VoxelDownSample FloatOps.binary64 id
        ⟨[⟨0, 0, 0⟩, ⟨9007199254740991 / 9007199254740992, 0, 0⟩], [], []⟩ 2
        ⟨[], [], []⟩).1 = true ∧
      (VoxelDownSample FloatOps.binary64 id
        ⟨[⟨0, 0, 0⟩, ⟨9007199254740991 / 9007199254740992, 0, 0⟩], [], []⟩ 2
        ⟨[], [], []⟩).2.points_.length = 2) ∧
    (extent ⟨List.replicate 2147483648 ⟨1, 0, 0⟩, [], []⟩ = ⟨0, 0, 0⟩ ∧
      VoxelDownSample FloatOps.binary64 id ⟨List.replicate 2147483648 ⟨1, 0, 0⟩, [], []⟩ 1
        ⟨[], [], []⟩ = (true, ⟨[⟨-1, 0, 0⟩], [], []⟩) ∧
      mean FloatOps.exact
        (PointCloud.mk (List.replicate 2147483648 ⟨1, 0, 0⟩) [] []).points_ = ⟨1, 0, 0⟩) :=
  ⟨by decide!,
    extent_of_replicate _ 2147483648 ⟨1, 0, 0⟩ (by decide) rfl,
    voxelDownSample_wrapped_count,
    mean_exact_replicate 2147483648 (by decide) ⟨1, 0, 0⟩⟩

/-- Claim C17, amended: in exact arithmetic, for every non-empty cloud of at most `INT_MAX`
points whose extent on every axis is strictly less than `voxel_size / 2`, `VoxelDownSample`
with that `voxel_size` succeeds, puts all points in voxel index `(0,0,0)` and yields exactly
one output point, the arithmetic mean of all input points.  In the arithmetic of the code,
however it rounds, a successful call on such a cloud yields exactly one output point, the
quotient `sum / count` of all input points, whenever all points get the voxel index
`(0,0,0)`.  And there is a cloud whose extent on every axis is at least `voxel_size / 2` and
at most `voxel_size` for which the call succeeds with more than one output point, in exact
arithmetic for every such `voxel_size` and in binary64 arithmetic for the cloud `(0,0,0)`,
`(1,1,1)` with `voxel_size = 1`. -/
theorem voxelDownSample_half_voxel (fp : FloatOps) (normalized : Vector3d → Vector3d)
    (input_cloud : PointCloud) (voxel_size : ℚ) (output_cloud : PointCloud)
    (hpoints : 0 < input_cloud.points_.length)
    (hmax : (input_cloud.points_.length : Int) ≤ INT_MAX)
    (hx : (extent input_cloud).x < voxel_size / 2)
    (hy : (extent input_cloud).y < voxel_size / 2)
    (hz : (extent input_cloud).z < voxel_size / 2) :
    ((VoxelDownSample FloatOps.exact normalized input_cloud voxel_size output_cloud).1 =
        true ∧
      (∀ p ∈ input_cloud.points_,
        voxelIndex FloatOps.exact (voxelMinBound FloatOps.exact input_cloud voxel_size)
          voxel_size p = (0, 0, 0)) ∧
      (VoxelDownSample FloatOps.exact normalized input_cloud voxel_size
        output_cloud).2.points_ = [mean FloatOps.exact input_cloud.points_]) ∧
    ((VoxelDownSample fp normalized input_cloud voxel_size output_cloud).1 = true →
      (∀ p ∈ input_cloud.points_,
        voxelIndex fp (voxelMinBound fp input_cloud voxel_size) voxel_size p = (0, 0, 0)) →
      (VoxelDownSample fp normalized input_cloud voxel_size output_cloud).2.points_ =
        [mean fp input_cloud.points_]) ∧
    (∃ c : PointCloud,
      (voxel_size / 2 ≤ (extent c).x ∧ (extent c).x ≤ voxel_size) ∧
      (voxel_size / 2 ≤ (extent c).y ∧ (extent c).y ≤ voxel_size) ∧
      (voxel_size / 2 ≤ (extent c).z ∧ (extent c).z ≤ voxel_size) ∧
      (VoxelDownSample FloatOps.exact normalized c voxel_size output_cloud).1 = true ∧
      1 < (VoxelDownSample FloatOps.exact normalized c voxel_size
        output_cloud).2.points_.length) ∧
    (extent ⟨[⟨0, 0, 0⟩, ⟨1, 1, 1⟩], [], []⟩ = ⟨1, 1, 1⟩ ∧
      (VoxelDownSample FloatOps.binary64 id ⟨[⟨0, 0, 0⟩, ⟨1, 1, 1⟩], [], []⟩ 1
        ⟨[], [], []⟩).1 = true ∧
      (VoxelDownSample FloatOps.binary64 id ⟨[⟨0, 0, 0⟩, ⟨1, 1, 1⟩], [], []⟩ 1
        ⟨[], [], []⟩).2.points_.length = 2) := by
  have hs := voxel_size_pos_of_small input_cloud voxel_size hpoints hx
  have h := voxelDownSample_single_voxel normalized input_cloud voxel_size output_cloud
    hpoints hmax hs hx hy hz
  obtain ⟨hext, hflag, hlen⟩ := voxelDownSample_two_corners normalized voxel_size
    output_cloud hs
  refine ⟨⟨h.1, h.2.2, h.2.1⟩,
    fun hsucc hidx => voxelDownSample_one_index fp normalized input_cloud voxel_size
      output_cloud (0, 0, 0) hmax hsucc hidx,
    ⟨⟨[⟨0, 0, 0⟩, ⟨voxel_size, voxel_size, voxel_size⟩], [], []⟩, ?_, ?_, ?_, hflag, ?_⟩,
    by decide!⟩
  · rw [hext]
    exact ⟨by linarith, le_refl _⟩
  · rw [hext]
    exact ⟨by linarith, le_refl _⟩
  · rw [hext]
    exact ⟨by linarith, le_refl _⟩
  · rw [hlen]
    decide

/-- Claim C17, amended, at three points within a quarter of `voxel_size = 5`: the one output
point is their mean. -/
theorem voxelDownSample_half_voxel_witness :
    (0 < (PointCloud.mk [⟨0, 0, 0⟩, ⟨1, 0, 0⟩, ⟨1 / 4, 2, 0⟩] [] []).points_.length ∧
      ((PointCloud.mk [⟨0, 0, 0⟩, ⟨1, 0, 0⟩, ⟨1 / 4, 2, 0⟩] [] []).points_.length : Int) ≤
        INT_MAX ∧
      (extent ⟨[⟨0, 0, 0⟩, ⟨1, 0, 0⟩, ⟨1 / 4, 2, 0⟩], [], []⟩).x < 5 / 2 ∧
      (extent ⟨[⟨0, 0, 0⟩, ⟨1, 0, 0⟩, ⟨1 / 4, 2, 0⟩], [], []⟩).y < 5 / 2 ∧
      (extent ⟨[⟨0, 0, 0⟩, ⟨1, 0, 0⟩, ⟨1 / 4, 2, 0⟩], [], []⟩).z < 5 / 2) ∧
    (VoxelDownSample FloatOps.exact id ⟨[⟨0, 0, 0⟩, ⟨1, 0, 0⟩, ⟨1 / 4, 2, 0⟩], [], []⟩ 5
      ⟨[], [], []⟩).2.points_ =
      [mean FloatOps.exact [⟨0, 0, 0⟩, ⟨1, 0, 0⟩, ⟨1 / 4, 2, 0⟩]] :=
  ⟨⟨by decide, by decide, by decide!, by decide!, by decide!⟩,
    (voxelDownSample_half_voxel FloatOps.binary64 id
      ⟨[⟨0, 0, 0⟩, ⟨1, 0, 0⟩, ⟨1 / 4, 2, 0⟩], [], []⟩ 5 ⟨[], [], []⟩
      (by decide) (by decide) (by decide!) (by decide!) (by decide!)).1.2.2⟩

end three
